import Mathlib

/-!
# VirtuOS virtual-memory core: shallow embedding

The address-space layer (`kern/vm/addrspace.c`) and the fault handler and
three-level page table (`kern/vm/vm.c`) as Lean functions over explicit state.

* Machine words (`vaddr_t`, `paddr_t`, `uint32_t`, `size_t`) are `Nat`, reduced
  modulo `2^32` wherever the C arithmetic can wrap.
* A C function that can dereference a NULL or uninitialised pointer, index
  outside an array, or loop forever returns a `Res`: `ok` with its result,
  `trap` for the invalid access, `hang` for non-termination.
* Kernel-global state the functions reach (allocator outcomes, the frame
  reference-count table, the TLB, the current process) is the record `World`.
* A pointer to a list node is an index into the node store of its address
  space; the page table is a tree of arrays, each array a function of the index.
* The contents of physical frames, the interrupt priority level, the heap
  lock's wait queue and the memory that `kfree` gives back are not modelled.
-/

namespace VirtuOS

/-! ## Outcomes -/

/-- Outcome of running a C function of the kernel. -/
inductive Res (α : Type) where
  /-- The function returned. -/
  | ok (a : α) : Res α
  /-- NULL or uninitialised pointer dereference, or out-of-bounds array index. -/
  | trap : Res α
  /-- The function does not return. -/
  | hang : Res α
deriving DecidableEq

namespace Res

/-- Sequencing: a trap or hang of the first computation is the outcome. -/
def bind {α β : Type} (x : Res α) (f : α → Res β) : Res β :=
  match x with
  | ok a => f a
  | trap => trap
  | hang => hang

instance : Monad Res where
  pure := Res.ok
  bind := Res.bind

/-- The returned value, or a default when the function did not return. -/
def getD {α : Type} (x : Res α) (d : α) : α :=
  match x with
  | ok a => a
  | _ => d

/-- Whether the function returned. -/
def isOk {α : Type} (x : Res α) : Bool :=
  match x with
  | ok _ => true
  | _ => false

end Res

/-- Whether the function ran into an invalid memory access. -/
def Res.isTrap {α : Type} (x : Res α) : Bool :=
  match x with
  | .trap => true
  | _ => false

/-! ## Constants

The headers that define these macros (`kern/errno.h`, `machine/vm.h`,
`mips/tlb.h`, `elf.h`) are not part of the sources at hand; the values are the
ones the specification states, or, where it names the macro only, the values
of the MIPS port the sources are written for. -/

/-- The `SUCCESS` macro of `addrspace.h`. -/
def SUCCESS : Nat := 0
/-- Modelled from the spec: the *out-of-memory* error kind, `ENOMEM` of `kern/errno.h`. -/
def ENOMEM : Nat := 3
/-- Modelled from the spec: the *bad-address* error kind, `EFAULT` of `kern/errno.h`. -/
def EFAULT : Nat := 6
/-- Modelled from the spec: the *invalid* error kind, `EINVAL` of `kern/errno.h`. -/
def EINVAL : Nat := 8

/-- Modelled from the spec: `PAGE_SIZE = 4096`. -/
def PAGE_SIZE : Nat := 4096
/-- Modelled from the spec: the frame mask `PAGE_FRAME` (high 20 bits of a word). -/
def PAGE_FRAME : Nat := 0xfffff000
/-- Modelled from the spec: the kernel segment boundary `KSEG0 = 0x80000000`. -/
def MIPS_KSEG0 : Nat := 0x80000000
/-- Modelled from the spec: `USERSTACK = 0x80000000`. -/
def USERSTACK : Nat := 0x80000000
/-- Modelled from the spec: `STACK_LIMIT = 16 × PAGE_SIZE`. -/
def STACK_LIMIT : Nat := 16 * 4096
/-- Modelled from the spec: `LEVEL1_LIMIT = 256`. -/
def LEVEL1_LIMIT : Nat := 256
/-- Modelled from the spec: `LEVEL2_AND_3_LIMIT = 64`. -/
def LEVEL2_AND_3_LIMIT : Nat := 64
/-- Modelled from the spec: the `DIRTY` (writable) bit of a PTE, `TLBLO_DIRTY` of `mips/tlb.h`. -/
def TLBLO_DIRTY : Nat := 0x400
/-- Modelled from the spec: the `VALID` bit of a PTE, `TLBLO_VALID` of `mips/tlb.h`. -/
def TLBLO_VALID : Nat := 0x200
/-- Modelled from the spec: the virtual-page mask `TLBHI_VPAGE` of `mips/tlb.h`. -/
def TLBHI_VPAGE : Nat := 0xfffff000
/-- Modelled from the spec: number of TLB slots, `NUM_TLB` of `mips/tlb.h`. -/
def NUM_TLB : Nat := 64
/-- Modelled from the spec: `TLBHI_INVALID(i)`, the entry-hi word of an invalid slot. -/
def TLBHI_INVALID (i : Nat) : Nat := (0x80000 + i) * 4096
/-- Modelled from the spec: `TLBLO_INVALID()`, the entry-lo word of an invalid slot. -/
def TLBLO_INVALID : Nat := 0
/-- Modelled from the spec: ELF segment flag `PF_R` (readable). -/
def PF_R : Nat := 4
/-- Modelled from the spec: ELF segment flag `PF_W` (writeable). -/
def PF_W : Nat := 2
/-- Modelled from the spec: ELF segment flag `PF_X` (executable). -/
def PF_X : Nat := 1
/-- Modelled from the spec: fault kind READ (load miss). -/
def VM_FAULT_READ : Nat := 0
/-- Modelled from the spec: fault kind WRITE (store miss). -/
def VM_FAULT_WRITE : Nat := 1
/-- Modelled from the spec: fault kind READONLY (write to a read-only translation). -/
def VM_FAULT_READONLY : Nat := 2

/-- Size of the 32-bit machine word. -/
def WORD : Nat := 2 ^ 32

/-- The C expression `~TLBLO_DIRTY` on a 32-bit word. -/
def NOT_DIRTY : Nat := WORD - 1 - TLBLO_DIRTY

/-- The C expression `~(vaddr_t)PAGE_FRAME`: the offset mask `0xfff`. -/
def NOT_PAGE_FRAME : Nat := WORD - 1 - PAGE_FRAME

/-! ## Data model (`addrspace.h`) -/

/-- A level-3 array: 64 page-table entries. -/
abbrev Level3 := Nat → Nat

/-- One slot of a level-2 array: a pointer to a level-3 array. A slot of a
`kmalloc`ed level-2 array that no code has written yet is `junk`. -/
inductive Slot where
  | null : Slot
  | junk : Slot
  | ptr (a : Level3) : Slot

/-- A level-2 array: 64 slots. -/
abbrev Level2 := Nat → Slot

/-- The `struct PageTable`: `Pages` is the 256-slot level-1 array. -/
structure PageTable where
  Pages : Nat → Option Level2

/-- The `struct addrspace_region`. `next` is a pointer into the node store of
the owning address space. -/
structure addrspace_region where
  base_addr : Nat
  end_addr : Nat
  readable : Nat
  writeable : Nat
  executable : Nat
  is_readonly : Bool
  next : Option Nat
deriving DecidableEq

/-- The `struct Heap_region`. `Heap_lock` records whether the lock is held. -/
structure Heap_region where
  base_heap_addr : Nat
  cur_heap_break : Nat
  readable : Nat
  writeable : Nat
  executable : Nat
  Heap_lock : Bool
deriving DecidableEq

/-- The `struct Mmap_Region`. `next` is a pointer into the node store of the
owning address space. -/
structure Mmap_Region where
  Base_address : Nat
  length : Nat
  File_descriptor : Nat
  File_offset : Nat
  File_prot : Nat
  Num_pages : Nat
  next : Option Nat
deriving DecidableEq

/-- The `struct addrspace`. A `Region_t` / `Mmap_Region_t` pointer is an index
into `region_nodes` / `mmap_nodes`, the nodes `kmalloc`ed for this address
space in allocation order; `none` is NULL. -/
structure addrspace where
  region_nodes : List addrspace_region
  addr_region_base : Option Nat
  addr_region_end : Option Nat
  Proc_heap : Heap_region
  mmap_nodes : List Mmap_Region
  File_region_base : Option Nat
  File_region_end : Option Nat
  PageTable : PageTable

/-- Kernel state outside the address space. -/
structure World where
  /-- Outcomes of the coming `kmalloc` calls (`true`: memory is returned);
  calls past the end of the list succeed. -/
  kmallocs : List Bool
  /-- Physical addresses the frame allocator proposes for the coming
  `alloc_kpages` calls; `0`, or a call past the end of the list, is failure. -/
  kpages : List Nat
  /-- The frame reference-count table, keyed on the physical frame address. -/
  refcount : Nat → Nat
  /-- The TLB: slot ↦ (entry-hi, entry-lo). -/
  tlb : Nat → Nat × Nat
  /-- The hardware register that picks the slot of `tlb_random`. -/
  random : Nat
  /-- Whether `curproc` is non-NULL. -/
  curproc : Bool
  /-- Whether the current process has an address space. -/
  curas : Bool
  /-- Byte counts returned by the coming `read` calls; past the end, `0`. -/
  reads : List Nat

/-! ## External collaborators -/

/-- Modelled from the spec: `kmalloc`, the kernel heap allocator; it either
returns memory or NULL. -/
def kmalloc (w : World) : Bool × World :=
  match w.kmallocs with
  | [] => (true, w)
  | b :: rest => (b, { w with kmallocs := rest })

/-! ## Page table (`vm.c`) -/

/-- Array store `a[i] = v`. -/
def store {β : Type} (a : Nat → β) (i : Nat) (v : β) : Nat → β :=
  fun j => if j = i then v else a j

/-- First-level index: bits 31..24 of the address, as the source computes it. -/
def FLI_of (faultaddress : Nat) : Nat := (((faultaddress >>> 12) >>> 6) >>> 6) &&& 0xFF
/-- Second-level index: bits 23..18. -/
def SLI_of (faultaddress : Nat) : Nat := ((faultaddress >>> 12) >>> 6) &&& 0x3F
/-- Third-level index: bits 17..12. -/
def TLI_of (faultaddress : Nat) : Nat := (faultaddress >>> 12) &&& 0x3F

/-- The function `Page_table_lookup`: returns 0 when a level is absent, else the
stored word. Comparing or following a slot that was never written is a trap. -/
def Page_table_lookup (as : addrspace) (faultaddress : Nat) : Res Nat :=
  let TLI := TLI_of faultaddress
  let SLI := SLI_of faultaddress
  let FLI := FLI_of faultaddress
  match as.PageTable.Pages FLI with
  | none => .ok 0
  | some l2 =>
    match l2 SLI with
    | .null => .ok 0
    | .junk => .trap
    | .ptr l3 => .ok (l3 TLI)

/-- The function `init_level_two`: allocates the level-2 array under `Pages[FLI]` and fills
it with NULL. -/
def init_level_two (w : World) (as : addrspace) (FLI : Nat) : Res (Nat × World × addrspace) :=
  if LEVEL1_LIMIT ≤ FLI then .trap else
  match kmalloc w with
  | (false, w1) =>
    .ok (ENOMEM, w1, { as with PageTable := { Pages := store as.PageTable.Pages FLI none } })
  | (true, w1) =>
    .ok (SUCCESS, w1,
      { as with PageTable := { Pages := store as.PageTable.Pages FLI (some (fun _ => Slot.null)) } })

/-- The function `init_level_three`: allocates the level-3 array under `Pages[FLI][SLI]` and
fills it with 0. The store goes through `Pages[FLI]`, which must be present. -/
def init_level_three (w : World) (as : addrspace) (FLI SLI : Nat) :
    Res (Nat × World × addrspace) :=
  if LEVEL1_LIMIT ≤ FLI ∨ LEVEL2_AND_3_LIMIT ≤ SLI then .trap else
  match as.PageTable.Pages FLI with
  | none => .trap
  | some l2 =>
    match kmalloc w with
    | (false, w1) =>
      .ok (ENOMEM, w1,
        { as with PageTable := { Pages := store as.PageTable.Pages FLI (some (store l2 SLI Slot.null)) } })
    | (true, w1) =>
      .ok (SUCCESS, w1,
        { as with PageTable :=
            { Pages := store as.PageTable.Pages FLI (some (store l2 SLI (Slot.ptr (fun _ => 0)))) } })

/-- The final store `as->PageTable->Pages[FLI][SLI][TLI] = entry_lo`. -/
def Page_table_write (as : addrspace) (FLI SLI TLI entry_lo : Nat) : Res addrspace :=
  if LEVEL1_LIMIT ≤ FLI ∨ LEVEL2_AND_3_LIMIT ≤ SLI ∨ LEVEL2_AND_3_LIMIT ≤ TLI then .trap else
  match as.PageTable.Pages FLI with
  | none => .trap
  | some l2 =>
    match l2 SLI with
    | .null => .trap
    | .junk => .trap
    | .ptr l3 =>
      .ok { as with PageTable :=
              { Pages := store as.PageTable.Pages FLI
                  (some (store l2 SLI (Slot.ptr (store l3 TLI entry_lo)))) } }

/-- First conditional of `Page_table_Insert`: when `Pages[FLI]` is NULL, call
`init_level_two` and then `init_level_three`, discarding both results. -/
def Page_table_Insert_both (w : World) (as : addrspace) (FLI SLI : Nat) :
    Res (World × addrspace) :=
  match as.PageTable.Pages FLI with
  | none =>
    match init_level_two w as FLI with
    | .ok (_, w1, as1) =>
      match init_level_three w1 as1 FLI SLI with
      | .ok (_, w2, as2) => .ok (w2, as2)
      | .trap => .trap
      | .hang => .hang
    | .trap => .trap
    | .hang => .hang
  | some _ => .ok (w, as)

/-- Second conditional of `Page_table_Insert`: when `Pages[FLI]` is present and
`Pages[FLI][SLI]` is NULL, call `init_level_three`, discarding its result. -/
def Page_table_Insert_three (w : World) (as : addrspace) (FLI SLI : Nat) :
    Res (World × addrspace) :=
  match as.PageTable.Pages FLI with
  | none => .ok (w, as)
  | some l2 =>
    match l2 SLI with
    | .null =>
      match init_level_three w as FLI SLI with
      | .ok (_, w1, as1) => .ok (w1, as1)
      | .trap => .trap
      | .hang => .hang
    | .junk => .trap
    | .ptr _ => .ok (w, as)

/-- The function `Page_table_Insert`: the two conditionals, then the store of
`entry_lo`; it returns `SUCCESS` whenever it returns. -/
def Page_table_Insert (w : World) (as : addrspace) (FLI SLI TLI entry_lo : Nat) :
    Res (Nat × World × addrspace) :=
  if LEVEL1_LIMIT ≤ FLI then .trap else
  match Page_table_Insert_both w as FLI SLI with
  | .ok (w1, as1) =>
    match Page_table_Insert_three w1 as1 FLI SLI with
    | .ok (w2, as2) =>
      match Page_table_write as2 FLI SLI TLI entry_lo with
      | .ok as3 => .ok (SUCCESS, w2, as3)
      | .trap => .trap
      | .hang => .hang
    | .trap => .trap
    | .hang => .hang
  | .trap => .trap
  | .hang => .hang

/-- Modelled from the spec: `frame_ref_increase`, which adds one to the
reference count of a physical frame. -/
def frame_ref_increase (w : World) (frame : Nat) : World :=
  { w with refcount := store w.refcount frame (w.refcount frame + 1) }

/-- Modelled from the spec: `frame_ref_count_check`, the reference count of a
physical frame. -/
def frame_ref_count_check (w : World) (frame : Nat) : Nat := w.refcount frame

/-- One iteration of the loop of `Level_three_copy`, on the two level-3 arrays
`oldPT->Pages[i][j]` and `newPT->Pages[i][j]`. -/
def Level_three_copy_step (k : Nat) (s : World × Level3 × Level3) : World × Level3 × Level3 :=
  if s.2.1 k ≠ 0 then
    let o1 := store s.2.1 k (s.2.1 k &&& NOT_DIRTY)
    let n1 := store s.2.2 k (o1 k)
    (frame_ref_increase s.1 (n1 k &&& PAGE_FRAME), o1, n1)
  else (s.1, s.2.1, store s.2.2 k 0)

/-- The loop `for (k = 0; k < n; k++)` of `Level_three_copy`. -/
def Level_three_copy_loop : Nat → World × Level3 × Level3 → World × Level3 × Level3
  | 0, s => s
  | k + 1, s => Level_three_copy_step k (Level_three_copy_loop k s)

/-- The function `Level_three_copy`, for two distinct page tables. Both
`Pages[i][j]` arrays must be present. -/
def Level_three_copy (w : World) (oldPT newPT : PageTable) (i j : Nat) :
    Res (Nat × World × PageTable × PageTable) :=
  match oldPT.Pages i, newPT.Pages i with
  | some l2o, some l2n =>
    match l2o j, l2n j with
    | .ptr o, .ptr n =>
      let r := Level_three_copy_loop LEVEL2_AND_3_LIMIT (w, o, n)
      .ok (SUCCESS, r.1,
        { Pages := store oldPT.Pages i (some (store l2o j (.ptr r.2.1))) },
        { Pages := store newPT.Pages i (some (store l2n j (.ptr r.2.2))) })
    | _, _ => .trap
  | _, _ => .trap

/-- The loop of `Level_two_copy` from index `j`, with `n` iterations left. The
result of `Level_three_copy` is discarded, as in the source. -/
def Level_two_copy_loop (i : Nat) :
    Nat → Nat → World → PageTable → PageTable → Res (Nat × World × PageTable × PageTable)
  | 0, _, w, oldPT, newPT => .ok (SUCCESS, w, oldPT, newPT)
  | n + 1, j, w, oldPT, newPT =>
    match oldPT.Pages i, newPT.Pages i with
    | some l2o, some l2n =>
      match l2o j with
      | .junk => .trap
      | .null =>
        Level_two_copy_loop i n (j + 1) w oldPT
          { Pages := store newPT.Pages i (some (store l2n j .null)) }
      | .ptr _ =>
        match kmalloc w with
        | (false, w1) =>
          .ok (ENOMEM, w1, oldPT, { Pages := store newPT.Pages i (some (store l2n j .null)) })
        | (true, w1) =>
          match Level_three_copy w1 oldPT
              { Pages := store newPT.Pages i (some (store l2n j (.ptr (fun _ => 0)))) } i j with
          | .ok (_, w2, o2, n2) => Level_two_copy_loop i n (j + 1) w2 o2 n2
          | .trap => .trap
          | .hang => .hang
    | _, _ => .trap

/-- The function `Level_two_copy`. -/
def Level_two_copy (w : World) (oldPT newPT : PageTable) (i : Nat) :
    Res (Nat × World × PageTable × PageTable) :=
  Level_two_copy_loop i LEVEL2_AND_3_LIMIT 0 w oldPT newPT

/-- The loop of `Page_table_copy` from index `i`, with `n` iterations left. A
fresh level-2 array is uninitialised; the result of `Level_two_copy` is
discarded, as in the source. -/
def Page_table_copy_loop :
    Nat → Nat → World → PageTable → PageTable → Res (Nat × World × PageTable × PageTable)
  | 0, _, w, oldPT, newPT => .ok (SUCCESS, w, oldPT, newPT)
  | n + 1, i, w, oldPT, newPT =>
    match oldPT.Pages i with
    | some _ =>
      match kmalloc w with
      | (false, w1) => .ok (ENOMEM, w1, oldPT, { Pages := store newPT.Pages i none })
      | (true, w1) =>
        match Level_two_copy w1 oldPT
            { Pages := store newPT.Pages i (some (fun _ => Slot.junk)) } i with
        | .ok (_, w2, o2, n2) => Page_table_copy_loop n (i + 1) w2 o2 n2
        | .trap => .trap
        | .hang => .hang
    | none => Page_table_copy_loop n (i + 1) w oldPT { Pages := store newPT.Pages i none }

/-- The function `Page_table_copy`, for two distinct page tables. -/
def Page_table_copy (w : World) (oldPT newPT : PageTable) :
    Res (Nat × World × PageTable × PageTable) :=
  Page_table_copy_loop LEVEL1_LIMIT 0 w oldPT newPT

/-- The function `Page_table_Set`, giving the new table (NULL is `none`). When the level-1
array cannot be allocated the source calls `Page_table_free` on the table,
which reads that absent array. -/
def Page_table_Set (w : World) : Res (Option PageTable × World) :=
  match kmalloc w with
  | (false, w1) => .ok (none, w1)
  | (true, w1) =>
    match kmalloc w1 with
    | (false, _) => .trap
    | (true, w2) => .ok (some { Pages := fun _ => none }, w2)

/-- The function `Page_table_readonly` (strip-write): reads
`Pages[FLI][SLI][TLI]` with no NULL test and clears `DIRTY` when it is non-zero. -/
def Page_table_readonly (as : addrspace) (base_addr : Nat) : Res addrspace :=
  let TLI := TLI_of base_addr
  let SLI := SLI_of base_addr
  let FLI := FLI_of base_addr
  match as.PageTable.Pages FLI with
  | none => .trap
  | some l2 =>
    match l2 SLI with
    | .null => .trap
    | .junk => .trap
    | .ptr l3 =>
      if l3 TLI ≠ 0 then
        .ok { as with PageTable :=
                { Pages := store as.PageTable.Pages FLI
                    (some (store l2 SLI (Slot.ptr (store l3 TLI (l3 TLI &&& NOT_DIRTY))))) } }
      else .ok as

/-! ## Regions (`addrspace.c`) -/

/-- Dereference of a `Region_t`. -/
def region_at (as : addrspace) (p : Nat) : Option addrspace_region := as.region_nodes[p]?

/-- The loop of `regions_overlap` from node `cur`; `fuel` bounds the number of
nodes visited, and a chain longer than the node store revisits a node. -/
def regions_overlap_walk (nodes : List addrspace_region) (base_addr end_addr : Nat) :
    Nat → Option Nat → Res Nat
  | _, none => .ok SUCCESS
  | 0, some _ => .hang
  | fuel + 1, some p =>
    match nodes[p]? with
    | none => .trap
    | some cur =>
      if cur.base_addr ≤ base_addr ∧ end_addr < cur.end_addr then .ok EINVAL
      else if cur.base_addr ≤ base_addr ∧ base_addr < cur.end_addr
          ∧ cur.end_addr ≤ end_addr then .ok EINVAL
      else if base_addr ≤ cur.base_addr ∧ cur.base_addr < end_addr
          ∧ end_addr ≤ cur.base_addr then .ok EINVAL
      else regions_overlap_walk nodes base_addr end_addr fuel cur.next

/-- The function `regions_overlap`. -/
def regions_overlap (as : addrspace) (base_addr end_addr : Nat) : Res Nat :=
  regions_overlap_walk as.region_nodes base_addr end_addr as.region_nodes.length
    as.addr_region_base

/-- The function `err_handling_as_define`; a NULL `as` is `none`. Sums are 32-bit. -/
def err_handling_as_define (as : Option addrspace) (vaddr memsize : Nat) : Res Nat :=
  match as with
  | none => .ok EFAULT
  | some a =>
    if MIPS_KSEG0 < (vaddr + memsize) % WORD ∨ MIPS_KSEG0 < vaddr then .ok EFAULT
    else
      match regions_overlap a vaddr ((vaddr + memsize) % WORD) with
      | .ok err_overlap => if err_overlap ≠ 0 then .ok err_overlap else .ok SUCCESS
      | .trap => .trap
      | .hang => .hang

/-- The function `Create_Region`. The node `new_region` was just allocated, so
it is the next free index of the node store; the function fills every field
and links it. -/
def Create_Region (as : addrspace) (vaddr memsize readable writeable executable : Nat) :
    Res addrspace :=
  let new_region := as.region_nodes.length
  let node : addrspace_region :=
    { base_addr := vaddr
      end_addr := (vaddr + memsize + WORD - 1) % WORD
      readable := readable
      writeable := writeable
      executable := executable
      is_readonly := decide (readable = PF_R ∧ writeable = 0)
      next := none }
  let base1 := match as.addr_region_base with
    | none => some new_region
    | some b => some b
  match (match as.addr_region_end with
         | none => some as.region_nodes
         | some e =>
           match as.region_nodes[e]? with
           | none => none
           | some r => some (as.region_nodes.set e { r with next := some new_region })) with
  | none => .trap
  | some nodes1 =>
    .ok { as with
          region_nodes := nodes1 ++ [node]
          addr_region_base := base1
          addr_region_end :=
            if node.base_addr < USERSTACK - STACK_LIMIT then some new_region
            else as.addr_region_end }

/-- The function `as_define_region`. -/
def as_define_region (w : World) (as : addrspace)
    (vaddr memsize readable writeable executable : Nat) : Res (Nat × World × addrspace) :=
  let memsize1 := (memsize + (vaddr &&& NOT_PAGE_FRAME)) % WORD
  let vaddr1 := vaddr &&& PAGE_FRAME
  let memsize2 := ((memsize1 + PAGE_SIZE - 1) % WORD) &&& PAGE_FRAME
  match err_handling_as_define (some as) vaddr1 memsize2 with
  | .ok err_as_define =>
    if err_as_define ≠ 0 then .ok (err_as_define, w, as)
    else
      match kmalloc w with
      | (false, w1) => .ok (ENOMEM, w1, as)
      | (true, w1) =>
        match Create_Region as vaddr1 memsize2 readable writeable executable with
        | .ok as1 => .ok (SUCCESS, w1, as1)
        | .trap => .trap
        | .hang => .hang
  | .trap => .trap
  | .hang => .hang

/-- The function `err_handling_as_stack`; a NULL `as` is `none`. -/
def err_handling_as_stack (as : Option addrspace) : Nat :=
  match as with
  | none => EFAULT
  | some _ => SUCCESS

/-- The function `as_define_stack`; the second component of the result is `*stackptr`. -/
def as_define_stack (w : World) (as : addrspace) : Res (Nat × Nat × World × addrspace) :=
  if err_handling_as_stack (some as) ≠ 0 then .ok (err_handling_as_stack (some as), 0, w, as)
  else
    let stackptr := USERSTACK
    let starting_address := stackptr - STACK_LIMIT
    match as_define_region w as starting_address STACK_LIMIT PF_R PF_W 0 with
    | .ok (err_stack_define, w1, as1) =>
      if err_stack_define ≠ 0 then .ok (err_stack_define, stackptr, w1, as1)
      else .ok (SUCCESS, stackptr, w1, as1)
    | .trap => .trap
    | .hang => .hang

/-- The loop of `Lookup_Region` from node `region_addr_proc`. -/
def Lookup_Region_walk (nodes : List addrspace_region) (faultaddress : Nat) :
    Nat → Option Nat → Res (Option Nat)
  | _, none => .ok none
  | 0, some _ => .hang
  | fuel + 1, some p =>
    match nodes[p]? with
    | none => .trap
    | some r =>
      if r.base_addr ≤ faultaddress ∧ faultaddress < r.end_addr then .ok (some p)
      else Lookup_Region_walk nodes faultaddress fuel r.next

/-- The function `Lookup_Region`: the first node of the chain whose range test
holds, as a pointer, or NULL. -/
def Lookup_Region (as : addrspace) (faultaddress : Nat) : Res (Option Nat) :=
  Lookup_Region_walk as.region_nodes faultaddress as.region_nodes.length as.addr_region_base

/-- The function `Lookup_Heap`; the result stands for the pointer `as->Proc_heap` or NULL. -/
def Lookup_Heap (as : addrspace) (faultaddress : Nat) : Option Heap_region :=
  if as.Proc_heap.base_heap_addr ≤ faultaddress ∧ faultaddress < as.Proc_heap.cur_heap_break
  then some as.Proc_heap else none

/-- The loop of `Lookup_Mmap` from node `File_addr_proc`; the difference
`Base_address - length` is a 32-bit subtraction. -/
def Lookup_Mmap_walk (nodes : List Mmap_Region) (faultaddress : Nat) :
    Nat → Option Nat → Res (Option Nat)
  | _, none => .ok none
  | 0, some _ => .hang
  | fuel + 1, some p =>
    match nodes[p]? with
    | none => .trap
    | some r =>
      if faultaddress < r.Base_address
          ∧ (r.Base_address + WORD - r.length % WORD) % WORD ≤ faultaddress then .ok (some p)
      else Lookup_Mmap_walk nodes faultaddress fuel r.next

/-- The function `Lookup_Mmap`. -/
def Lookup_Mmap (as : addrspace) (faultaddress : Nat) : Res (Option Nat) :=
  Lookup_Mmap_walk as.mmap_nodes faultaddress as.mmap_nodes.length as.File_region_base

/-! ## Frames and the TLB -/

/-- Modelled from the spec: `KVADDR_TO_PADDR`, the inverse of the direct map. -/
def KVADDR_TO_PADDR (kvaddr : Nat) : Nat := (kvaddr + WORD - MIPS_KSEG0) % WORD

/-- Modelled from the spec: `PADDR_TO_KVADDR`, the direct map of physical
memory into the kernel segment. -/
def PADDR_TO_KVADDR (paddr : Nat) : Nat := (paddr + MIPS_KSEG0) % WORD

/-- The frames of an `npages`-page block starting at physical address `p`. -/
def block_frames (p npages : Nat) : List Nat :=
  (List.range npages).map (fun m => p + m * PAGE_SIZE)

/-- Modelled from the spec: `alloc_kpages`, the frame allocator. It yields the
kernel address of a page-aligned block of physical frames that nothing
references, and sets the reference count of each frame to 1; it returns 0 when
it has no such block. -/
def alloc_kpages (w : World) (npages : Nat) : Nat × World :=
  match w.kpages with
  | [] => (0, w)
  | p :: rest =>
    if p = 0 ∨ p % PAGE_SIZE ≠ 0 ∨ MIPS_KSEG0 ≤ p + npages * PAGE_SIZE
        ∨ ¬ (∀ f ∈ block_frames p npages, w.refcount f = 0) then
      (0, { w with kpages := rest })
    else
      (PADDR_TO_KVADDR p,
        { w with kpages := rest
                 refcount := fun f => if f ∈ block_frames p npages then 1 else w.refcount f })

/-- Modelled from the spec: `free_kpages`, which decrements the reference
count of the frame behind a kernel address (the frame is free at count 0). -/
def free_kpages (w : World) (kvaddr : Nat) : World :=
  { w with refcount := store w.refcount (KVADDR_TO_PADDR kvaddr)
                          (w.refcount (KVADDR_TO_PADDR kvaddr) - 1) }

/-- Modelled from the spec: `tlb_random`, which writes one entry into a
hardware-chosen slot. -/
def tlb_random (w : World) (entry_hi entry_lo : Nat) : World :=
  { w with tlb := store w.tlb (w.random % NUM_TLB) (entry_hi, entry_lo)
           random := w.random + 1 }

/-- The function `Load_TLB` (the interrupt mask around the write is not modelled). -/
def Load_TLB (w : World) (entry_hi entry_lo : Nat) : World := tlb_random w entry_hi entry_lo

/-- The function `as_activate`: nothing without a current address space, else
every TLB slot is overwritten with the invalid entry. -/
def as_activate (w : World) : World :=
  if w.curproc = false ∨ w.curas = false then w
  else { w with tlb := fun i => if i < NUM_TLB then (TLBHI_INVALID i, TLBLO_INVALID) else w.tlb i }

/-- Modelled from the spec: `read` of the file layer, as the byte count it returns. -/
def file_read (w : World) : Nat × World :=
  match w.reads with
  | [] => (0, w)
  | n :: rest => (n, { w with reads := rest })

/-! ## Fault handling (`vm.c`) -/

/-- The function `Page_table_Add`, with the parameters of its definition in
`vm.c`: the owning region, heap and mmap region (NULL is `none`). -/
def Page_table_Add (w : World) (faultaddress frame_no : Nat) (as_reg : Option Nat)
    (as_hreg : Option Heap_region) (as_freg : Option Nat) (as : addrspace) :
    Res (Nat × World × addrspace) :=
  let TLI := TLI_of faultaddress
  let SLI := SLI_of faultaddress
  let FLI := FLI_of faultaddress
  match (match as_reg, as_hreg, as_freg with
         | some p, none, none =>
           match region_at as p with
           | none => (none : Option Nat)
           | some r =>
             let e1 := if r.writeable ≠ 0 then frame_no ||| TLBLO_DIRTY else frame_no
             some (if r.readable ≠ 0 ∨ r.executable ≠ 0 ∨ r.writeable ≠ 0
                   then e1 ||| TLBLO_VALID else e1)
         | none, some h, none =>
           let e1 := if h.writeable ≠ 0 then frame_no ||| TLBLO_DIRTY else frame_no
           some (if h.readable ≠ 0 ∨ h.executable ≠ 0 ∨ h.writeable ≠ 0
                 then e1 ||| TLBLO_VALID else e1)
         | _, _, _ => some (TLBLO_DIRTY ||| TLBLO_VALID)) with
  | none => .trap
  | some entry_lo =>
    match Page_table_Insert w as FLI SLI TLI entry_lo with
    | .ok (err_insert, w1, as1) =>
      if err_insert ≠ 0 then .ok (err_insert, w1, as1) else .ok (SUCCESS, w1, as1)
    | .trap => .trap
    | .hang => .hang

/-- The function `Alloc_Frame_Insert_PTE`. Its two calls of `Page_table_Add`
are written with five arguments while the definition in `vm.c` takes six; the
mmap owner `as_Freq`, which is in scope at both calls, is the one passed here.
The first branch is taken only when the region and the heap owner are both
present; the other branch reads `as_Freq->Num_pages` without a NULL test. The
file offset (`lseek`) and the contents of the frame are not modelled. -/
def Alloc_Frame_Insert_PTE (w : World) (faultaddress : Nat) (as : addrspace)
    (as_req : Option Nat) (as_hreq : Option Heap_region) (as_Freq : Option Nat) :
    Res (Nat × World × addrspace) :=
  let finish (w1 : World) (as1 : addrspace) : Res (Nat × World × addrspace) :=
    match Page_table_lookup as1 faultaddress with
    | .ok entry_lo => .ok (SUCCESS, Load_TLB w1 (faultaddress &&& TLBHI_VPAGE) entry_lo, as1)
    | .trap => .trap
    | .hang => .hang
  if as_req.isSome ∧ as_hreq.isSome ∧ as_Freq.isNone then
    match alloc_kpages w 1 with
    | (allocated_addr, w1) =>
      if allocated_addr = 0 then .ok (ENOMEM, w1, as)
      else
        let frame_no := KVADDR_TO_PADDR allocated_addr &&& PAGE_FRAME
        match Page_table_Add w1 faultaddress frame_no as_req as_hreq as_Freq as with
        | .ok (err_add, w2, as2) =>
          if err_add ≠ 0 then .ok (err_add, w2, as2) else finish w2 as2
        | .trap => .trap
        | .hang => .hang
  else
    match as_Freq with
    | none => .trap
    | some fp =>
      match as.mmap_nodes[fp]? with
      | none => .trap
      | some freg =>
        match alloc_kpages w freg.Num_pages with
        | (allocated_addr, w1) =>
          if allocated_addr = 0 then .ok (ENOMEM, w1, as)
          else
            let frame_no := KVADDR_TO_PADDR allocated_addr &&& PAGE_FRAME
            match file_read w1 with
            | (nread, w2) =>
              if nread = 0 then .ok (EFAULT, w2, as)
              else
                match Page_table_Add w2 faultaddress frame_no as_req as_hreq as_Freq as with
                | .ok (err_add, w3, as3) =>
                  if err_add ≠ 0 then .ok (err_add, w3, as3) else finish w3 as3
                | .trap => .trap
                | .hang => .hang

/-- The function `tlb_miss_handler`. -/
def tlb_miss_handler (w : World) (faultaddress : Nat) (as : addrspace)
    (Valid_Region : Option Nat) (Valid_Heap : Option Heap_region) (Valid_File : Option Nat) :
    Res (Nat × World × addrspace) :=
  match Page_table_lookup as faultaddress with
  | .ok entry_lo =>
    if entry_lo ≠ 0 then
      .ok (SUCCESS, Load_TLB w (faultaddress &&& TLBHI_VPAGE) entry_lo, as)
    else
      match Alloc_Frame_Insert_PTE w faultaddress as Valid_Region Valid_Heap Valid_File with
      | .ok (err_alloc_frame, w1, as1) =>
        if err_alloc_frame ≠ 0 then .ok (err_alloc_frame, w1, as1) else .ok (SUCCESS, w1, as1)
      | .trap => .trap
      | .hang => .hang
  | .trap => .trap
  | .hang => .hang

/-- The function `copy_on_write` (the contents of the frames are not modelled). -/
def copy_on_write (w : World) (as : addrspace) (faultaddress : Nat) :
    Res (Nat × World × addrspace) :=
  match Page_table_lookup as faultaddress with
  | .ok prev_frame_addr =>
    if prev_frame_addr = 0 then .ok (EINVAL, w, as)
    else
      let prev_frame_no := prev_frame_addr &&& PAGE_FRAME
      let ref_count := frame_ref_count_check w prev_frame_no
      let TLI := TLI_of faultaddress
      let SLI := SLI_of faultaddress
      let FLI := FLI_of faultaddress
      if ref_count = 1 then
        match Page_table_write as FLI SLI TLI (prev_frame_no ||| TLBLO_DIRTY ||| TLBLO_VALID) with
        | .ok as1 => .ok (SUCCESS, as_activate w, as1)
        | .trap => .trap
        | .hang => .hang
      else
        match alloc_kpages w 1 with
        | (new_frame, w1) =>
          if new_frame = 0 then .ok (ENOMEM, w1, as)
          else
            let new_physical_address := KVADDR_TO_PADDR new_frame
            let new_frame_number := new_physical_address &&& PAGE_FRAME
            let w2 := free_kpages w1 (PADDR_TO_KVADDR prev_frame_no)
            match Page_table_write as FLI SLI TLI
                (new_frame_number ||| TLBLO_DIRTY ||| TLBLO_VALID) with
            | .ok as1 => .ok (SUCCESS, as_activate w2, as1)
            | .trap => .trap
            | .hang => .hang
  | .trap => .trap
  | .hang => .hang

/-- The function `err_handling_vm_fault`. -/
def err_handling_vm_fault (w : World) (faultaddress : Nat) : Nat :=
  if w.curproc = false then EFAULT
  else if MIPS_KSEG0 < faultaddress then EFAULT
  else SUCCESS

/-- The function `vm_fault`. The argument `as` is the address space of the
current process, which `proc_getas` returns when there is one. In the
`VM_FAULT_READONLY` case `Valid_Region->is_readonly` is read with no NULL test. -/
def vm_fault (w : World) (as : addrspace) (faulttype faultaddress : Nat) :
    Res (Nat × World × addrspace) :=
  if err_handling_vm_fault w faultaddress ≠ 0 then
    .ok (err_handling_vm_fault w faultaddress, w, as)
  else if w.curas = false then .ok (EFAULT, w, as)
  else
    match Lookup_Region as faultaddress with
    | .ok Valid_Region =>
      let Valid_Heap := Lookup_Heap as faultaddress
      match Lookup_Mmap as faultaddress with
      | .ok Valid_File =>
        if Valid_Region.isNone ∧ Valid_Heap.isNone ∧ Valid_File.isNone then .ok (EFAULT, w, as)
        else if faulttype = VM_FAULT_READONLY then
          match Valid_Region with
          | none => .trap
          | some p =>
            match region_at as p with
            | none => .trap
            | some r =>
              if r.is_readonly = true then .ok (EFAULT, w, as)
              else
                match copy_on_write w as faultaddress with
                | .ok (err_copy_on_write, w1, as1) =>
                  if err_copy_on_write ≠ 0 then .ok (err_copy_on_write, w1, as1)
                  else tlb_miss_handler w1 faultaddress as1 Valid_Region Valid_Heap Valid_File
                | .trap => .trap
                | .hang => .hang
        else tlb_miss_handler w faultaddress as Valid_Region Valid_Heap Valid_File
      | .trap => .trap
      | .hang => .hang
    | .trap => .trap
    | .hang => .hang

/-! ## Loading (`addrspace.c`) -/

/-- The loop of `as_prepare_load` from node `as_region`. -/
def as_prepare_load_walk : Nat → Option Nat → List addrspace_region →
    Res (List addrspace_region)
  | _, none, nodes => .ok nodes
  | 0, some _, _ => .hang
  | fuel + 1, some p, nodes =>
    match nodes[p]? with
    | none => .trap
    | some r =>
      as_prepare_load_walk fuel r.next
        (if r.is_readonly = true then nodes.set p { r with writeable := PF_W } else nodes)

/-- The function `as_prepare_load` (`as` is not NULL). -/
def as_prepare_load (as : addrspace) : Res (Nat × addrspace) :=
  match as_prepare_load_walk as.region_nodes.length as.addr_region_base as.region_nodes with
  | .ok nodes => .ok (SUCCESS, { as with region_nodes := nodes })
  | .trap => .trap
  | .hang => .hang

/-- The loop of `as_complete_load` from node `as_region`: the write flag of a
latched region is cleared, and `Page_table_readonly` runs on the base page of
every region. -/
def as_complete_load_walk : Nat → Option Nat → addrspace → Res addrspace
  | _, none, as => .ok as
  | 0, some _, _ => .hang
  | fuel + 1, some p, as =>
    match as.region_nodes[p]? with
    | none => .trap
    | some r =>
      let as1 : addrspace :=
        if r.is_readonly = true ∧ r.writeable = PF_W then
          { as with region_nodes := as.region_nodes.set p { r with writeable := 0 } }
        else as
      match Page_table_readonly as1 r.base_addr with
      | .ok as2 => as_complete_load_walk fuel r.next as2
      | .trap => .trap
      | .hang => .hang

/-- The function `as_complete_load` (`as` is not NULL); it ends with the TLB flush. -/
def as_complete_load (w : World) (as : addrspace) : Res (Nat × World × addrspace) :=
  match as_complete_load_walk as.region_nodes.length as.addr_region_base as with
  | .ok as1 => .ok (SUCCESS, as_activate w, as1)
  | .trap => .trap
  | .hang => .hang

/-- The function `as_create`: NULL (`none`) when the envelope or the page table
cannot be allocated. The heap record is written without a NULL test. The
creation of the heap lock is taken to succeed. -/
def as_create (w : World) : Res (Option addrspace × World) :=
  match kmalloc w with
  | (false, w1) => .ok (none, w1)
  | (true, w1) =>
    match Page_table_Set w1 with
    | .ok (none, w2) => .ok (none, w2)
    | .ok (some pt, w2) =>
      match kmalloc w2 with
      | (false, _) => .trap
      | (true, w3) =>
        .ok (some
          { region_nodes := []
            addr_region_base := none
            addr_region_end := none
            Proc_heap :=
              { base_heap_addr := 0, cur_heap_break := 0, readable := PF_R,
                writeable := PF_W, executable := 0, Heap_lock := false }
            mmap_nodes := []
            File_region_base := none
            File_region_end := none
            PageTable := pt }, w3)
    | .trap => .trap
    | .hang => .hang

/-! ## Copy and destruction (`addrspace.c`, `vm.c`) -/

/-- One iteration of the innermost loop of `Page_table_free`: a non-zero PTE
has its frame released through `free_kpages`, unless the kernel address of the
frame is NULL. -/
def Page_table_free_step (l3 : Level3) (k : Nat) (w : World) : World :=
  if l3 k ≠ 0 then
    let frame_number := PADDR_TO_KVADDR (l3 k &&& PAGE_FRAME)
    if frame_number ≠ 0 then free_kpages w frame_number else w
  else w

/-- The loop `for (k = 0; k < n; k++)` of `Page_table_free` on one level-3 array. -/
def Page_table_free_three (l3 : Level3) : Nat → World → World
  | 0, w => w
  | k + 1, w => Page_table_free_step l3 k (Page_table_free_three l3 k w)

/-- The loop `for (j = 0; j < n; j++)` of `Page_table_free` on one level-2
array. A slot that was never written is compared and followed as a pointer. -/
def Page_table_free_two (l2 : Level2) : Nat → World → Res World
  | 0, w => .ok w
  | j + 1, w =>
    match Page_table_free_two l2 j w with
    | .ok w1 =>
      match l2 j with
      | .null => .ok w1
      | .junk => .trap
      | .ptr l3 => .ok (Page_table_free_three l3 LEVEL2_AND_3_LIMIT w1)
    | .trap => .trap
    | .hang => .hang

/-- The loop `for (i = 0; i < n; i++)` of `Page_table_free`. -/
def Page_table_free_one (pt : PageTable) : Nat → World → Res World
  | 0, w => .ok w
  | i + 1, w =>
    match Page_table_free_one pt i w with
    | .ok w1 =>
      match pt.Pages i with
      | none => .ok w1
      | some l2 => Page_table_free_two l2 LEVEL2_AND_3_LIMIT w1
    | .trap => .trap
    | .hang => .hang

/-- The function `Page_table_free`: every non-zero PTE of the table releases
its frame; the arrays themselves are returned to the kernel heap, which is not
modelled. -/
def Page_table_free (w : World) (pt : PageTable) : Res World :=
  Page_table_free_one pt LEVEL1_LIMIT w

/-- The loop of `as_destroy` over the region chain from node `curr`: each node
is read and then freed, so a chain that comes back to a node reads freed memory. -/
def as_destroy_walk (nodes : List addrspace_region) : Nat → Option Nat → Res Unit
  | _, none => .ok ()
  | 0, some _ => .trap
  | fuel + 1, some p =>
    match nodes[p]? with
    | none => .trap
    | some addr_destroy => as_destroy_walk nodes fuel addr_destroy.next

/-- The function `as_destroy`: frees the region nodes, then the page table
with its frames, then the heap record and the envelope. What remains of it in
the model is the world. -/
def as_destroy (w : World) (as : addrspace) : Res World :=
  match as_destroy_walk as.region_nodes as.region_nodes.length as.addr_region_base with
  | .ok _ => Page_table_free w as.PageTable
  | .trap => .trap
  | .hang => .hang

/-- The function `err_handling_as_copy`; a NULL `old` is `none`. -/
def err_handling_as_copy (old : Option addrspace) : Nat :=
  match old with
  | none => EFAULT
  | some _ => SUCCESS

/-- The loop of `Region_copy` from node `old_regions` of the old chain. Each
iteration allocates a node, copies the six fields and links the node into the
new address space by the rule of `Create_Region`. When the allocation fails the
new address space is destroyed and `ENOMEM` returned. -/
def Region_copy_walk (old_nodes : List addrspace_region) :
    Nat → Option Nat → World → addrspace → Res (Nat × World × addrspace)
  | _, none, w, newas => .ok (SUCCESS, w, newas)
  | 0, some _, _, _ => .hang
  | fuel + 1, some p, w, newas =>
    match old_nodes[p]? with
    | none => .trap
    | some old_regions =>
      match kmalloc w with
      | (false, w1) =>
        match as_destroy w1 newas with
        | .ok w2 => .ok (ENOMEM, w2, newas)
        | .trap => .trap
        | .hang => .hang
      | (true, w1) =>
        let temp := newas.region_nodes.length
        let node : addrspace_region := { old_regions with next := none }
        let base1 := match newas.addr_region_base with
          | none => some temp
          | some b => some b
        match (match newas.addr_region_end with
               | none => some newas.region_nodes
               | some e =>
                 match newas.region_nodes[e]? with
                 | none => none
                 | some r => some (newas.region_nodes.set e { r with next := some temp })) with
        | none => .trap
        | some nodes1 =>
          Region_copy_walk old_nodes fuel old_regions.next w1
            { newas with
              region_nodes := nodes1 ++ [node]
              addr_region_base := base1
              addr_region_end :=
                if node.base_addr < USERSTACK - STACK_LIMIT then some temp
                else newas.addr_region_end }

/-- The function `Region_copy`. The loop leaves a chain that comes back to a
node only when an allocation fails, and every call of `kmalloc` past the
recorded outcomes succeeds: the fuel is the number of nodes plus the number of
recorded outcomes. -/
def Region_copy (w : World) (old newas : addrspace) : Res (Nat × World × addrspace) :=
  Region_copy_walk old.region_nodes (old.region_nodes.length + w.kmallocs.length)
    old.addr_region_base w newas

/-- The function `as_copy`. The result is the returned value, the world, the
old address space (whose page table `Page_table_copy` writes) and `*ret`
(`none` when nothing is stored there). -/
def as_copy (w : World) (old : addrspace) : Res (Nat × World × addrspace × Option addrspace) :=
  if err_handling_as_copy (some old) ≠ 0 then
    .ok (err_handling_as_copy (some old), w, old, none)
  else
    match as_create w with
    | .ok (none, w1) => .ok (ENOMEM, w1, old, none)
    | .ok (some newas, w1) =>
      match Region_copy w1 old newas with
      | .ok (err_region_copy, w2, newas1) =>
        if err_region_copy ≠ 0 then .ok (err_region_copy, w2, old, none)
        else
          let newas2 : addrspace :=
            { newas1 with Proc_heap :=
                { newas1.Proc_heap with
                  base_heap_addr := old.Proc_heap.base_heap_addr
                  cur_heap_break := old.Proc_heap.cur_heap_break } }
          match Page_table_copy w2 old.PageTable newas2.PageTable with
          | .ok (copy_pt, w3, oldPT, newPT) =>
            if copy_pt ≠ 0 then
              match as_destroy w3 { newas2 with PageTable := newPT } with
              | .ok w4 => .ok (copy_pt, w4, { old with PageTable := oldPT }, none)
              | .trap => .trap
              | .hang => .hang
            else
              .ok (SUCCESS, w3, { old with PageTable := oldPT },
                some { newas2 with PageTable := newPT })
          | .trap => .trap
          | .hang => .hang
      | .trap => .trap
      | .hang => .hang
    | .trap => .trap
    | .hang => .hang

/-! ## Heap (`addrspace.c`) -/

/-- Modelled from the spec: `lock_acquire` on the heap lock; the result is the
new state of the lock. Acquiring a lock that is already held does not return. -/
def lock_acquire (held : Bool) : Res Bool :=
  if held = true then .hang else .ok true

/-- Modelled from the spec: `lock_release`; the result is the new state of the lock. -/
def lock_release (_held : Bool) : Bool := false

/-- The C conversion `(vaddr_t) amount` of a signed `intptr_t` to a 32-bit
unsigned word. -/
def to_vaddr (amount : Int) : Nat := (amount % (WORD : Int)).toNat

/-- The function `as_set_process_break`. The result is the returned address,
the value written to `*err_sbrk` (`none` when nothing is written) and the
address space. The first branch reads `as->addr_region_end->end_addr` with no
NULL test; both error returns leave the function without `lock_release`. -/
def as_set_process_break (as : addrspace) (amount : Int) :
    Res (Nat × Option Nat × addrspace) :=
  match lock_acquire as.Proc_heap.Heap_lock with
  | .ok held =>
    let as1 : addrspace := { as with Proc_heap := { as.Proc_heap with Heap_lock := held } }
    if as1.Proc_heap.base_heap_addr = 0 ∧ as1.Proc_heap.cur_heap_break = 0 then
      match as1.addr_region_end with
      | none => .trap
      | some e =>
        match as1.region_nodes[e]? with
        | none => .trap
        | some r =>
          let base := (r.end_addr + 1) % WORD
          .ok (base, none,
            { as1 with Proc_heap :=
                { as1.Proc_heap with
                  base_heap_addr := base
                  cur_heap_break := base
                  Heap_lock := lock_release held } })
    else
      let retval := as1.Proc_heap.cur_heap_break
      let new_break := (as1.Proc_heap.cur_heap_break + to_vaddr amount) % WORD
      if new_break < as1.Proc_heap.base_heap_addr then .ok (0, some EINVAL, as1)
      else if USERSTACK - STACK_LIMIT ≤ new_break then .ok (0, some ENOMEM, as1)
      else
        .ok (retval, none,
          { as1 with Proc_heap :=
              { as1.Proc_heap with
                cur_heap_break := new_break
                Heap_lock := lock_release held } })
  | .trap => .trap
  | .hang => .hang

/-- The function `Find_Free_File_Region`. Every round of its `while` loop tests
the same window, since no statement of the loop changes `base_addr`,
`end_addr` or `found`; `fuel` bounds the number of rounds, which the source
does not. -/
def Find_Free_File_Region (as : addrspace) (base_addr end_addr : Nat) : Nat → Res Nat
  | 0 => .hang
  | fuel + 1 =>
    match regions_overlap as base_addr end_addr with
    | .ok Overlappin_region =>
      if Overlappin_region = SUCCESS then .ok end_addr
      else Find_Free_File_Region as base_addr end_addr fuel
    | .trap => .trap
    | .hang => .hang

/-- The address spaces that calls of `as_create`, `as_define_region`,
`as_define_stack` and `as_set_process_break` can produce, in any world. -/
inductive Reachable : addrspace → Prop where
  | create (w w1 : World) (as : addrspace) :
      as_create w = .ok (some as, w1) → Reachable as
  | define_region (w w1 : World) (as as1 : addrspace) (vaddr sz r wr x rc : Nat) :
      Reachable as → as_define_region w as vaddr sz r wr x = .ok (rc, w1, as1) →
      Reachable as1
  | define_stack (w w1 : World) (as as1 : addrspace) (rc sp : Nat) :
      Reachable as → as_define_stack w as = .ok (rc, sp, w1, as1) → Reachable as1
  | set_break (as as1 : addrspace) (amount : Int) (ret : Nat) (err : Option Nat) :
      Reachable as → as_set_process_break as amount = .ok (ret, err, as1) → Reachable as1

/-- The page-aligned base that `as_define_region` computes from `vaddr`. -/
def aligned_base (vaddr : Nat) : Nat := vaddr &&& PAGE_FRAME

/-- The page-aligned size that `as_define_region` computes from `vaddr` and `memsize`. -/
def aligned_size (vaddr memsize : Nat) : Nat :=
  (((memsize + (vaddr &&& NOT_PAGE_FRAME)) % WORD + PAGE_SIZE - 1) % WORD) &&& PAGE_FRAME

/-! ## Specification vocabulary

Counting and closed forms used to state what the loops compute. -/

/-- Sum of `g k` over `k < n`. -/
def sum_below : Nat → (Nat → Nat) → Nat
  | 0, _ => 0
  | n + 1, g => sum_below n g + g n

/-- Sum of `g` over the `n` indices starting at `j`. -/
def sum_from : Nat → Nat → (Nat → Nat) → Nat
  | _, 0, _ => 0
  | j, n + 1, g => g j + sum_from (j + 1) n g

/-- The PTE stored at indices `(i, j, k)` of a table, 0 when a level is absent. -/
def pte_at (pt : PageTable) (i j k : Nat) : Nat :=
  match pt.Pages i with
  | none => 0
  | some l2 =>
    match l2 j with
    | .ptr l3 => l3 k
    | _ => 0

/-- Indicator (1 or 0) that the PTE `e` is non-zero and names the frame `f`. -/
def names_frame (e f : Nat) : Nat := if e ≠ 0 ∧ e &&& PAGE_FRAME = f then 1 else 0

/-- Number of non-zero PTEs of a table that name the frame `f`. -/
def frame_refs (pt : PageTable) (f : Nat) : Nat :=
  sum_below LEVEL1_LIMIT (fun i =>
    sum_below LEVEL2_AND_3_LIMIT (fun j =>
      sum_below LEVEL2_AND_3_LIMIT (fun k => names_frame (pte_at pt i j k) f)))

/-- Every coming `kmalloc` call returns memory. -/
def AllocOK (w : World) : Prop := ∀ b ∈ w.kmallocs, b = true

/-- The two worlds agree on everything but the `kmalloc` outcomes and the
reference counts. -/
def same_devices (w w1 : World) : Prop :=
  w1.kpages = w.kpages ∧ w1.tlb = w.tlb ∧ w1.random = w.random ∧ w1.curproc = w.curproc
    ∧ w1.curas = w.curas ∧ w1.reads = w.reads

/-- A level-2 slot of the source table after the copy: `DIRTY` cleared in its 64 entries. -/
def strip_slot (s : Slot) : Slot :=
  match s with
  | .ptr l3 => .ptr (fun k => if k < LEVEL2_AND_3_LIMIT then l3 k &&& NOT_DIRTY else l3 k)
  | .null => .null
  | .junk => .junk

/-- The level-2 slot of the destination table that the copy builds from a source slot. -/
def copy_slot (s : Slot) : Slot :=
  match s with
  | .ptr l3 => .ptr (fun k => if k < LEVEL2_AND_3_LIMIT then l3 k &&& NOT_DIRTY else 0)
  | .null => .null
  | .junk => .junk

/-- Number of non-zero PTEs under a level-2 slot that name the frame `f`. -/
def slot_refs (s : Slot) (f : Nat) : Nat :=
  match s with
  | .ptr l3 => sum_below LEVEL2_AND_3_LIMIT (fun k => names_frame (l3 k) f)
  | _ => 0

/-- A level-2 array of the source table after the copy. -/
def strip_level2 (l2 : Level2) : Level2 :=
  fun j => if j < LEVEL2_AND_3_LIMIT then strip_slot (l2 j) else l2 j

/-- The level-2 array of the destination table that the copy builds from a source array. -/
def copy_level2 (l2 : Level2) : Level2 :=
  fun j => if j < LEVEL2_AND_3_LIMIT then copy_slot (l2 j) else Slot.junk

/-- Number of non-zero PTEs under a level-1 slot that name the frame `f`. -/
def level2_refs (x : Option Level2) (f : Nat) : Nat :=
  match x with
  | some l2 => sum_from 0 LEVEL2_AND_3_LIMIT (fun j => slot_refs (l2 j) f)
  | none => 0

/-- Heap invariant of the reachable address spaces: the break is not below
the base, it is below the stack reserve unless the heap is empty, it is a
32-bit word, and a base of 0 goes with a break of 0. -/
def heap_inv (as : addrspace) : Prop :=
  as.Proc_heap.base_heap_addr ≤ as.Proc_heap.cur_heap_break
  ∧ (as.Proc_heap.cur_heap_break = as.Proc_heap.base_heap_addr
      ∨ as.Proc_heap.cur_heap_break < USERSTACK - STACK_LIMIT)
  ∧ as.Proc_heap.cur_heap_break < WORD
  ∧ (as.Proc_heap.base_heap_addr = 0 → as.Proc_heap.cur_heap_break = 0)

/-- The nodes of a region chain walked from the pointer `start`, in order. -/
def chain_walk (nodes : List addrspace_region) : Nat → Option Nat → Res (List addrspace_region)
  | _, none => .ok []
  | 0, some _ => .hang
  | fuel + 1, some p =>
    match nodes[p]? with
    | none => .trap
    | some r =>
      match chain_walk nodes fuel r.next with
      | .ok rest => .ok (r :: rest)
      | .trap => .trap
      | .hang => .hang

/-- The region chain of an address space, walked from `addr_region_base`. -/
def region_chain (as : addrspace) : Res (List addrspace_region) :=
  chain_walk as.region_nodes as.region_nodes.length as.addr_region_base

/-- The fields of a region other than its link: bounds, permissions and latch. -/
def region_fields (r : addrspace_region) : Nat × Nat × Nat × Nat × Nat × Bool :=
  (r.base_addr, r.end_addr, r.readable, r.writeable, r.executable, r.is_readonly)

/-- The pointers of the nodes that a walk from `start` visits, in order. -/
def chain_indices (nodes : List addrspace_region) : Nat → Option Nat → List Nat
  | _, none => []
  | 0, some _ => []
  | fuel + 1, some p =>
    match nodes[p]? with
    | none => []
    | some r => p :: chain_indices nodes fuel r.next

/-- The pointers of the nodes in the region chain of an address space. -/
def region_indices (as : addrspace) : List Nat :=
  chain_indices as.region_nodes as.region_nodes.length as.addr_region_base

/-- A node store whose nodes are linked in allocation order: node `i` points to
node `i + 1`, and the last node ends the chain. -/
def linear (nodes : List addrspace_region) : Prop :=
  ∀ (i : Nat) (r : addrspace_region), nodes[i]? = some r →
    r.next = if i + 1 < nodes.length then some (i + 1) else none

/-- A node store in which every link points forward to a later node. -/
def forward (nodes : List addrspace_region) : Prop :=
  ∀ (i : Nat) (r : addrspace_region), nodes[i]? = some r →
    ∀ j, r.next = some j → i < j ∧ j < nodes.length

/-- Invariant of the region store of the address spaces that the calls of this
file build: links point forward, the base and end pointers name nodes, the end
node lies below the stack reserve, a node at or above the stack reserve ends
the chain, and a latched node has no write permission. -/
def chain_inv (as : addrspace) : Prop :=
  forward as.region_nodes
  ∧ (∀ b, as.addr_region_base = some b → b < as.region_nodes.length)
  ∧ (∀ e, as.addr_region_end = some e →
      ∃ r, as.region_nodes[e]? = some r ∧ r.base_addr < USERSTACK - STACK_LIMIT)
  ∧ (∀ r ∈ as.region_nodes, USERSTACK - STACK_LIMIT ≤ r.base_addr → r.next = none)
  ∧ (∀ r ∈ as.region_nodes, r.is_readonly = true → r.writeable = 0)

/-- Indicator (1 or 0) that `Page_table_free` releases the frame `f` for the
PTE `e`: the PTE is non-zero, the kernel address of its frame is not NULL, and
the frame is `f`. -/
def frees_frame (e f : Nat) : Nat :=
  if e ≠ 0 ∧ PADDR_TO_KVADDR (e &&& PAGE_FRAME) ≠ 0 ∧ e &&& PAGE_FRAME = f then 1 else 0

/-- Number of releases of the frame `f` under a level-2 slot. -/
def slot_frees (s : Slot) (f : Nat) : Nat :=
  match s with
  | .ptr l3 => sum_below LEVEL2_AND_3_LIMIT (fun k => frees_frame (l3 k) f)
  | _ => 0

/-- Number of releases of the frame `f` under a level-1 slot. -/
def level2_frees (x : Option Level2) (f : Nat) : Nat :=
  match x with
  | some l2 => sum_below LEVEL2_AND_3_LIMIT (fun j => slot_frees (l2 j) f)
  | none => 0

/-- A PTE that `Page_table_copy` and `Page_table_free` count alike: zero, or a
word that is not `DIRTY` alone and whose frame has a kernel address other
than NULL. -/
def pte_wf (e : Nat) : Prop :=
  e ≠ 0 → e &&& NOT_DIRTY ≠ 0 ∧ PADDR_TO_KVADDR (e &&& PAGE_FRAME) ≠ 0

/-- Every PTE of the table is well formed. -/
def table_wf (pt : PageTable) : Prop :=
  ∀ i j k, i < LEVEL1_LIMIT → j < LEVEL2_AND_3_LIMIT → k < LEVEL2_AND_3_LIMIT →
    pte_wf (pte_at pt i j k)

/-- The invariant of the specification on writable PTEs: every PTE of the
table with `DIRTY` set names a frame whose reference count is 1. -/
def dirty_owned (w : World) (pt : PageTable) : Prop :=
  ∀ i j k, i < LEVEL1_LIMIT → j < LEVEL2_AND_3_LIMIT → k < LEVEL2_AND_3_LIMIT →
    pte_at pt i j k &&& TLBLO_DIRTY ≠ 0 → w.refcount (pte_at pt i j k &&& PAGE_FRAME) = 1

/-- The bounds `(base_addr, end_addr)` of every node of the region store. -/
def region_bounds (as : addrspace) : List (Nat × Nat) :=
  as.region_nodes.map (fun r => (r.base_addr, r.end_addr))

/-- The field `as->addr_region_end->end_addr`, from which the first
`as_set_process_break` call takes the heap base; `none` when the pointer names
no node. -/
def tail_end (as : addrspace) : Option Nat :=
  match as.addr_region_end with
  | none => none
  | some e => (as.region_nodes[e]?).map (fun r => r.end_addr)

/-- Invariant of the address spaces built in ascending address order: every
region below the stack reserve ends at or below the end of the node that
`addr_region_end` names, that end lies below `KSEG0`, and the heap is either
not initialised or starts above every such region, with its break at the base
or below the stack reserve. -/
def heap_above_regions (as : addrspace) : Prop :=
  (∀ be ∈ region_bounds as, be.1 < USERSTACK - STACK_LIMIT →
      ∃ t, tail_end as = some t ∧ be.2 ≤ t)
  ∧ (∀ t, tail_end as = some t → t < MIPS_KSEG0)
  ∧ ((as.Proc_heap.base_heap_addr = 0 ∧ as.Proc_heap.cur_heap_break = 0)
      ∨ ((∀ be ∈ region_bounds as, be.1 < USERSTACK - STACK_LIMIT →
            be.2 < as.Proc_heap.base_heap_addr)
          ∧ as.Proc_heap.base_heap_addr ≤ as.Proc_heap.cur_heap_break
          ∧ (as.Proc_heap.cur_heap_break = as.Proc_heap.base_heap_addr
              ∨ as.Proc_heap.cur_heap_break < USERSTACK - STACK_LIMIT)))

/-- The address spaces that `as_create`, `as_define_region`, `as_define_stack`
and `as_set_process_break` produce when every region is defined before the
heap is initialised, for a non-empty page-aligned range that ends at or below
`KSEG0` without wrapping and that starts above the end of the region that
`addr_region_end` names (ascending address order). -/
inductive ReachableAscending : addrspace → Prop where
  | create (w w1 : World) (as : addrspace) :
      as_create w = .ok (some as, w1) → ReachableAscending as
  | define_region (w w1 : World) (as as1 : addrspace) (vaddr sz r wr x rc : Nat) :
      ReachableAscending as →
      as.Proc_heap.base_heap_addr = 0 ∧ as.Proc_heap.cur_heap_break = 0 →
      0 < aligned_size vaddr sz →
      aligned_base vaddr + aligned_size vaddr sz ≤ MIPS_KSEG0 →
      (∀ t, tail_end as = some t → t < aligned_base vaddr) →
      as_define_region w as vaddr sz r wr x = .ok (rc, w1, as1) →
      ReachableAscending as1
  | define_stack (w w1 : World) (as as1 : addrspace) (rc sp : Nat) :
      ReachableAscending as → as_define_stack w as = .ok (rc, sp, w1, as1) →
      ReachableAscending as1
  | set_break (as as1 : addrspace) (amount : Int) (ret : Nat) (err : Option Nat) :
      ReachableAscending as → as_set_process_break as amount = .ok (ret, err, as1) →
      ReachableAscending as1

/-! ## Example states -/

/-- A booted machine: every allocation succeeds, four free frames are on offer,
no frame is referenced, the TLB is invalid, and a process with an address space runs. -/
def boot_world : World :=
  { kmallocs := []
    kpages := [0x100000, 0x101000, 0x102000, 0x103000]
    refcount := fun _ => 0
    tlb := fun i => (TLBHI_INVALID i, TLBLO_INVALID)
    random := 0
    curproc := true
    curas := true
    reads := [] }

/-- The address space that `as_create` returns. -/
def empty_as : addrspace :=
  { region_nodes := []
    addr_region_base := none
    addr_region_end := none
    Proc_heap :=
      { base_heap_addr := 0, cur_heap_break := 0, readable := PF_R,
        writeable := PF_W, executable := 0, Heap_lock := false }
    mmap_nodes := []
    File_region_base := none
    File_region_end := none
    PageTable := { Pages := fun _ => none } }

/-- The address space after `as_define_region(as, va, sz, r, wr, x)`. -/
def with_region (as : addrspace) (va sz r wr x : Nat) : addrspace :=
  ((as_define_region boot_world as va sz r wr x).getD (1, boot_world, as)).2.2

/-- The address space after `Page_table_Insert` of the word `e` for the page of `va`. -/
def map_page (as : addrspace) (va e : Nat) : addrspace :=
  ((Page_table_Insert boot_world as (FLI_of va) (SLI_of va) (TLI_of va) e).getD
    (1, boot_world, as)).2.2

/-- The machine after one frame, `0x100000`, was allocated. -/
def ex_world1 : World := (alloc_kpages boot_world 1).2

/-- One writable data region `[0x401000, 0x402000)`. -/
def ex_data : addrspace := with_region empty_as 0x401000 0x1000 PF_R PF_W 0

/-- The data region with its page mapped writable to frame `0x100000`. -/
def ex_data_mapped : addrspace := map_page ex_data 0x401000 0x100600

/-- The fork-time copy of the page table of `ex_data_mapped` into an empty table. -/
def ex_fork : Nat × World × PageTable × PageTable :=
  (Page_table_copy ex_world1 ex_data_mapped.PageTable empty_as.PageTable).getD
    (1, ex_world1, ex_data_mapped.PageTable, empty_as.PageTable)

/-- The machine after the fork: frame `0x100000` is referenced twice. -/
def ex_world2 : World := ex_fork.2.1

/-- The parent after the fork: its page is shared, without `DIRTY`. -/
def ex_parent : addrspace := { ex_data_mapped with PageTable := ex_fork.2.2.1 }

/-- The child after the fork. -/
def ex_child : addrspace := { ex_data with PageTable := ex_fork.2.2.2 }

/-- One read-only code region `[0x400000, 0x401000)`. -/
def ex_code : addrspace := with_region empty_as 0x400000 0x1000 PF_R 0 PF_X

/-- The code region after `as_prepare_load`. -/
def ex_code_prepared : addrspace := ((as_prepare_load ex_code).getD (1, ex_code)).2

/-- The code region while loading: its page was written through a writable PTE. -/
def ex_code_loading : addrspace := map_page ex_code_prepared 0x400000 0x100600

/-- One data region `[0x2000, 0x3000)`. -/
def ex_high : addrspace := with_region empty_as 0x2000 0x1000 PF_R PF_W 0

/-- The result of `as_define_stack` on a new address space. -/
def ex_stack : Nat × Nat × World × addrspace :=
  (as_define_stack boot_world empty_as).getD (1, 0, boot_world, empty_as)

/-- The address space after `as_set_process_break(as, amount)`. -/
def after_break (as : addrspace) (amount : Int) : addrspace :=
  ((as_set_process_break as amount).getD (0, none, as)).2.2

/-- The code region followed by the first `sbrk` call: the heap is initialised
with base and break `0x401000`. -/
def ex_heap : addrspace := after_break ex_code 0

/-- A region `[0x7ffef000, 0x7fff0000)` that ends where the stack reserve
begins, followed by the first `sbrk` call. -/
def ex_heap_high : addrspace :=
  after_break (with_region empty_as 0x7ffef000 0x1000 PF_R PF_W 0) 0

/-- A request whose 32-bit end wraps: `as_define_region(as, 0x1000, 0xfffff000, R, W, 0)`. -/
def ex_wrapped : addrspace := with_region empty_as 0x1000 0xfffff000 PF_R PF_W 0

/-- A region of size 0 at address 0. -/
def ex_zero : addrspace := with_region empty_as 0 0 PF_R PF_W 0

/-- One data region `[0x10000, 0x12000)`. -/
def ex_low : addrspace := with_region empty_as 0x10000 0x2000 PF_R PF_W 0

/-- The initialised heap grown by `0x3000` bytes. -/
def ex_heap_grown : addrspace := after_break ex_heap 0x3000

/-- The wrapped region with the page of `0x80000000` mapped. -/
def ex_wrapped_mapped : addrspace := map_page ex_wrapped 0x80000000 0x100600

/-- The stack defined first, then a code region `[0x400000, 0x401000)`. -/
def ex_stack_first : addrspace := with_region ex_stack.2.2.2 0x400000 0x1000 PF_R 0 PF_X

/-- The code region followed by the stack. -/
def ex_code_stack : addrspace :=
  ((as_define_stack boot_world ex_code).getD (1, 0, boot_world, ex_code)).2.2.2

/-- The code region, the stack, and then a data region `[0x401000, 0x402000)`. -/
def ex_code_stack_data : addrspace := with_region ex_code_stack 0x401000 0x1000 PF_R PF_W 0

/-- The code region and a data region, the program of a small executable. -/
def ex_prog : addrspace := with_region ex_code 0x401000 0x1000 PF_R PF_W 0

/-- The program after `as_prepare_load`. -/
def ex_prog_prepared : Nat × addrspace := (as_prepare_load ex_prog).getD (1, ex_prog)

/-- The grown heap `[0x401000, 0x404000)` with a data region defined over its first page. -/
def ex_overlap : addrspace := with_region ex_heap_grown 0x401000 0x1000 PF_R PF_W 0

/-- The result of a WRITE fault on the page that the region and the heap both own. -/
def ex_overlap_fault : Nat × World × addrspace :=
  (vm_fault boot_world ex_overlap VM_FAULT_WRITE 0x401000).getD (1, boot_world, ex_overlap)

/-- The grown heap with its first page mapped as a fork leaves it: frame
`0x100000`, `VALID`, no `DIRTY`. -/
def ex_heap_shared : addrspace := map_page ex_heap_grown 0x401000 0x100200

/-- A region without any permission. -/
def ex_noperm : addrspace := with_region empty_as 0x401000 0x1000 0 0 0

/-- An address space with one mmap node covering `[0x7ffee000, 0x7fff0000)`. -/
def ex_mmap : addrspace :=
  { empty_as with
    mmap_nodes := [{ Base_address := 0x7fff0000, length := 0x2000, File_descriptor := 3,
                     File_offset := 0, File_prot := 6, Num_pages := 1, next := none }]
    File_region_base := some 0
    File_region_end := some 0 }

/-- A machine whose file layer returns a page of bytes to the coming two reads. -/
def ex_world_file : World := { boot_world with reads := [4096, 4096] }

/-- The result of a READ fault on the first page of the mmap region. -/
def ex_mmap_fault1 : Nat × World × addrspace :=
  (vm_fault ex_world_file ex_mmap VM_FAULT_READ 0x7ffee000).getD (1, ex_world_file, ex_mmap)

/-- The result of a following READ fault on the second page of the mmap region. -/
def ex_mmap_fault2 : Nat × World × addrspace :=
  (vm_fault ex_mmap_fault1.2.1 ex_mmap_fault1.2.2 VM_FAULT_READ 0x7ffef000).getD
    (1, ex_world_file, ex_mmap)

/-- The machine of `ex_world1` with the outcomes of the coming `kmalloc` calls given. -/
def ex_world_kmallocs (outcomes : List Bool) : World := { ex_world1 with kmallocs := outcomes }

/-- The result of `as_copy` on the mapped data region when the given `kmalloc` outcomes come. -/
def ex_copy_with (outcomes : List Bool) : Nat × World × addrspace × Option addrspace :=
  (as_copy (ex_world_kmallocs outcomes) ex_data_mapped).getD (1, ex_world1, ex_data_mapped, none)

/-- The result of `as_copy` on the code region followed by the stack. -/
def ex_copy_regions : Nat × World × addrspace × Option addrspace :=
  (as_copy boot_world ex_code_stack).getD (1, boot_world, ex_code_stack, none)

/-- The program while loading: prepared, with the page table of the loaded code page. -/
def ex_prog_loading : addrspace :=
  { ex_prog_prepared.2 with PageTable := ex_code_loading.PageTable }

/-- The result of `as_complete_load` on the loaded program. -/
def ex_prog_loaded : Nat × World × addrspace :=
  (as_complete_load ex_world1 ex_prog_loading).getD (1, ex_world1, ex_prog_loading)

/-- The result of `as_copy` on the mapped data region. -/
def ex_copy_mapped : Nat × World × addrspace × Option addrspace :=
  (as_copy ex_world1 ex_data_mapped).getD (1, ex_world1, ex_data_mapped, none)

/-- The program image during loading with both base pages faulted in: code page
`0x400000` and data page `0x401000`, each with `DIRTY | VALID`. -/
def ex_prog_data_loading : addrspace := map_page ex_prog_loading 0x401000 0x101600

/-- The result of `as_complete_load` on that image. -/
def ex_prog_data_loaded : Nat × World × addrspace :=
  (as_complete_load boot_world ex_prog_data_loading).getD (1, boot_world, ex_prog_data_loading)

/-- A data region at `0x440000` beside the mapped code page: the level-2 array
of its page exists, the level-3 array does not. -/
def ex_code_far : addrspace := with_region ex_code_loading 0x440000 0x1000 PF_R PF_W 0

/-- Regions defined in descending address order: `0x500000` first, then `0x400000`. -/
def ex_descending : addrspace :=
  with_region (with_region empty_as 0x500000 0x1000 PF_R PF_W 0) 0x400000 0x1000 PF_R 0 PF_X

/-- That address space after `as_set_process_break(0)` and `as_set_process_break(0x100000)`. -/
def ex_descending_heap : addrspace := after_break (after_break ex_descending 0) 0x100000

/-- The address space after `as_define_region(as, 0x2000, 0xfffff000, R, W, 0)`
on a new address space. -/
def ex_wrap_define : addrspace := with_region empty_as 0x2000 0xfffff000 PF_R PF_W 0

/-- Code, stack, then a heap grown by three pages. -/
def ex_code_stack_heap : addrspace := after_break (after_break ex_code_stack 0) 0x3000

/-- The fork-time copy of the page table of `ex_data_mapped` into an empty
table when the allocation of the level-2 array succeeds and that of the
level-3 array fails. -/
def ex_fork_failed : Nat × World × PageTable × PageTable :=
  (Page_table_copy (ex_world_kmallocs [true, false]) ex_data_mapped.PageTable
    empty_as.PageTable).getD (1, ex_world1, ex_data_mapped.PageTable, empty_as.PageTable)

/-- The result of `as_copy` on the mapped data region when the allocation of
the level-3 array fails after six successful allocations. -/
def ex_copy_failed : Nat × World × addrspace × Option addrspace :=
  ex_copy_with [true, true, true, true, true, true, false]

/-! # Theorems -/

/-! ## Index arithmetic -/

theorem FLI_of_eq (va : Nat) : FLI_of va = va / 2 ^ 24 % 256 := by
  unfold FLI_of
  rw [Nat.shiftRight_eq_div_pow, Nat.shiftRight_eq_div_pow, Nat.shiftRight_eq_div_pow]
  rw [show (0xFF : Nat) = 2 ^ 8 - 1 from rfl, Nat.and_pow_two_sub_one_eq_mod]
  rw [Nat.div_div_eq_div_mul, Nat.div_div_eq_div_mul]
  norm_num

theorem SLI_of_eq (va : Nat) : SLI_of va = va / 2 ^ 18 % 64 := by
  unfold SLI_of
  rw [Nat.shiftRight_eq_div_pow, Nat.shiftRight_eq_div_pow]
  rw [show (0x3F : Nat) = 2 ^ 6 - 1 from rfl, Nat.and_pow_two_sub_one_eq_mod]
  rw [Nat.div_div_eq_div_mul]
  norm_num

theorem TLI_of_eq (va : Nat) : TLI_of va = va / 2 ^ 12 % 64 := by
  unfold TLI_of
  rw [Nat.shiftRight_eq_div_pow]
  rw [show (0x3F : Nat) = 2 ^ 6 - 1 from rfl, Nat.and_pow_two_sub_one_eq_mod]

theorem FLI_of_lt (va : Nat) : FLI_of va < LEVEL1_LIMIT := by
  rw [FLI_of_eq]; exact Nat.mod_lt _ (by decide)

theorem SLI_of_lt (va : Nat) : SLI_of va < LEVEL2_AND_3_LIMIT := by
  rw [SLI_of_eq]; exact Nat.mod_lt _ (by decide)

theorem TLI_of_lt (va : Nat) : TLI_of va < LEVEL2_AND_3_LIMIT := by
  rw [TLI_of_eq]; exact Nat.mod_lt _ (by decide)

theorem same_page_indices (va vb : Nat) (hpage : vb / 4096 = va / 4096) :
    FLI_of vb = FLI_of va ∧ SLI_of vb = SLI_of va ∧ TLI_of vb = TLI_of va := by
  have h : vb >>> 12 = va >>> 12 := by
    rw [Nat.shiftRight_eq_div_pow, Nat.shiftRight_eq_div_pow]; exact hpage
  simp [FLI_of, SLI_of, TLI_of, h]

/-! ## Insert and lookup -/

theorem Page_table_write_lookup (as as1 : addrspace) (va e : Nat)
    (h : Page_table_write as (FLI_of va) (SLI_of va) (TLI_of va) e = .ok as1) :
    Page_table_lookup as1 va = .ok e := by
  unfold Page_table_write at h
  repeat' split at h
  all_goals first
    | (cases h; simp [Page_table_lookup, store])
    | cases h

theorem Page_table_Insert_write (w w1 : World) (as as1 : addrspace) (FLI SLI TLI e rc : Nat)
    (h : Page_table_Insert w as FLI SLI TLI e = .ok (rc, w1, as1)) :
    rc = SUCCESS ∧ ∃ as0, Page_table_write as0 FLI SLI TLI e = .ok as1 := by
  unfold Page_table_Insert at h
  repeat' split at h
  all_goals first
    | (cases h; exact ⟨rfl, _, by assumption⟩)
    | cases h

/-- C1: when `Page_table_Insert` at the indices of `va` (bits 31..24, 23..18
and 17..12) returns, it returns `SUCCESS` and `Page_table_lookup` gives exactly
the inserted word for every address of the same 4 KiB page. -/
theorem Page_table_Insert_then_lookup (w w1 : World) (as as1 : addrspace) (va e rc : Nat)
    (h : Page_table_Insert w as (va / 2 ^ 24 % 256) (va / 2 ^ 18 % 64) (va / 2 ^ 12 % 64) e
          = .ok (rc, w1, as1))
    (vb : Nat) (hpage : vb / 4096 = va / 4096) :
    rc = SUCCESS ∧ Page_table_lookup as1 vb = .ok e := by
  rw [← FLI_of_eq, ← SLI_of_eq, ← TLI_of_eq] at h
  obtain ⟨hrc, as0, hw⟩ := Page_table_Insert_write _ _ _ _ _ _ _ _ _ h
  obtain ⟨h1, h2, h3⟩ := same_page_indices va vb hpage
  rw [← h1, ← h2, ← h3] at hw
  exact ⟨hrc, Page_table_write_lookup _ _ _ _ hw⟩

/-! ## Fork-time copy of the page table -/

theorem land_NOT_DIRTY_frame (e : Nat) : (e &&& NOT_DIRTY) &&& PAGE_FRAME = e &&& PAGE_FRAME := by
  rw [Nat.land_assoc]; rfl

theorem store_same {β : Type} (a : Nat → β) (i : Nat) (v : β) : store a i v i = v := by
  simp [store]

theorem store_other {β : Type} (a : Nat → β) (i j : Nat) (v : β) (h : j ≠ i) :
    store a i v j = a j := by
  simp [store, h]

theorem store_store {β : Type} (a : Nat → β) (i : Nat) (u v : β) :
    store (store a i u) i v = store a i v := by
  funext j; by_cases h : j = i <;> simp [store, h]

theorem Level_three_copy_loop_spec (n : Nat) (w : World) (o nw : Level3) :
    Level_three_copy_loop n (w, o, nw) =
      ({ w with refcount := fun f => w.refcount f + sum_below n (fun k => names_frame (o k) f) },
       (fun k => if k < n then o k &&& NOT_DIRTY else o k),
       (fun k => if k < n then o k &&& NOT_DIRTY else nw k)) := by
  induction n with
  | zero => simp [Level_three_copy_loop, sum_below]
  | succ n ih =>
    simp only [Level_three_copy_loop, ih, Level_three_copy_step]
    by_cases h0 : o n = 0
    · simp only [lt_self_iff_false, if_false, h0, ne_eq, not_true_eq_false]
      refine Prod.ext ?_ (Prod.ext ?_ ?_)
      · simp [sum_below, names_frame, h0]
      · funext k
        by_cases hk : k = n
        · subst hk; simp [h0]
        · have : k < n + 1 ↔ k < n := by omega
          simp [this]
      · funext k
        by_cases hk : k = n
        · subst hk; simp [store, h0]
        · have : k < n + 1 ↔ k < n := by omega
          simp [store, hk, this]
    · simp only [lt_self_iff_false, if_false, h0, ne_eq, not_false_eq_true, if_true]
      refine Prod.ext ?_ (Prod.ext ?_ ?_)
      · simp only [frame_ref_increase, store_same, land_NOT_DIRTY_frame]
        congr 1
        funext f
        by_cases hf : f = o n &&& PAGE_FRAME
        · subst hf; simp [store, sum_below, names_frame, h0]; omega
        · have hf2 : ¬ (o n &&& PAGE_FRAME = f) := fun h => hf h.symm
          simp [store, sum_below, names_frame, hf, hf2]
      · funext k
        by_cases hk : k = n
        · subst hk; simp [store]
        · have : k < n + 1 ↔ k < n := by omega
          simp [store, hk, this]
      · funext k
        by_cases hk : k = n
        · subst hk; simp [store]
        · have : k < n + 1 ↔ k < n := by omega
          simp [store, hk, this]

theorem store_self {β : Type} (a : Nat → β) (i : Nat) (v : β) (h : a i = v) :
    store a i v = a := by
  funext j; by_cases hj : j = i
  · subst hj; simp [store, h]
  · simp [store, hj]

theorem kmalloc_AllocOK (w : World) (h : AllocOK w) :
    (kmalloc w).1 = true ∧ AllocOK (kmalloc w).2 ∧ same_devices w (kmalloc w).2
      ∧ (kmalloc w).2.refcount = w.refcount := by
  unfold kmalloc
  cases hk : w.kmallocs with
  | nil => simp [h, same_devices]
  | cons b rest =>
    have hb : b = true := h b (by simp [hk])
    refine ⟨hb, ?_, ?_, rfl⟩
    · intro c hc; exact h c (by simp [hk, hc])
    · simp [same_devices]

theorem same_devices_trans {a b c : World} (h1 : same_devices a b) (h2 : same_devices b c) :
    same_devices a c := by
  unfold same_devices at h1 h2 ⊢
  refine ⟨?_, ?_, ?_, ?_, ?_, ?_⟩
  · rw [h2.1, h1.1]
  · rw [h2.2.1, h1.2.1]
  · rw [h2.2.2.1, h1.2.2.1]
  · rw [h2.2.2.2.1, h1.2.2.2.1]
  · rw [h2.2.2.2.2.1, h1.2.2.2.2.1]
  · rw [h2.2.2.2.2.2, h1.2.2.2.2.2]

theorem same_devices_refl (a : World) : same_devices a a := ⟨rfl, rfl, rfl, rfl, rfl, rfl⟩

theorem sum_from_congr (g h : Nat → Nat) (n : Nat) :
    ∀ j, (∀ j', j ≤ j' → j' < j + n → g j' = h j') → sum_from j n g = sum_from j n h := by
  induction n with
  | zero => intro j _; simp [sum_from]
  | succ n ih =>
    intro j hg
    simp only [sum_from]
    rw [hg j (le_refl _) (by omega), ih (j + 1) (fun j' h1 h2 => hg j' (by omega) (by omega))]

theorem Level_two_copy_loop_spec (i : Nat) (n : Nat) :
    ∀ (j : Nat) (w : World) (oldPT newPT : PageTable) (l2o l2n : Level2)
      (rc : Nat) (w' : World) (o' n' : PageTable),
      AllocOK w → oldPT.Pages i = some l2o → newPT.Pages i = some l2n →
      Level_two_copy_loop i n j w oldPT newPT = .ok (rc, w', o', n') →
      rc = SUCCESS
      ∧ (∃ a b, o' = { Pages := store oldPT.Pages i (some a) }
          ∧ n' = { Pages := store newPT.Pages i (some b) }
          ∧ (∀ j', a j' = if j ≤ j' ∧ j' < j + n then strip_slot (l2o j') else l2o j')
          ∧ (∀ j', b j' = if j ≤ j' ∧ j' < j + n then copy_slot (l2o j') else l2n j'))
      ∧ AllocOK w' ∧ same_devices w w'
      ∧ ∀ f, w'.refcount f = w.refcount f + sum_from j n (fun j' => slot_refs (l2o j') f) := by
  induction n with
  | zero =>
    intro j w oldPT newPT l2o l2n rc w' o' n' hA ho hn h
    simp only [Level_two_copy_loop, Res.ok.injEq, Prod.mk.injEq] at h
    obtain ⟨h1, h2, h3, h4⟩ := h
    subst h1 h2 h3 h4
    refine ⟨rfl, ⟨l2o, l2n, ?_, ?_, ?_, ?_⟩, hA, same_devices_refl _, ?_⟩
    · rw [store_self _ _ _ ho]
    · rw [store_self _ _ _ hn]
    · intro j'; have : ¬ (j ≤ j' ∧ j' < j + 0) := by omega
      rw [if_neg this]
    · intro j'; have : ¬ (j ≤ j' ∧ j' < j + 0) := by omega
      rw [if_neg this]
    · intro f; simp [sum_from]
  | succ n ih =>
    intro j w oldPT newPT l2o l2n rc w' o' n' hA ho hn h
    simp only [Level_two_copy_loop, ho, hn] at h
    cases hs : l2o j with
    | junk => simp [hs] at h
    | null =>
      simp only [hs] at h
      have := ih (j + 1) w oldPT _ l2o (store l2n j .null) rc w' o' n' hA ho (by simp [store]) h
      obtain ⟨h1, ⟨a, b, h2, h3, ha, hb⟩, h4, h5, h6⟩ := this
      refine ⟨h1, ⟨a, b, h2, ?_, ?_, ?_⟩, h4, h5, ?_⟩
      · rw [h3, store_store]
      · intro j'; rw [ha]
        by_cases hj : j' = j
        · subst hj
          have h1 : ¬ (j' + 1 ≤ j' ∧ j' < j' + 1 + n) := by omega
          have h2 : (j' ≤ j' ∧ j' < j' + (n + 1)) := by omega
          simp [h1, h2, hs, strip_slot]
        · have : (j + 1 ≤ j' ∧ j' < j + 1 + n) ↔ (j ≤ j' ∧ j' < j + (n + 1)) := by omega
          simp only [this]
      · intro j'; rw [hb]
        by_cases hj : j' = j
        · subst hj
          have h1 : ¬ (j' + 1 ≤ j' ∧ j' < j' + 1 + n) := by omega
          have h2 : (j' ≤ j' ∧ j' < j' + (n + 1)) := by omega
          simp [h1, h2, hs, copy_slot, store]
        · have : (j + 1 ≤ j' ∧ j' < j + 1 + n) ↔ (j ≤ j' ∧ j' < j + (n + 1)) := by omega
          simp only [this, store, hj, if_false]
      · intro f; rw [h6]; simp [sum_from, hs, slot_refs]
    | ptr o =>
      simp only [hs] at h
      obtain ⟨k1, k2, k3, k4⟩ := kmalloc_AllocOK w hA
      have hk : kmalloc w = (true, (kmalloc w).2) := by
        rw [← k1]
      rw [hk] at h
      simp only [Level_three_copy, ho, store_same, hs, Level_three_copy_loop_spec] at h
      have := ih (j + 1) _ _ _ _ _ rc w' o' n' (by exact k2) (store_same _ _ _)
        (store_same _ _ _) h
      obtain ⟨h1, ⟨a, b, h2, h3, ha, hb⟩, h4, h5, h6⟩ := this
      refine ⟨h1, ⟨a, b, ?_, ?_, ?_, ?_⟩, h4, same_devices_trans k3 h5, ?_⟩
      · rw [h2, store_store]
      · rw [h3, store_store, store_store]
      · intro j'; rw [ha]
        by_cases hj : j' = j
        · subst hj
          have h1 : ¬ (j' + 1 ≤ j' ∧ j' < j' + 1 + n) := by omega
          have h2 : (j' ≤ j' ∧ j' < j' + (n + 1)) := by omega
          simp [h1, h2, hs, strip_slot, store]
        · have : (j + 1 ≤ j' ∧ j' < j + 1 + n) ↔ (j ≤ j' ∧ j' < j + (n + 1)) := by omega
          simp only [this, store, hj, if_false]
      · intro j'; rw [hb]
        by_cases hj : j' = j
        · subst hj
          have h1 : ¬ (j' + 1 ≤ j' ∧ j' < j' + 1 + n) := by omega
          have h2 : (j' ≤ j' ∧ j' < j' + (n + 1)) := by omega
          simp [h1, h2, hs, copy_slot, store]
        · have : (j + 1 ≤ j' ∧ j' < j + 1 + n) ↔ (j ≤ j' ∧ j' < j + (n + 1)) := by omega
          simp only [this, store, hj, if_false]
      · intro f; rw [h6]
        have hpt : ∀ j', j + 1 ≤ j' → j' < j + 1 + n →
            slot_refs (store l2o j (Slot.ptr fun k =>
              if k < LEVEL2_AND_3_LIMIT then o k &&& NOT_DIRTY else o k) j') f
              = slot_refs (l2o j') f := by
          intro j' h1 _
          have : j' ≠ j := by omega
          simp [store, this]
        rw [sum_from_congr _ _ n (j + 1) hpt]
        simp only [k4, sum_from, hs, slot_refs, Nat.add_assoc]

theorem Page_table_copy_loop_spec (n : Nat) :
    ∀ (i : Nat) (w : World) (oldPT newPT : PageTable)
      (rc : Nat) (w' : World) (o' n' : PageTable),
      AllocOK w →
      Page_table_copy_loop n i w oldPT newPT = .ok (rc, w', o', n') →
      rc = SUCCESS
      ∧ (∀ i', o'.Pages i' =
          if i ≤ i' ∧ i' < i + n then (oldPT.Pages i').map strip_level2 else oldPT.Pages i')
      ∧ (∀ i', n'.Pages i' =
          if i ≤ i' ∧ i' < i + n then (oldPT.Pages i').map copy_level2 else newPT.Pages i')
      ∧ AllocOK w' ∧ same_devices w w'
      ∧ ∀ f, w'.refcount f = w.refcount f + sum_from i n (fun i' => level2_refs (oldPT.Pages i') f) := by
  induction n with
  | zero =>
    intro i w oldPT newPT rc w' o' n' hA h
    simp only [Page_table_copy_loop, Res.ok.injEq, Prod.mk.injEq] at h
    obtain ⟨h1, h2, h3, h4⟩ := h
    subst h1 h2 h3 h4
    refine ⟨rfl, ?_, ?_, hA, same_devices_refl _, ?_⟩
    · intro i'; have : ¬ (i ≤ i' ∧ i' < i + 0) := by omega
      rw [if_neg this]
    · intro i'; have : ¬ (i ≤ i' ∧ i' < i + 0) := by omega
      rw [if_neg this]
    · intro f; simp [sum_from]
  | succ n ih =>
    intro i w oldPT newPT rc w' o' n' hA h
    simp only [Page_table_copy_loop] at h
    cases ho : oldPT.Pages i with
    | none =>
      simp only [ho] at h
      obtain ⟨h1, h2, h3, h4, h5, h6⟩ := ih (i + 1) w oldPT _ rc w' o' n' hA h
      refine ⟨h1, ?_, ?_, h4, h5, ?_⟩
      · intro i'; rw [h2]
        by_cases hi : i' = i
        · subst hi
          have h1 : ¬ (i' + 1 ≤ i' ∧ i' < i' + 1 + n) := by omega
          have h2 : (i' ≤ i' ∧ i' < i' + (n + 1)) := by omega
          simp [h1, h2, ho]
        · have : (i + 1 ≤ i' ∧ i' < i + 1 + n) ↔ (i ≤ i' ∧ i' < i + (n + 1)) := by omega
          simp only [this]
      · intro i'; rw [h3]
        by_cases hi : i' = i
        · subst hi
          have h1 : ¬ (i' + 1 ≤ i' ∧ i' < i' + 1 + n) := by omega
          have h2 : (i' ≤ i' ∧ i' < i' + (n + 1)) := by omega
          simp [h1, h2, ho, store]
        · have : (i + 1 ≤ i' ∧ i' < i + 1 + n) ↔ (i ≤ i' ∧ i' < i + (n + 1)) := by omega
          simp only [this, store, hi, if_false]
      · intro f; rw [h6]; simp [sum_from, ho, level2_refs]
    | some l2o =>
      simp only [ho] at h
      obtain ⟨k1, k2, k3, k4⟩ := kmalloc_AllocOK w hA
      have hk : kmalloc w = (true, (kmalloc w).2) := by
        rw [← k1]
      rw [hk] at h
      simp only at h
      cases hr : Level_two_copy (kmalloc w).2 oldPT
          { Pages := store newPT.Pages i (some (fun _ => Slot.junk)) } i with
      | trap => simp [hr] at h
      | hang => simp [hr] at h
      | ok r =>
        obtain ⟨rc2, w2, o2, n2⟩ := r
        simp only [hr] at h
        obtain ⟨-, ⟨a, b, e2, e3, ha, hb⟩, g4, g5, g6⟩ :=
          Level_two_copy_loop_spec i LEVEL2_AND_3_LIMIT 0 _ _ _ l2o (fun _ => Slot.junk)
            rc2 w2 o2 n2 k2 ho (store_same _ _ _) hr
        obtain ⟨h1, h2, h3, h4, h5, h6⟩ := ih (i + 1) w2 o2 n2 rc w' o' n' g4 h
        have hoth : ∀ i', i' ≠ i → o2.Pages i' = oldPT.Pages i' := by
          intro i' hi; rw [e2]; simp [store, hi]
        refine ⟨h1, ?_, ?_, h4, same_devices_trans k3 (same_devices_trans g5 h5), ?_⟩
        · intro i'; rw [h2]
          by_cases hi : i' = i
          · subst hi
            have h1 : ¬ (i' + 1 ≤ i' ∧ i' < i' + 1 + n) := by omega
            have h2 : (i' ≤ i' ∧ i' < i' + (n + 1)) := by omega
            rw [if_neg h1, if_pos h2, e2, ho]
            simp only [store_same, Option.map_some', Option.some.injEq]
            funext j; rw [ha]; simp [strip_level2]
          · have : (i + 1 ≤ i' ∧ i' < i + 1 + n) ↔ (i ≤ i' ∧ i' < i + (n + 1)) := by omega
            simp only [this, hoth i' hi]
        · intro i'; rw [h3]
          by_cases hi : i' = i
          · subst hi
            have h1 : ¬ (i' + 1 ≤ i' ∧ i' < i' + 1 + n) := by omega
            have h2 : (i' ≤ i' ∧ i' < i' + (n + 1)) := by omega
            rw [if_neg h1, if_pos h2, e3, ho]
            simp only [store_same, store_store, Option.map_some', Option.some.injEq]
            funext j; rw [hb]; simp [copy_level2]
          · have : (i + 1 ≤ i' ∧ i' < i + 1 + n) ↔ (i ≤ i' ∧ i' < i + (n + 1)) := by omega
            simp only [this, hoth i' hi, e3, store, hi, if_false]
        · intro f; rw [h6, g6]
          have hpt : ∀ i', i + 1 ≤ i' → i' < i + 1 + n →
              level2_refs (o2.Pages i') f = level2_refs (oldPT.Pages i') f := by
            intro i' h1 _
            rw [hoth i' (by omega)]
          rw [sum_from_congr _ _ n (i + 1) hpt]
          simp only [k4, sum_from, ho, level2_refs, Nat.add_assoc]

theorem sum_from_succ (g : Nat → Nat) (n : Nat) :
    ∀ j, sum_from j (n + 1) g = sum_from j n g + g (j + n) := by
  induction n with
  | zero => intro j; simp [sum_from]
  | succ n ih =>
    intro j
    rw [sum_from, ih (j + 1), sum_from]
    have : j + 1 + n = j + (n + 1) := by omega
    rw [this, Nat.add_assoc]

theorem sum_from_zero (g : Nat → Nat) (n : Nat) : sum_from 0 n g = sum_below n g := by
  induction n with
  | zero => simp [sum_from, sum_below]
  | succ n ih => rw [sum_from_succ, ih, sum_below]; simp

theorem sum_below_congr (g h : Nat → Nat) (n : Nat) (hg : ∀ k, k < n → g k = h k) :
    sum_below n g = sum_below n h := by
  induction n with
  | zero => simp [sum_below]
  | succ n ih =>
    simp only [sum_below]
    rw [ih (fun k hk => hg k (by omega)), hg n (by omega)]

theorem sum_below_zero (g : Nat → Nat) (n : Nat) (hg : ∀ k, k < n → g k = 0) :
    sum_below n g = 0 := by
  induction n with
  | zero => simp [sum_below]
  | succ n ih =>
    simp only [sum_below]
    rw [ih (fun k hk => hg k (by omega)), hg n (by omega)]

theorem level2_refs_eq (pt : PageTable) (i f : Nat) :
    level2_refs (pt.Pages i) f =
      sum_below LEVEL2_AND_3_LIMIT (fun j =>
        sum_below LEVEL2_AND_3_LIMIT (fun k => names_frame (pte_at pt i j k) f)) := by
  unfold level2_refs
  cases h : pt.Pages i with
  | none =>
    symm
    apply sum_below_zero
    intro j _
    apply sum_below_zero
    intro k _
    simp [pte_at, h, names_frame]
  | some l2 =>
    simp only
    rw [sum_from_zero]
    apply sum_below_congr
    intro j _
    cases hs : l2 j with
    | ptr l3 => simp [slot_refs, pte_at, h, hs]
    | null =>
      simp only [slot_refs]
      symm; apply sum_below_zero; intro k _; simp [pte_at, h, hs, names_frame]
    | junk =>
      simp only [slot_refs]
      symm; apply sum_below_zero; intro k _; simp [pte_at, h, hs, names_frame]

theorem clear_dirty_bits (e : Nat) :
    (e &&& NOT_DIRTY) &&& PAGE_FRAME = e &&& PAGE_FRAME
    ∧ (e &&& NOT_DIRTY) &&& TLBLO_VALID = e &&& TLBLO_VALID
    ∧ (e &&& NOT_DIRTY) &&& TLBLO_DIRTY = 0 := by
  refine ⟨?_, ?_, ?_⟩
  · rw [Nat.land_assoc]; rfl
  · rw [Nat.land_assoc]; rfl
  · rw [Nat.land_assoc]; show e &&& 0 = 0; simp

theorem clear_dirty_testBit (e b : Nat) (hb : b < 32) :
    (e &&& NOT_DIRTY).testBit b = if b = 10 then false else e.testBit b := by
  rw [Nat.testBit_land]
  have : NOT_DIRTY.testBit b = if b = 10 then false else true := by
    interval_cases b <;> rfl
  rw [this]
  split <;> simp

/-- The copy in which no allocation fails: when `Page_table_copy` returns and
no allocation failed, then for every
address: a non-zero PTE of the source is afterwards that word with only the
`DIRTY` bit cleared (frame and `VALID` unchanged), the destination holds the
same word, and a zero or absent PTE of the source reads 0 in the destination. -/

theorem Page_table_copy_shares_pages (w : World) (old new : addrspace)
    (r : Nat × World × PageTable × PageTable) (hA : AllocOK w)
    (h : Page_table_copy w old.PageTable new.PageTable = .ok r) (va : Nat) :
    r.1 = SUCCESS
    ∧ (∀ e, Page_table_lookup old va = .ok e → e ≠ 0 →
        Page_table_lookup { old with PageTable := r.2.2.1 } va = .ok (e &&& NOT_DIRTY)
        ∧ Page_table_lookup { new with PageTable := r.2.2.2 } va = .ok (e &&& NOT_DIRTY)
        ∧ (∀ b, b < 32 → (e &&& NOT_DIRTY).testBit b = if b = 10 then false else e.testBit b)
        ∧ (e &&& NOT_DIRTY) &&& PAGE_FRAME = e &&& PAGE_FRAME
        ∧ (e &&& NOT_DIRTY) &&& TLBLO_VALID = e &&& TLBLO_VALID
        ∧ (e &&& NOT_DIRTY) &&& TLBLO_DIRTY = 0)
    ∧ (Page_table_lookup old va = .ok 0 →
        Page_table_lookup { new with PageTable := r.2.2.2 } va = .ok 0) := by
  obtain ⟨rc, w', o', n'⟩ := r
  obtain ⟨h1, h2, h3, -, -, -⟩ :=
    Page_table_copy_loop_spec LEVEL1_LIMIT 0 w old.PageTable new.PageTable rc w' o' n' hA h
  have hF : 0 ≤ FLI_of va ∧ FLI_of va < 0 + LEVEL1_LIMIT := ⟨Nat.zero_le _, by
    have := FLI_of_lt va; omega⟩
  have hS := SLI_of_lt va
  have hT := TLI_of_lt va
  have e2 := h2 (FLI_of va)
  have e3 := h3 (FLI_of va)
  rw [if_pos hF] at e2 e3
  refine ⟨h1, ?_, ?_⟩
  · intro e he hne
    refine ⟨?_, ?_, clear_dirty_testBit e, clear_dirty_bits e⟩
    · simp only [Page_table_lookup, e2] at he ⊢
      cases ho : old.PageTable.Pages (FLI_of va) with
      | none => simp [ho] at he; exact absurd he.symm hne
      | some l2 =>
        simp only [ho, Option.map_some'] at he ⊢
        cases hs : l2 (SLI_of va) with
        | null => simp [hs] at he; exact absurd he.symm hne
        | junk => simp [hs] at he
        | ptr l3 =>
          simp only [hs, Res.ok.injEq] at he
          simp [strip_level2, hS, hs, strip_slot, hT, he]
    · simp only [Page_table_lookup, e3] at he ⊢
      cases ho : old.PageTable.Pages (FLI_of va) with
      | none => simp [ho] at he; exact absurd he.symm hne
      | some l2 =>
        simp only [ho, Option.map_some'] at he ⊢
        cases hs : l2 (SLI_of va) with
        | null => simp [hs] at he; exact absurd he.symm hne
        | junk => simp [hs] at he
        | ptr l3 =>
          simp only [hs, Res.ok.injEq] at he
          simp [copy_level2, hS, hs, copy_slot, hT, he]
  · intro he
    simp only [Page_table_lookup, e3] at he ⊢
    cases ho : old.PageTable.Pages (FLI_of va) with
    | none => simp
    | some l2 =>
      simp only [ho, Option.map_some'] at he ⊢
      cases hs : l2 (SLI_of va) with
      | null => simp [copy_level2, hS, hs, copy_slot]
      | junk => simp [hs] at he
      | ptr l3 =>
        simp only [hs, Res.ok.injEq] at he
        simp [copy_level2, hS, hs, copy_slot, hT, he]

/-- The counts in a copy in which no allocation fails: when `Page_table_copy`
returns and no allocation failed, the reference
count of every frame has grown by exactly the number of non-zero PTEs of the
source that name it, so a frame that no PTE of the source names keeps its count. -/

theorem Page_table_copy_refcounts (w : World) (oldPT newPT : PageTable)
    (r : Nat × World × PageTable × PageTable) (hA : AllocOK w)
    (h : Page_table_copy w oldPT newPT = .ok r) (f : Nat) :
    r.2.1.refcount f = w.refcount f + frame_refs oldPT f
    ∧ ((∀ i j k, i < LEVEL1_LIMIT → j < LEVEL2_AND_3_LIMIT → k < LEVEL2_AND_3_LIMIT →
          pte_at oldPT i j k = 0 ∨ pte_at oldPT i j k &&& PAGE_FRAME ≠ f) →
        r.2.1.refcount f = w.refcount f) := by
  obtain ⟨rc, w', o', n'⟩ := r
  obtain ⟨-, -, -, -, -, h6⟩ :=
    Page_table_copy_loop_spec LEVEL1_LIMIT 0 w oldPT newPT rc w' o' n' hA h
  have hsum : w'.refcount f = w.refcount f + frame_refs oldPT f := by
    rw [h6 f, sum_from_zero,
      sum_below_congr _ _ LEVEL1_LIMIT (fun i _ => level2_refs_eq oldPT i f), frame_refs]
  refine ⟨hsum, ?_⟩
  intro hno
  rw [hsum]
  have : frame_refs oldPT f = 0 := by
    unfold frame_refs
    apply sum_below_zero; intro i hi
    apply sum_below_zero; intro j hj
    apply sum_below_zero; intro k hk
    unfold names_frame
    rcases hno i j k hi hj hk with h0 | hf
    · simp [h0]
    · simp [hf]
  omega

/-! ## Fault handling -/

theorem tlb_miss_handler_present (w : World) (fa : Nat) (as : addrspace) (R : Option Nat)
    (H : Option Heap_region) (F : Option Nat) (e : Nat)
    (hl : Page_table_lookup as fa = .ok e) (hne : e ≠ 0) :
    tlb_miss_handler w fa as R H F = .ok (SUCCESS, Load_TLB w (fa &&& TLBHI_VPAGE) e, as) := by
  simp [tlb_miss_handler, hl, hne]

theorem lookup_present (as : addrspace) (fa e : Nat)
    (hl : Page_table_lookup as fa = .ok e) (hne : e ≠ 0) :
    ∃ l2 l3, as.PageTable.Pages (FLI_of fa) = some l2 ∧ l2 (SLI_of fa) = .ptr l3
      ∧ l3 (TLI_of fa) = e := by
  unfold Page_table_lookup at hl
  simp only at hl
  split at hl
  · cases hl; exact absurd rfl hne
  · rename_i l2 h2
    split at hl
    · cases hl; exact absurd rfl hne
    · cases hl
    · rename_i l3 h3
      cases hl
      exact ⟨l2, l3, h2, h3, rfl⟩

theorem Page_table_write_present (as : addrspace) (fa v : Nat) (l2 : Level2) (l3 : Level3)
    (h2 : as.PageTable.Pages (FLI_of fa) = some l2) (h3 : l2 (SLI_of fa) = .ptr l3) :
    Page_table_write as (FLI_of fa) (SLI_of fa) (TLI_of fa) v =
      .ok { as with PageTable :=
              { Pages := store as.PageTable.Pages (FLI_of fa)
                  (some (store l2 (SLI_of fa) (Slot.ptr (store l3 (TLI_of fa) v)))) } } := by
  have hF := FLI_of_lt fa
  have hS := SLI_of_lt fa
  have hT := TLI_of_lt fa
  unfold Page_table_write
  rw [if_neg (by omega)]
  simp only [h2, h3]

theorem pte_at_write (pt : PageTable) (i j k v : Nat) (l2 : Level2) (l3 : Level3)
    (h2 : pt.Pages i = some l2) (h3 : l2 j = .ptr l3) (i' j' k' : Nat) :
    pte_at { Pages := store pt.Pages i (some (store l2 j (Slot.ptr (store l3 k v)))) } i' j' k'
      = if i' = i ∧ j' = j ∧ k' = k then v else pte_at pt i' j' k' := by
  unfold pte_at
  by_cases hi : i' = i
  · subst hi
    by_cases hj : j' = j
    · subst hj
      by_cases hk : k' = k
      · subst hk; simp [store]
      · simp [store, hk, h2, h3]
    · simp [store, hj, h2]
  · simp [store, hi]

theorem lookup_eq_pte_at (as : addrspace) (va e : Nat)
    (h : Page_table_lookup as va = .ok e) :
    e = pte_at as.PageTable (FLI_of va) (SLI_of va) (TLI_of va) := by
  unfold Page_table_lookup at h
  unfold pte_at
  simp only at h
  split at h
  · cases h; simp [*]
  · split at h
    · cases h; simp [*]
    · cases h
    · cases h; simp [*]

theorem lookup_write_other (as : addrspace) (fa v vb : Nat) (l2 : Level2) (l3 : Level3)
    (h2 : as.PageTable.Pages (FLI_of fa) = some l2) (h3 : l2 (SLI_of fa) = .ptr l3)
    (hne : ¬ (FLI_of vb = FLI_of fa ∧ SLI_of vb = SLI_of fa ∧ TLI_of vb = TLI_of fa)) :
    Page_table_lookup { as with PageTable :=
        { Pages := store as.PageTable.Pages (FLI_of fa)
            (some (store l2 (SLI_of fa) (Slot.ptr (store l3 (TLI_of fa) v)))) } } vb
      = Page_table_lookup as vb := by
  unfold Page_table_lookup
  simp only
  by_cases hi : FLI_of vb = FLI_of fa
  · rw [hi]
    by_cases hj : SLI_of vb = SLI_of fa
    · rw [hj]
      have hk : TLI_of vb ≠ TLI_of fa := fun hk => hne ⟨hi, hj, hk⟩
      simp [store, hk, h2, h3]
    · simp [store, hj, h2]
  · simp [store, hi]

theorem page_of_indices (va : Nat) (h : va < 2 ^ 32) :
    va / 4096 = FLI_of va * 4096 + SLI_of va * 64 + TLI_of va := by
  rw [FLI_of_eq, SLI_of_eq, TLI_of_eq]
  norm_num at h ⊢
  omega

theorem indices_differ (va vb : Nat) (ha : va < 2 ^ 32) (hb : vb < 2 ^ 32)
    (hne : vb / 4096 ≠ va / 4096) :
    ¬ (FLI_of vb = FLI_of va ∧ SLI_of vb = SLI_of va ∧ TLI_of vb = TLI_of va) := by
  rintro ⟨h1, h2, h3⟩
  apply hne
  rw [page_of_indices va ha, page_of_indices vb hb, h1, h2, h3]

/-- C7: on a page whose PTE is non-zero and whose frame has reference count 1,
`copy_on_write` returns `SUCCESS`, rewrites the PTE to its frame number with
`DIRTY` and `VALID`, takes no frame from the allocator, changes no reference
count and changes no other PTE. -/
theorem copy_on_write_sole_owner (w : World) (as : addrspace) (fa e : Nat)
    (hl : Page_table_lookup as fa = .ok e) (hne : e ≠ 0)
    (hrc : frame_ref_count_check w (e &&& PAGE_FRAME) = 1) :
    ∃ as1, copy_on_write w as fa = .ok (SUCCESS, as_activate w, as1)
      ∧ Page_table_lookup as1 fa = .ok ((e &&& PAGE_FRAME) ||| TLBLO_DIRTY ||| TLBLO_VALID)
      ∧ (as_activate w).kpages = w.kpages
      ∧ (as_activate w).refcount = w.refcount
      ∧ (∀ i j k, ¬ (i = FLI_of fa ∧ j = SLI_of fa ∧ k = TLI_of fa) →
          pte_at as1.PageTable i j k = pte_at as.PageTable i j k)
      ∧ (∀ vb, fa < 2 ^ 32 → vb < 2 ^ 32 → vb / 4096 ≠ fa / 4096 →
          Page_table_lookup as1 vb = Page_table_lookup as vb) := by
  obtain ⟨l2, l3, h2, h3, -⟩ := lookup_present as fa e hl hne
  refine ⟨{ as with PageTable :=
              { Pages := store as.PageTable.Pages (FLI_of fa)
                  (some (store l2 (SLI_of fa) (Slot.ptr (store l3 (TLI_of fa)
                    ((e &&& PAGE_FRAME) ||| TLBLO_DIRTY ||| TLBLO_VALID))))) } },
    ?_, ?_, ?_, ?_, ?_, ?_⟩
  · unfold copy_on_write
    simp only [hl, hne, if_false, hrc, if_true]
    rw [Page_table_write_present as fa _ l2 l3 h2 h3]
  · simp [Page_table_lookup, store]
  · unfold as_activate; split <;> rfl
  · unfold as_activate; split <;> rfl
  · intro i j k hijk
    show pte_at { Pages := _ } i j k = _
    rw [pte_at_write _ _ _ _ _ l2 l3 h2 h3, if_neg hijk]
  · intro vb ha hb hpage
    exact lookup_write_other as fa _ vb l2 l3 h2 h3 (indices_differ fa vb ha hb hpage)

theorem land_PAGE_FRAME_aligned (p : Nat) (h32 : p < 2 ^ 32) (hal : p % PAGE_SIZE = 0) :
    p &&& PAGE_FRAME = p := by
  apply Nat.eq_of_testBit_eq
  intro i
  rw [Nat.testBit_land]
  by_cases hi : i < 12
  · have : p.testBit i = false := by
      have hp : p = 2 ^ 12 * (p / 2 ^ 12) := by
        unfold PAGE_SIZE at hal; omega
      rw [hp, Nat.testBit_mul_pow_two]
      simp; omega
    simp [this]
  · by_cases hi2 : i < 32
    · have : PAGE_FRAME.testBit i = true := by
        have : 12 ≤ i := by omega
        interval_cases i <;> rfl
      simp [this]
    · have : p.testBit i = false := by
        apply Nat.testBit_lt_two_pow
        calc p < 2 ^ 32 := h32
          _ ≤ 2 ^ i := Nat.pow_le_pow_right (by decide) (by omega)
      simp [this]

theorem KVADDR_PADDR_roundtrip (p : Nat) (h : p < 2 ^ 32) :
    KVADDR_TO_PADDR (PADDR_TO_KVADDR p) = p := by
  unfold KVADDR_TO_PADDR PADDR_TO_KVADDR WORD MIPS_KSEG0
  norm_num at h ⊢
  omega

theorem land_PAGE_FRAME_lt (e : Nat) : e &&& PAGE_FRAME < 2 ^ 32 := by
  have := @Nat.and_le_right e PAGE_FRAME
  unfold PAGE_FRAME at this ⊢
  omega

theorem alloc_kpages_one (w : World) (h : (alloc_kpages w 1).1 ≠ 0) :
    ∃ p rest, w.kpages = p :: rest ∧ p ≠ 0 ∧ p % PAGE_SIZE = 0 ∧ p + PAGE_SIZE < MIPS_KSEG0
      ∧ w.refcount p = 0
      ∧ alloc_kpages w 1 = (PADDR_TO_KVADDR p,
          { w with kpages := rest
                   refcount := fun f => if f = p then 1 else w.refcount f }) := by
  unfold alloc_kpages at h ⊢
  cases hk : w.kpages with
  | nil => simp [hk] at h
  | cons p rest =>
    simp only [hk] at h ⊢
    split at h
    · simp at h
    · rename_i hc
      simp only [block_frames, not_or, not_not] at hc
      obtain ⟨c1, c2, c3, c4⟩ := hc
      have c4' : w.refcount p = 0 := by
        have := c4 p (by simp [List.range_succ])
        exact this
      refine ⟨p, rest, rfl, c1, c2, ?_, c4', ?_⟩
      · simp at c3; omega
      · rw [if_neg]
        · simp [block_frames, List.range_succ]
        · simp only [block_frames, not_or, not_not]
          exact ⟨c1, c2, c3, c4⟩

/-- C8: on a page whose frame `f` has reference count above 1, when the frame
allocation succeeds, `copy_on_write` returns `SUCCESS`; the PTE becomes
`g | DIRTY | VALID` for the fresh frame `g ≠ f`, whose count becomes 1; the
count of `f` drops by exactly one; every other count and every other PTE of
the address space is unchanged. Other address spaces are not reachable from
the arguments of the function. -/
theorem copy_on_write_shared (w : World) (as : addrspace) (fa e : Nat)
    (hl : Page_table_lookup as fa = .ok e) (hne : e ≠ 0)
    (hrc : 1 < frame_ref_count_check w (e &&& PAGE_FRAME))
    (halloc : (alloc_kpages w 1).1 ≠ 0) :
    ∃ g w1 as1, copy_on_write w as fa = .ok (SUCCESS, w1, as1)
      ∧ g = KVADDR_TO_PADDR (alloc_kpages w 1).1 &&& PAGE_FRAME
      ∧ w.refcount g = 0 ∧ w1.refcount g = 1
      ∧ g ≠ e &&& PAGE_FRAME
      ∧ Page_table_lookup as1 fa = .ok (g ||| TLBLO_DIRTY ||| TLBLO_VALID)
      ∧ w1.refcount (e &&& PAGE_FRAME) = w.refcount (e &&& PAGE_FRAME) - 1
      ∧ (∀ f, f ≠ g → f ≠ e &&& PAGE_FRAME → w1.refcount f = w.refcount f)
      ∧ (∀ i j k, ¬ (i = FLI_of fa ∧ j = SLI_of fa ∧ k = TLI_of fa) →
          pte_at as1.PageTable i j k = pte_at as.PageTable i j k)
      ∧ (∀ vb, fa < 2 ^ 32 → vb < 2 ^ 32 → vb / 4096 ≠ fa / 4096 →
          Page_table_lookup as1 vb = Page_table_lookup as vb) := by
  obtain ⟨l2, l3, h2, h3, -⟩ := lookup_present as fa e hl hne
  obtain ⟨p, rest, hk, p0, pal, plt, pfree, hal⟩ := alloc_kpages_one w halloc
  have p32 : p < 2 ^ 32 := by unfold PAGE_SIZE MIPS_KSEG0 at plt; omega
  have hg : KVADDR_TO_PADDR (alloc_kpages w 1).1 &&& PAGE_FRAME = p := by
    rw [hal]; simp only
    rw [KVADDR_PADDR_roundtrip p p32, land_PAGE_FRAME_aligned p p32 pal]
  have hf : KVADDR_TO_PADDR (PADDR_TO_KVADDR (e &&& PAGE_FRAME)) = e &&& PAGE_FRAME :=
    KVADDR_PADDR_roundtrip _ (land_PAGE_FRAME_lt e)
  have hrc' : 1 < w.refcount (e &&& PAGE_FRAME) := hrc
  have hpf : p ≠ e &&& PAGE_FRAME := by
    intro hh; rw [← hh, pfree] at hrc'; omega
  have hkv : PADDR_TO_KVADDR p ≠ 0 := by
    unfold PADDR_TO_KVADDR WORD MIPS_KSEG0
    unfold PAGE_SIZE MIPS_KSEG0 at plt
    omega
  have hne1 : ¬ (frame_ref_count_check w (e &&& PAGE_FRAME) = 1) := by omega
  refine ⟨p, as_activate (free_kpages
        { w with kpages := rest, refcount := fun f => if f = p then 1 else w.refcount f }
        (PADDR_TO_KVADDR (e &&& PAGE_FRAME))), { as with PageTable :=
              { Pages := store as.PageTable.Pages (FLI_of fa)
                  (some (store l2 (SLI_of fa) (Slot.ptr (store l3 (TLI_of fa)
                    (p ||| TLBLO_DIRTY ||| TLBLO_VALID))))) } },
    ?_, hg.symm, pfree, ?_, hpf, ?_, ?_, ?_, ?_, ?_⟩
  · unfold copy_on_write
    simp only [hl, hne, if_false, hne1]
    rw [hal] at hg ⊢
    simp only at hg ⊢
    rw [if_neg hkv, hg, Page_table_write_present as fa _ l2 l3 h2 h3]
  · have hr : ∀ x : World, (as_activate x).refcount = x.refcount := by
      intro x; unfold as_activate; split <;> rfl
    rw [hr]
    simp [free_kpages, hf, store, hpf]
  · simp [Page_table_lookup, store]
  · have hr : ∀ x : World, (as_activate x).refcount = x.refcount := by
      intro x; unfold as_activate; split <;> rfl
    rw [hr]
    have hfp : ¬ (e &&& PAGE_FRAME = p) := fun hh => hpf hh.symm
    simp [free_kpages, hf, store, hfp]
  · intro f hfg hfe
    have hr : ∀ x : World, (as_activate x).refcount = x.refcount := by
      intro x; unfold as_activate; split <;> rfl
    rw [hr]
    simp [free_kpages, hf, store, hfg, hfe]
  · intro i j k hijk
    show pte_at { Pages := _ } i j k = _
    rw [pte_at_write _ _ _ _ _ l2 l3 h2 h3, if_neg hijk]
  · intro vb ha hb hpage
    exact lookup_write_other as fa _ vb l2 l3 h2 h3 (indices_differ fa vb ha hb hpage)

theorem err_handling_vm_fault_value (w : World) (fa : Nat)
    (h : err_handling_vm_fault w fa ≠ 0) : err_handling_vm_fault w fa = EFAULT := by
  unfold err_handling_vm_fault at h ⊢
  split
  · rfl
  · split
    · rfl
    · rename_i h1 h2; simp [h1, h2, SUCCESS] at h

theorem vm_fault_readonly_efault (w : World) (as : addrspace) (fa p : Nat)
    (r : addrspace_region) (m : Option Nat)
    (hR : Lookup_Region as fa = .ok (some p)) (hp : region_at as p = some r)
    (hro : r.is_readonly = true) (hM : Lookup_Mmap as fa = .ok m) :
    vm_fault w as VM_FAULT_READONLY fa = .ok (EFAULT, w, as) := by
  unfold vm_fault
  split
  · rename_i h; rw [err_handling_vm_fault_value w fa h]
  · split
    · rfl
    · simp [hR, hM, hp, hro]

/-- C9: a READONLY fault at an address that `Lookup_Region` resolves to a region
whose `is_readonly` latch is set returns `EFAULT` and leaves the address space
(page table included) and the world (reference counts and TLB included) unchanged. -/
theorem vm_fault_readonly_latched (w : World) (as : addrspace) (fa p : Nat)
    (r : addrspace_region) (m : Option Nat)
    (hR : Lookup_Region as fa = .ok (some p)) (hp : region_at as p = some r)
    (hro : r.is_readonly = true) (hM : Lookup_Mmap as fa = .ok m) :
    vm_fault w as VM_FAULT_READONLY fa = .ok (EFAULT, w, as) :=
  vm_fault_readonly_efault w as fa p r m hR hp hro hM

theorem Res.eq_ok_of_isOk {α : Type} (x : Res α) (d : α) (h : x.isOk = true) :
    x = .ok (x.getD d) := by
  cases x <;> simp_all [Res.isOk, Res.getD]

theorem AllocOK_of_nil (w : World) (h : w.kmallocs = []) : AllocOK w := by
  intro b hb; rw [h] at hb; cases hb

/-- Sanity check of the example states: `as_create` on the booted machine gives `empty_as`. -/
theorem as_create_boot_world : as_create boot_world = .ok (some empty_as, boot_world) := rfl

/-- Witness for C1: inserting `0x100600` for `0x401234` makes the last byte of the
page read back `0x100600`. -/
theorem Page_table_Insert_then_lookup_witness :
    Page_table_Insert boot_world ex_data (0x401234 / 2 ^ 24 % 256) (0x401234 / 2 ^ 18 % 64)
        (0x401234 / 2 ^ 12 % 64) 0x100600 = .ok (0, boot_world, ex_data_mapped)
    ∧ Page_table_lookup ex_data_mapped 0x401fff = .ok 0x100600 :=
  ⟨rfl,
   (Page_table_Insert_then_lookup boot_world boot_world ex_data ex_data_mapped 0x401234 0x100600 0
      rfl 0x401fff (by decide)).2⟩

/-- Example of a copy in which no allocation fails: the fork-time copy of the
example table leaves `0x100200`
(frame `0x100000`, `VALID`, no `DIRTY`) in both tables. -/
theorem Page_table_copy_shares_pages_witness :
    Page_table_copy ex_world1 ex_data_mapped.PageTable empty_as.PageTable = .ok ex_fork
    ∧ Page_table_lookup ex_data_mapped 0x401800 = .ok 0x100600
    ∧ Page_table_lookup ex_parent 0x401800 = .ok 0x100200
    ∧ Page_table_lookup { empty_as with PageTable := ex_fork.2.2.2 } 0x401800 = .ok 0x100200 :=
  have hcopy : Page_table_copy ex_world1 ex_data_mapped.PageTable empty_as.PageTable
      = .ok ex_fork := Res.eq_ok_of_isOk _ _ (by decide!)
  have h := (Page_table_copy_shares_pages ex_world1 ex_data_mapped empty_as ex_fork
    (AllocOK_of_nil _ rfl) hcopy 0x401800).2.1 0x100600 (by decide!) (by decide)
  ⟨hcopy, by decide!, h.1, h.2.1⟩

/-- Example of a copy in which no allocation fails: the count of frame
`0x100000` goes from 1 to 2. -/
theorem Page_table_copy_refcounts_witness :
    ex_world1.refcount 0x100000 = 1
    ∧ ex_fork.2.1.refcount 0x100000
        = ex_world1.refcount 0x100000 + frame_refs ex_data_mapped.PageTable 0x100000
    ∧ ex_world2.refcount 0x100000 = 2 :=
  have hcopy : Page_table_copy ex_world1 ex_data_mapped.PageTable empty_as.PageTable
      = .ok ex_fork := Res.eq_ok_of_isOk _ _ (by decide!)
  ⟨by decide!,
   (Page_table_copy_refcounts ex_world1 ex_data_mapped.PageTable empty_as.PageTable ex_fork
      (AllocOK_of_nil _ rfl) hcopy 0x100000).1,
   by decide!⟩

/-- C4, the code at the failing input: with the region `[0x2000, 0x3000)` in the
chain, `regions_overlap` reports no overlap for the candidates `[0x1000, 0x3000)`
(straddling the low edge) and `[0x1000, 0x4000)` (enclosing), and
`as_define_region(0x1000, 0x2000)` returns `SUCCESS` and appends a region that
shares `[0x2000, 0x3000)` with the first one. -/
theorem regions_overlap_misses_low_edge :
    as_define_region boot_world empty_as 0x2000 0x1000 PF_R PF_W 0
        = .ok (SUCCESS, boot_world, ex_high)
    ∧ ex_high.region_nodes =
        [{ base_addr := 0x2000, end_addr := 0x2fff, readable := 4, writeable := 2,
           executable := 0, is_readonly := false, next := none }]
    ∧ regions_overlap ex_high 0x1000 0x3000 = .ok SUCCESS
    ∧ regions_overlap ex_high 0x1000 0x4000 = .ok SUCCESS
    ∧ ∃ as2, as_define_region boot_world ex_high 0x1000 0x2000 PF_R 0 0
          = .ok (SUCCESS, boot_world, as2)
        ∧ as2.addr_region_base = some 0
        ∧ as2.region_nodes =
          [{ base_addr := 0x2000, end_addr := 0x2fff, readable := 4, writeable := 2,
             executable := 0, is_readonly := false, next := some 1 },
           { base_addr := 0x1000, end_addr := 0x2fff, readable := 4, writeable := 0,
             executable := 0, is_readonly := true, next := none }] :=
  ⟨rfl, by decide, by decide, by decide, _, rfl, by decide, by decide⟩

/-- C5, the code at the failing input: after `as_define_region(0x400000, 0x1000)`
returned `SUCCESS`, `Lookup_Region` finds the region at `0x400ffe` and returns
NULL at the last byte `0x400fff`; after `as_define_stack` it returns NULL at
`USERSTACK - 1`. -/
theorem Lookup_Region_misses_last_byte :
    as_define_region boot_world empty_as 0x400000 0x1000 PF_R 0 PF_X
        = .ok (SUCCESS, boot_world, ex_code)
    ∧ Lookup_Region ex_code 0x400ffe = .ok (some 0)
    ∧ Lookup_Region ex_code 0x400fff = .ok none
    ∧ as_define_stack boot_world empty_as = .ok ex_stack
    ∧ ex_stack.1 = SUCCESS
    ∧ Lookup_Region ex_stack.2.2.2 (USERSTACK - 1) = .ok none :=
  ⟨rfl, by decide, by decide, rfl, by decide, by decide⟩

/-- Witness for C7: copy-on-write on the sole owner of frame `0x100000`. -/
theorem copy_on_write_sole_owner_witness :
    Page_table_lookup ex_data_mapped 0x401800 = .ok 0x100600
    ∧ frame_ref_count_check ex_world1 0x100000 = 1
    ∧ ∃ as1, copy_on_write ex_world1 ex_data_mapped 0x401800
          = .ok (SUCCESS, as_activate ex_world1, as1)
        ∧ Page_table_lookup as1 0x401800 = .ok 0x100600 :=
  have h := copy_on_write_sole_owner ex_world1 ex_data_mapped 0x401800 0x100600
    (by decide!) (by decide) (by decide!)
  ⟨by decide!, by decide!, h.choose, h.choose_spec.1, h.choose_spec.2.1⟩

/-- Witness for C8: copy-on-write in the parent of a fork moves the page to the
fresh frame `0x101000` and drops the count of `0x100000` to 1. -/
theorem copy_on_write_shared_witness :
    Page_table_lookup ex_parent 0x401800 = .ok 0x100200
    ∧ frame_ref_count_check ex_world2 0x100000 = 2
    ∧ (alloc_kpages ex_world2 1).1 = 0x80101000
    ∧ ∃ w1 as1, copy_on_write ex_world2 ex_parent 0x401800 = .ok (SUCCESS, w1, as1)
        ∧ Page_table_lookup as1 0x401800 = .ok 0x101600
        ∧ w1.refcount 0x100000 = 1 ∧ w1.refcount 0x101000 = 1 :=
by
  obtain ⟨g, w1, as1, hcow, hg, -, hg1, -, hl, hf, -⟩ :=
    copy_on_write_shared ex_world2 ex_parent 0x401800 0x100200
      (by decide!) (by decide) (by decide!) (by decide!)
  have hgv : g = 0x101000 := hg.trans (by decide!)
  subst hgv
  exact ⟨by decide!, by decide!, by decide!, w1, as1, hcow, hl, hf.trans (by decide!), hg1⟩

/-- Witness for C9: a READONLY fault in the read-only code region. -/
theorem vm_fault_readonly_latched_witness :
    Lookup_Region ex_code 0x400800 = .ok (some 0)
    ∧ vm_fault boot_world ex_code VM_FAULT_READONLY 0x400800 = .ok (EFAULT, boot_world, ex_code) :=
  ⟨by decide,
   vm_fault_readonly_latched boot_world ex_code 0x400800 0
     { base_addr := 0x400000, end_addr := 0x400fff, readable := 4, writeable := 0,
       executable := 1, is_readonly := true, next := none } none
     (by decide) (by decide) rfl (by decide)⟩

theorem regions_overlap_walk_value (nodes : List addrspace_region) (b e : Nat) (fuel : Nat) :
    ∀ (p : Option Nat) (rc : Nat), regions_overlap_walk nodes b e fuel p = .ok rc →
      rc = SUCCESS ∨ rc = EINVAL := by
  induction fuel with
  | zero =>
    intro p rc h
    cases p with
    | none => simp [regions_overlap_walk] at h; exact Or.inl h.symm
    | some q => simp [regions_overlap_walk] at h
  | succ n ih =>
    intro p rc h
    cases p with
    | none => simp [regions_overlap_walk] at h; exact Or.inl h.symm
    | some q =>
      simp only [regions_overlap_walk] at h
      split at h
      · cases h
      · split at h
        · cases h; exact Or.inr rfl
        · split at h
          · cases h; exact Or.inr rfl
          · split at h
            · cases h; exact Or.inr rfl
            · exact ih _ _ h

theorem err_handling_as_define_value (as : Option addrspace) (v s rc : Nat)
    (h : err_handling_as_define as v s = .ok rc) :
    rc = SUCCESS ∨ rc = EFAULT ∨ rc = EINVAL := by
  unfold err_handling_as_define at h
  split at h
  · cases h; exact Or.inr (Or.inl rfl)
  · split at h
    · cases h; exact Or.inr (Or.inl rfl)
    · rename_i a _
      cases hov : regions_overlap a v ((v + s) % WORD) with
      | trap => simp [hov] at h
      | hang => simp [hov] at h
      | ok e =>
        simp only [hov] at h
        rcases regions_overlap_walk_value _ _ _ _ _ _ hov with h1 | h1
        · subst h1; simp [SUCCESS] at h; exact Or.inl (by rw [← h]; rfl)
        · subst h1; simp [EINVAL] at h; exact Or.inr (Or.inr (by rw [← h]; rfl))

theorem Create_Region_frame (as as1 : addrspace) (v s r wr x : Nat)
    (h : Create_Region as v s r wr x = .ok as1) :
    as1.Proc_heap = as.Proc_heap ∧ as1.PageTable = as.PageTable
      ∧ as1.mmap_nodes = as.mmap_nodes ∧ as1.File_region_base = as.File_region_base
      ∧ as1.File_region_end = as.File_region_end := by
  unfold Create_Region at h
  simp only at h
  split at h
  · cases h
  · cases h; exact ⟨rfl, rfl, rfl, rfl, rfl⟩

theorem as_define_region_cases (w : World) (as : addrspace) (v s r wr x : Nat)
    (res : Nat × World × addrspace)
    (h : as_define_region w as v s r wr x = .ok res) :
    (res.1 ≠ 0 ∧ res.2.2 = as ∧ (res.1 = EFAULT ∨ res.1 = EINVAL ∨ res.1 = ENOMEM))
    ∨ (res.1 = 0 ∧ Create_Region as (aligned_base v) (aligned_size v s) r wr x = .ok res.2.2) := by
  unfold as_define_region at h
  simp only at h
  cases he : err_handling_as_define (some as) (v &&& PAGE_FRAME)
      ((((s + (v &&& NOT_PAGE_FRAME)) % WORD + PAGE_SIZE - 1) % WORD) &&& PAGE_FRAME) with
  | trap => simp [he] at h
  | hang => simp [he] at h
  | ok e =>
    simp only [he] at h
    split at h
    · rename_i hne
      cases h
      refine Or.inl ⟨hne, rfl, ?_⟩
      rcases err_handling_as_define_value _ _ _ _ he with h1 | h1 | h1
      · exact absurd h1 hne
      · exact Or.inl h1
      · exact Or.inr (Or.inl h1)
    · split at h
      · cases h
        exact Or.inl ⟨by simp [ENOMEM], rfl, Or.inr (Or.inr rfl)⟩
      · cases hc : Create_Region as (v &&& PAGE_FRAME)
          ((((s + (v &&& NOT_PAGE_FRAME)) % WORD + PAGE_SIZE - 1) % WORD) &&& PAGE_FRAME)
          r wr x with
        | trap => simp [hc] at h
        | hang => simp [hc] at h
        | ok a =>
          simp only [hc] at h
          cases h
          exact Or.inr ⟨rfl, hc⟩

/-- C20: whenever `as_define_region` returns a non-zero error, the error is
`EFAULT`, `EINVAL` or `ENOMEM` and the address space it hands back is the one it
was given: region nodes, chain pointers, heap record and page table alike. -/
theorem as_define_region_error_unchanged (w : World) (as : addrspace) (v s r wr x : Nat)
    (res : Nat × World × addrspace)
    (h : as_define_region w as v s r wr x = .ok res) (hne : res.1 ≠ 0) :
    res.2.2 = as ∧ (res.1 = EFAULT ∨ res.1 = EINVAL ∨ res.1 = ENOMEM) := by
  rcases as_define_region_cases w as v s r wr x res h with h1 | h1
  · exact ⟨h1.2.1, h1.2.2⟩
  · exact absurd h1.1 hne

theorem Lookup_Region_walk_some (nodes : List addrspace_region) (fa : Nat) (fuel : Nat) :
    ∀ (p : Option Nat) (q : Nat), Lookup_Region_walk nodes fa fuel p = .ok (some q) →
      ∃ r, nodes[q]? = some r ∧ r.base_addr ≤ fa ∧ fa < r.end_addr := by
  induction fuel with
  | zero =>
    intro p q h
    cases p <;> simp [Lookup_Region_walk] at h
  | succ n ih =>
    intro p q h
    cases p with
    | none => simp [Lookup_Region_walk] at h
    | some p0 =>
      simp only [Lookup_Region_walk] at h
      split at h
      · cases h
      · rename_i r hr
        split at h
        · rename_i hc
          simp only [Res.ok.injEq, Option.some.injEq] at h
          subst h
          exact ⟨r, hr, hc.1, hc.2⟩
        · exact ih _ _ h

theorem Lookup_Mmap_walk_some (nodes : List Mmap_Region) (fa : Nat) (fuel : Nat) :
    ∀ (p : Option Nat) (q : Nat), Lookup_Mmap_walk nodes fa fuel p = .ok (some q) →
      ∃ r, nodes[q]? = some r ∧ fa < r.Base_address
        ∧ (r.Base_address + WORD - r.length % WORD) % WORD ≤ fa := by
  induction fuel with
  | zero =>
    intro p q h
    cases p <;> simp [Lookup_Mmap_walk] at h
  | succ n ih =>
    intro p q h
    cases p with
    | none => simp [Lookup_Mmap_walk] at h
    | some p0 =>
      simp only [Lookup_Mmap_walk] at h
      split at h
      · cases h
      · rename_i r hr
        split at h
        · rename_i hc
          simp only [Res.ok.injEq, Option.some.injEq] at h
          subst h
          exact ⟨r, hr, hc.1, hc.2⟩
        · exact ih _ _ h

theorem vm_fault_all_miss (w : World) (as : addrspace) (ft fa : Nat)
    (hR : Lookup_Region as fa = .ok none) (hH : Lookup_Heap as fa = none)
    (hM : Lookup_Mmap as fa = .ok none) :
    vm_fault w as ft fa = .ok (EFAULT, w, as) := by
  unfold vm_fault
  split
  · rename_i h; rw [err_handling_vm_fault_value w fa h]
  · split
    · rfl
    · simp [hR, hM, hH]

theorem as_create_empty (w w1 : World) (as : addrspace)
    (h : as_create w = .ok (some as, w1)) :
    as.region_nodes = [] ∧ as.addr_region_base = none ∧ as.addr_region_end = none
      ∧ as.mmap_nodes = [] ∧ as.File_region_base = none ∧ as.File_region_end = none
      ∧ as.Proc_heap.base_heap_addr = 0 ∧ as.Proc_heap.cur_heap_break = 0
      ∧ as.Proc_heap.Heap_lock = false := by
  unfold as_create at h
  split at h
  · cases h
  · split at h
    · cases h
    · split at h
      · cases h
      · simp only [Res.ok.injEq, Prod.mk.injEq, Option.some.injEq] at h
        rw [← h.1]
        exact ⟨rfl, rfl, rfl, rfl, rfl, rfl, rfl, rfl, rfl⟩
    · cases h
    · cases h

/-- C12: for every fault kind and every machine state, `vm_fault` returns
`EFAULT` with the address space and the world (TLB included) unchanged when the
range test of no region node holds at the fault address, the address is not in
`[base, break)` and the range test of no mmap node holds; and it does so at
every address of an address space that `as_create` has just returned. -/
theorem vm_fault_outside_every_region (w : World) (as : addrspace) (ft fa : Nat) :
    (∀ (R M : Option Nat), Lookup_Region as fa = .ok R → Lookup_Mmap as fa = .ok M →
        (∀ r ∈ as.region_nodes, ¬ (r.base_addr ≤ fa ∧ fa < r.end_addr)) →
        ¬ (as.Proc_heap.base_heap_addr ≤ fa ∧ fa < as.Proc_heap.cur_heap_break) →
        (∀ m ∈ as.mmap_nodes, ¬ (fa < m.Base_address
            ∧ (m.Base_address + WORD - m.length % WORD) % WORD ≤ fa)) →
        vm_fault w as ft fa = .ok (EFAULT, w, as))
    ∧ (∀ (w0 w1 : World), as_create w0 = .ok (some as, w1) →
        vm_fault w as ft fa = .ok (EFAULT, w, as)) := by
  refine ⟨?_, ?_⟩
  · intro R M hR hM hnoR hnoH hnoM
    have hR' : R = none := by
      cases R with
      | none => rfl
      | some q =>
        obtain ⟨r, hr, hc⟩ := Lookup_Region_walk_some _ _ _ _ _ hR
        exact absurd hc (hnoR r (List.getElem?_mem hr))
    have hM' : M = none := by
      cases M with
      | none => rfl
      | some q =>
        obtain ⟨r, hr, hc⟩ := Lookup_Mmap_walk_some _ _ _ _ _ hM
        exact absurd hc (hnoM r (List.getElem?_mem hr))
    subst hR' hM'
    exact vm_fault_all_miss w as ft fa hR (by simp [Lookup_Heap, hnoH]) hM
  · intro w0 w1 hc
    obtain ⟨h1, h2, h3, h4, h5, h6, h7, h8, -⟩ := as_create_empty w0 w1 as hc
    apply vm_fault_all_miss
    · simp [Lookup_Region, h1, h2, Lookup_Region_walk]
    · simp [Lookup_Heap, h7, h8]
    · simp [Lookup_Mmap, h4, h5, Lookup_Mmap_walk]

theorem as_set_process_break_initialised (as : addrspace) (amount : Int)
    (hlock : as.Proc_heap.Heap_lock = false)
    (hinit : ¬ (as.Proc_heap.base_heap_addr = 0 ∧ as.Proc_heap.cur_heap_break = 0)) :
    as_set_process_break as amount =
      if (as.Proc_heap.cur_heap_break + to_vaddr amount) % WORD < as.Proc_heap.base_heap_addr then
        .ok (0, some EINVAL, { as with Proc_heap := { as.Proc_heap with Heap_lock := true } })
      else if USERSTACK - STACK_LIMIT ≤ (as.Proc_heap.cur_heap_break + to_vaddr amount) % WORD then
        .ok (0, some ENOMEM, { as with Proc_heap := { as.Proc_heap with Heap_lock := true } })
      else
        .ok (as.Proc_heap.cur_heap_break, none,
          { as with Proc_heap :=
              { as.Proc_heap with
                cur_heap_break := (as.Proc_heap.cur_heap_break + to_vaddr amount) % WORD
                Heap_lock := false } }) := by
  unfold as_set_process_break
  simp only [lock_acquire, hlock, Bool.false_eq_true, if_false, lock_release]
  rw [if_neg hinit]

theorem as_define_region_heap (w : World) (as : addrspace) (v s r wr x : Nat)
    (res : Nat × World × addrspace)
    (h : as_define_region w as v s r wr x = .ok res) :
    res.2.2.Proc_heap = as.Proc_heap := by
  rcases as_define_region_cases w as v s r wr x res h with h1 | h1
  · rw [h1.2.1]
  · exact (Create_Region_frame _ _ _ _ _ _ _ h1.2).1

theorem as_define_stack_heap (w : World) (as : addrspace)
    (res : Nat × Nat × World × addrspace)
    (h : as_define_stack w as = .ok res) :
    res.2.2.2.Proc_heap = as.Proc_heap := by
  unfold as_define_stack at h
  split at h
  · cases h; rfl
  · simp only at h
    cases hd : as_define_region w as (USERSTACK - STACK_LIMIT) STACK_LIMIT PF_R PF_W 0 with
    | trap => simp [hd] at h
    | hang => simp [hd] at h
    | ok x =>
      have := as_define_region_heap _ _ _ _ _ _ _ _ hd
      obtain ⟨e, w1, as1⟩ := x
      simp only [hd] at h
      split at h <;> (cases h; exact this)

theorem as_set_process_break_first (as : addrspace) (amount : Int)
    (res : Nat × Option Nat × addrspace)
    (huninit : as.Proc_heap.base_heap_addr = 0 ∧ as.Proc_heap.cur_heap_break = 0)
    (h : as_set_process_break as amount = .ok res) :
    res.2.1 = none
    ∧ res.2.2.Proc_heap.base_heap_addr = res.1
    ∧ res.2.2.Proc_heap.cur_heap_break = res.1
    ∧ ∃ e r, as.addr_region_end = some e ∧ region_at as e = some r
        ∧ res.1 = (r.end_addr + 1) % WORD := by
  unfold as_set_process_break at h
  cases hl : lock_acquire as.Proc_heap.Heap_lock with
  | trap => simp [hl] at h
  | hang => simp [hl] at h
  | ok held =>
    simp only [hl] at h
    rw [if_pos huninit] at h
    split at h
    · cases h
    · rename_i e he
      split at h
      · cases h
      · rename_i r hr
        cases h
        exact ⟨rfl, rfl, rfl, e, r, he, hr, rfl⟩

theorem as_set_process_break_inv (as : addrspace) (amount : Int)
    (res : Nat × Option Nat × addrspace) (hi : heap_inv as)
    (h : as_set_process_break as amount = .ok res) : heap_inv res.2.2 := by
  by_cases huninit : as.Proc_heap.base_heap_addr = 0 ∧ as.Proc_heap.cur_heap_break = 0
  · obtain ⟨-, h2, h3, e, r, -, -, h4⟩ := as_set_process_break_first as amount res huninit h
    unfold heap_inv
    rw [h2, h3, h4]
    refine ⟨le_refl _, Or.inl rfl, Nat.mod_lt _ (by decide), fun h => h⟩
  · have hlock : as.Proc_heap.Heap_lock = false := by
      unfold as_set_process_break lock_acquire at h
      cases hl : as.Proc_heap.Heap_lock with
      | false => rfl
      | true => simp [hl] at h
    rw [as_set_process_break_initialised as amount hlock huninit] at h
    obtain ⟨i1, i2, i3, i4⟩ := hi
    split at h
    · cases h; exact ⟨i1, i2, i3, i4⟩
    · split at h
      · cases h; exact ⟨i1, i2, i3, i4⟩
      · rename_i n1 n2
        cases h
        unfold heap_inv
        simp only
        refine ⟨by omega, Or.inr (by omega), Nat.mod_lt _ (by decide), ?_⟩
        intro hb
        have : as.Proc_heap.cur_heap_break = 0 := i4 hb
        exact absurd ⟨hb, this⟩ huninit

theorem heap_inv_of_reachable (as : addrspace) (h : Reachable as) : heap_inv as := by
  induction h with
  | create w w1 as hc =>
    obtain ⟨-, -, -, -, -, -, h7, h8, -⟩ := as_create_empty w w1 as hc
    unfold heap_inv
    rw [h7, h8]
    exact ⟨le_refl _, Or.inl rfl, by decide, fun _ => rfl⟩
  | define_region w w1 as as1 vaddr sz r wr x rc _ hd ih =>
    have := as_define_region_heap _ _ _ _ _ _ _ _ hd
    unfold heap_inv at ih ⊢
    simp only at this
    rw [this]; exact ih
  | define_stack w w1 as as1 rc sp _ hd ih =>
    have := as_define_stack_heap _ _ _ hd
    unfold heap_inv at ih ⊢
    simp only at this
    rw [this]; exact ih
  | set_break as as1 amount ret err _ hb ih =>
    exact as_set_process_break_inv as amount _ ih hb

/-- C16 (amended): in every reachable address space the break is not below the
base, and it is below `USERSTACK - STACK_LIMIT` whenever it differs from the
base; the initialising call sets base and break to the end of the region
`addr_region_end` plus one, whatever that address is. -/
theorem heap_bounds_of_reachable (as : addrspace) (h : Reachable as) :
    as.Proc_heap.base_heap_addr ≤ as.Proc_heap.cur_heap_break
    ∧ (as.Proc_heap.cur_heap_break ≠ as.Proc_heap.base_heap_addr →
        as.Proc_heap.cur_heap_break < USERSTACK - STACK_LIMIT)
    ∧ (as.Proc_heap.base_heap_addr = 0 ∧ as.Proc_heap.cur_heap_break = 0 →
        ∀ (amount : Int) (res : Nat × Option Nat × addrspace),
          as_set_process_break as amount = .ok res →
          res.2.2.Proc_heap.base_heap_addr = res.1
          ∧ res.2.2.Proc_heap.cur_heap_break = res.1
          ∧ ∃ e r, as.addr_region_end = some e ∧ region_at as e = some r
              ∧ res.1 = (r.end_addr + 1) % WORD) := by
  obtain ⟨i1, i2, -, -⟩ := heap_inv_of_reachable as h
  refine ⟨i1, ?_, ?_⟩
  · intro hne
    rcases i2 with h1 | h1
    · exact absurd h1 hne
    · exact h1
  · intro hu amount res hs
    exact (as_set_process_break_first as amount res hu hs).2

/-- C14 (amended): in a reachable address space whose heap is initialised, when
`as_set_process_break(as, +n)` succeeds, the following call with `-n` returns
the grown break and gives back the address space as it was before the first
call, `cur_heap_break` included. -/
theorem as_set_process_break_round_trip (as : addrspace) (n : Nat)
    (res : Nat × Option Nat × addrspace) (hr : Reachable as)
    (hinit : ¬ (as.Proc_heap.base_heap_addr = 0 ∧ as.Proc_heap.cur_heap_break = 0))
    (h1 : as_set_process_break as (n : Int) = .ok res) (hs : res.2.1 = none) :
    as_set_process_break res.2.2 (-(n : Int)) = .ok (res.2.2.Proc_heap.cur_heap_break, none, as)
    ∧ res.1 = as.Proc_heap.cur_heap_break := by
  obtain ⟨i1, i2, i3, i4⟩ := heap_inv_of_reachable as hr
  have hlock : as.Proc_heap.Heap_lock = false := by
    unfold as_set_process_break lock_acquire at h1
    cases hl : as.Proc_heap.Heap_lock with
    | false => rfl
    | true => simp [hl] at h1
  rw [as_set_process_break_initialised as _ hlock hinit] at h1
  split at h1
  · cases h1; simp at hs
  · split at h1
    · cases h1; simp at hs
    · rename_i n1 n2
      cases h1
      have hb0 : as.Proc_heap.base_heap_addr ≠ 0 := by
        intro hb; exact hinit ⟨hb, i4 hb⟩
      have hinit2 : ¬ (as.Proc_heap.base_heap_addr = 0
          ∧ (as.Proc_heap.cur_heap_break + to_vaddr (n : Int)) % WORD = 0) := by
        intro hh; exact hb0 hh.1
      refine ⟨?_, rfl⟩
      rw [as_set_process_break_initialised _ _ rfl hinit2]
      simp only
      have hback : ((as.Proc_heap.cur_heap_break + to_vaddr (n : Int)) % WORD
          + to_vaddr (-(n : Int))) % WORD = as.Proc_heap.cur_heap_break := by
        unfold to_vaddr WORD at *
        norm_num at *
        omega
      rw [hback]
      have hlt : as.Proc_heap.cur_heap_break < USERSTACK - STACK_LIMIT := by
        rcases i2 with h | h
        · omega
        · exact h
      rw [if_neg (by omega), if_neg (by omega), ← hlock]

theorem Create_Region_ok (as : addrspace) (v s r wr x : Nat)
    (hptr : ∀ e, as.addr_region_end = some e → e < as.region_nodes.length) :
    ∃ as1, Create_Region as v s r wr x = .ok as1 := by
  unfold Create_Region
  simp only
  cases he : as.addr_region_end with
  | none => exact ⟨_, rfl⟩
  | some e =>
    have hlt := hptr e he
    simp only [List.getElem?_eq_getElem hlt]
    exact ⟨_, rfl⟩

/-- C18 (amended): a request whose page-aligned range ends exactly at `KSEG0`
never gets `EFAULT`, and it is accepted (`SUCCESS`) when `regions_overlap`
reports no overlap and the node allocation succeeds. -/
theorem as_define_region_ending_at_KSEG0 (w : World) (as : addrspace) (vaddr sz r wr x : Nat)
    (hend : aligned_base vaddr + aligned_size vaddr sz = MIPS_KSEG0) :
    (∀ res, as_define_region w as vaddr sz r wr x = .ok res → res.1 ≠ EFAULT)
    ∧ (regions_overlap as (aligned_base vaddr) MIPS_KSEG0 = .ok SUCCESS →
        (kmalloc w).1 = true →
        (∀ e, as.addr_region_end = some e → e < as.region_nodes.length) →
        ∃ as1, as_define_region w as vaddr sz r wr x = .ok (SUCCESS, (kmalloc w).2, as1)
          ∧ Create_Region as (aligned_base vaddr) (aligned_size vaddr sz) r wr x = .ok as1) := by
  have hsum : (aligned_base vaddr + aligned_size vaddr sz) % WORD = MIPS_KSEG0 := by
    rw [hend]; rfl
  have hb : ¬ (MIPS_KSEG0 < aligned_base vaddr) := by omega
  have herr : err_handling_as_define (some as) (aligned_base vaddr) (aligned_size vaddr sz)
      = match regions_overlap as (aligned_base vaddr) MIPS_KSEG0 with
        | .ok err_overlap => if err_overlap ≠ 0 then .ok err_overlap else .ok SUCCESS
        | .trap => .trap
        | .hang => .hang := by
    unfold err_handling_as_define
    simp only [hsum]
    rw [if_neg (by intro h; rcases h with h | h; exact absurd h (lt_irrefl _); exact hb h)]
  refine ⟨?_, ?_⟩
  · intro res h
    unfold as_define_region at h
    simp only at h
    change (match err_handling_as_define (some as) (aligned_base vaddr)
        (aligned_size vaddr sz) with
      | .ok err_as_define =>
        if err_as_define ≠ 0 then Res.ok (err_as_define, w, as)
        else
          match kmalloc w with
          | (false, w1) => .ok (ENOMEM, w1, as)
          | (true, w1) =>
            match Create_Region as (aligned_base vaddr) (aligned_size vaddr sz) r wr x with
            | .ok as1 => .ok (SUCCESS, w1, as1)
            | .trap => .trap
            | .hang => .hang
      | .trap => .trap
      | .hang => .hang) = Res.ok res at h
    rw [herr] at h
    cases hov : regions_overlap as (aligned_base vaddr) MIPS_KSEG0 with
    | trap => simp [hov] at h
    | hang => simp [hov] at h
    | ok e =>
      simp only [hov] at h
      rcases regions_overlap_walk_value _ _ _ _ _ _ hov with h1 | h1
      · subst h1
        simp only [SUCCESS, ne_eq, not_true_eq_false, if_false] at h
        split at h
        · cases h; simp [ENOMEM, EFAULT]
        · split at h
          · cases h; simp [SUCCESS, EFAULT]
          · cases h
          · cases h
      · subst h1
        simp only [EINVAL] at h
        simp at h
        rw [← h]; simp [EFAULT]
  · intro hov hk hptr
    obtain ⟨as1, hc⟩ := Create_Region_ok as (aligned_base vaddr) (aligned_size vaddr sz)
      r wr x hptr
    refine ⟨as1, ?_, hc⟩
    unfold as_define_region
    simp only
    change (match err_handling_as_define (some as) (aligned_base vaddr)
        (aligned_size vaddr sz) with
      | .ok err_as_define =>
        if err_as_define ≠ 0 then Res.ok (err_as_define, w, as)
        else
          match kmalloc w with
          | (false, w1) => .ok (ENOMEM, w1, as)
          | (true, w1) =>
            match Create_Region as (aligned_base vaddr) (aligned_size vaddr sz) r wr x with
            | .ok as1 => .ok (SUCCESS, w1, as1)
            | .trap => .trap
            | .hang => .hang
      | .trap => .trap
      | .hang => .hang) = _
    rw [herr, hov]
    simp only [SUCCESS, ne_eq, not_true_eq_false, if_false]
    have hk2 : kmalloc w = (true, (kmalloc w).2) := by rw [← hk]
    rw [hk2, hc]

theorem ex_code_reachable : Reachable ex_code :=
  Reachable.define_region boot_world boot_world empty_as ex_code 0x400000 0x1000 PF_R 0 PF_X
    SUCCESS (Reachable.create boot_world boot_world empty_as rfl) rfl

theorem ex_heap_reachable : Reachable ex_heap :=
  Reachable.set_break ex_code ex_heap 0 0x401000 none ex_code_reachable rfl

theorem ex_heap_high_reachable : Reachable ex_heap_high :=
  Reachable.set_break (with_region empty_as 0x7ffef000 0x1000 PF_R PF_W 0) ex_heap_high 0
    0x7fff0000 none
    (Reachable.define_region boot_world boot_world empty_as _ 0x7ffef000 0x1000 PF_R PF_W 0
      SUCCESS (Reachable.create boot_world boot_world empty_as rfl) rfl) rfl

/-- C11, the code at the failing input: `err_handling_vm_fault` lets the address
`0x80000000` pass; with the region that `as_define_region(0x1000, 0xfffff000)`
leaves in the chain, a READONLY fault there returns `EINVAL`, and with the page
mapped a READ fault returns `SUCCESS` and writes a TLB slot. -/
theorem vm_fault_at_KSEG0_not_efault :
    as_define_region boot_world empty_as 0x1000 0xfffff000 PF_R PF_W 0
        = .ok (SUCCESS, boot_world, ex_wrapped)
    ∧ err_handling_vm_fault boot_world MIPS_KSEG0 = SUCCESS
    ∧ Lookup_Region ex_wrapped MIPS_KSEG0 = .ok (some 0)
    ∧ vm_fault boot_world ex_wrapped VM_FAULT_READONLY MIPS_KSEG0
        = .ok (EINVAL, boot_world, ex_wrapped)
    ∧ Page_table_lookup ex_wrapped_mapped MIPS_KSEG0 = .ok 0x100600
    ∧ vm_fault boot_world ex_wrapped_mapped VM_FAULT_READ MIPS_KSEG0
        = .ok (SUCCESS, Load_TLB boot_world MIPS_KSEG0 0x100600, ex_wrapped_mapped)
    ∧ (Load_TLB boot_world MIPS_KSEG0 0x100600).tlb 0 = (MIPS_KSEG0, 0x100600)
    ∧ boot_world.tlb 0 = (TLBHI_INVALID 0, TLBLO_INVALID) :=
  ⟨rfl, by decide, by decide!, rfl, by decide!, rfl, by decide!, by decide!⟩

/-- Witness for C12: a fault outside the code region, and a fault in a new address space. -/
theorem vm_fault_outside_every_region_witness :
    Lookup_Region ex_code 0x500000 = .ok none
    ∧ vm_fault boot_world ex_code VM_FAULT_READ 0x500000 = .ok (EFAULT, boot_world, ex_code)
    ∧ vm_fault boot_world empty_as VM_FAULT_WRITE 0x400000 = .ok (EFAULT, boot_world, empty_as) :=
  ⟨by decide!,
   (vm_fault_outside_every_region boot_world ex_code VM_FAULT_READ 0x500000).1 none none
     (by decide!) (by decide!) (by decide!) (by decide!) (by decide!),
   (vm_fault_outside_every_region boot_world empty_as VM_FAULT_WRITE 0x400000).2
     boot_world boot_world rfl⟩

/-- C14, counterexample: on an uninitialised heap (break 0) the call with
`+0x1000` succeeds and the following call with `-0x1000` fails with `EINVAL`;
the break is then `0x401000`, not the 0 it was before the two calls. -/
theorem as_set_process_break_first_call_ignores_amount :
    ex_code.Proc_heap.base_heap_addr = 0 ∧ ex_code.Proc_heap.cur_heap_break = 0
    ∧ as_set_process_break ex_code 0x1000 = .ok (0x401000, none, ex_heap)
    ∧ as_set_process_break ex_heap (-0x1000)
        = .ok (0, some EINVAL, { ex_heap with Proc_heap := { ex_heap.Proc_heap with Heap_lock := true } })
    ∧ ex_heap.Proc_heap.cur_heap_break = 0x401000
    ∧ ex_heap.Proc_heap.cur_heap_break ≠ ex_code.Proc_heap.cur_heap_break :=
  ⟨by decide!, by decide!, rfl, rfl, by decide!, by decide!⟩

/-- Witness for C14 (amended): grow the example heap by `0x3000`, then shrink it. -/
theorem as_set_process_break_round_trip_witness :
    as_set_process_break ex_heap 0x3000 = .ok (0x401000, none, ex_heap_grown)
    ∧ as_set_process_break ex_heap_grown (-0x3000) = .ok (0x404000, none, ex_heap) :=
  ⟨rfl,
   (as_set_process_break_round_trip ex_heap 0x3000 (0x401000, none, ex_heap_grown)
      ex_heap_reachable (by decide!) rfl rfl).1⟩

/-- C15, the code at the failing input: with base and break `0x401000`, the
amount `-0x1000` gives `EINVAL`, but the amount `-0x402000`, which takes the
break below zero, gives `ENOMEM`. -/
theorem as_set_process_break_wraps_below_base :
    ex_heap.Proc_heap.base_heap_addr = 0x401000
    ∧ ex_heap.Proc_heap.cur_heap_break = 0x401000
    ∧ ex_heap.Proc_heap.Heap_lock = false
    ∧ as_set_process_break ex_heap (-0x1000)
        = .ok (0, some EINVAL, { ex_heap with Proc_heap := { ex_heap.Proc_heap with Heap_lock := true } })
    ∧ to_vaddr (-0x402000) = 0xffbfe000
    ∧ as_set_process_break ex_heap (-0x402000)
        = .ok (0, some ENOMEM, { ex_heap with Proc_heap := { ex_heap.Proc_heap with Heap_lock := true } }) :=
  ⟨by decide!, by decide!, by decide!, rfl, by decide!, rfl⟩

/-- C16, counterexample: after a region `[0x7ffef000, 0x7fff0000)` the
initialising call puts base and break at `0x7fff0000 = USERSTACK - STACK_LIMIT`. -/
theorem heap_initialised_at_stack_reserve :
    Reachable ex_heap_high
    ∧ ex_heap_high.region_nodes =
        [{ base_addr := 0x7ffef000, end_addr := 0x7ffeffff, readable := 4, writeable := 2,
           executable := 0, is_readonly := false, next := none }]
    ∧ ex_heap_high.Proc_heap.base_heap_addr = 0x7fff0000
    ∧ ex_heap_high.Proc_heap.cur_heap_break = 0x7fff0000
    ∧ USERSTACK - STACK_LIMIT = 0x7fff0000
    ∧ ¬ (ex_heap_high.Proc_heap.cur_heap_break < USERSTACK - STACK_LIMIT) :=
  ⟨ex_heap_high_reachable, by decide!, by decide!, by decide!, by decide, by decide!⟩

/-- Witness for C16 (amended): the grown example heap. -/
theorem heap_bounds_of_reachable_witness :
    Reachable ex_heap_grown
    ∧ ex_heap_grown.Proc_heap.base_heap_addr ≤ ex_heap_grown.Proc_heap.cur_heap_break
    ∧ ex_heap_grown.Proc_heap.cur_heap_break < USERSTACK - STACK_LIMIT :=
  have hr : Reachable ex_heap_grown :=
    Reachable.set_break ex_heap ex_heap_grown 0x3000 0x401000 none ex_heap_reachable rfl
  have h := heap_bounds_of_reachable ex_heap_grown hr
  ⟨hr, h.1, h.2.1 (by decide!)⟩

/-- C17, the code at the failing input: `as_define_region(0x1000, 0xfffff000)`
has an aligned end of `0x100000000`, which is 0 in 32 bits; the call returns
`SUCCESS` and the chain holds a region up to `0xffffffff`. -/
theorem as_define_region_wraps_past_KSEG0 :
    aligned_base 0x1000 + aligned_size 0x1000 0xfffff000 = 0x100000000
    ∧ (aligned_base 0x1000 + aligned_size 0x1000 0xfffff000) % WORD = 0
    ∧ as_define_region boot_world empty_as 0x1000 0xfffff000 PF_R PF_W 0
        = .ok (SUCCESS, boot_world, ex_wrapped)
    ∧ ex_wrapped.addr_region_base = some 0
    ∧ ex_wrapped.region_nodes =
        [{ base_addr := 0x1000, end_addr := 0xffffffff, readable := 4, writeable := 2,
           executable := 0, is_readonly := false, next := none }]
    ∧ Lookup_Region ex_wrapped 0xc0000000 = .ok (some 0) :=
  ⟨by decide, by decide, rfl, by decide!, by decide!, by decide!⟩

/-- C18, counterexample: the range `[0x7fff0000, 0x80000000)` ends exactly at
`KSEG0` and `as_define_region` returns `SUCCESS` for it; it is the region of
`as_define_stack`. -/
theorem as_define_region_accepts_end_at_KSEG0 :
    aligned_base 0x7fff0000 + aligned_size 0x7fff0000 0x10000 = MIPS_KSEG0
    ∧ as_define_region boot_world empty_as 0x7fff0000 0x10000 PF_R PF_W 0
        = .ok (SUCCESS, boot_world, ex_stack.2.2.2)
    ∧ as_define_stack boot_world empty_as = .ok ex_stack
    ∧ ex_stack.1 = SUCCESS
    ∧ ex_stack.2.2.2.region_nodes =
        [{ base_addr := 0x7fff0000, end_addr := 0x7fffffff, readable := 4, writeable := 2,
           executable := 0, is_readonly := false, next := none }] :=
  ⟨by decide, rfl, rfl, by decide!, by decide!⟩

/-- Witness for C18 (amended): a stack-reserve region defined after the code region. -/
theorem as_define_region_ending_at_KSEG0_witness :
    aligned_base 0x7fff0800 + aligned_size 0x7fff0800 0xf800 = MIPS_KSEG0
    ∧ ∃ as1, as_define_region boot_world ex_code 0x7fff0800 0xf800 PF_R PF_W 0
        = .ok (SUCCESS, (kmalloc boot_world).2, as1)
      ∧ Create_Region ex_code (aligned_base 0x7fff0800) (aligned_size 0x7fff0800 0xf800)
          PF_R PF_W 0 = .ok as1 :=
  ⟨by decide,
   (as_define_region_ending_at_KSEG0 boot_world ex_code 0x7fff0800 0xf800 PF_R PF_W 0
      (by decide)).2 (by decide!) (by decide!) (by decide!)⟩

/-- C19, the code at the failing input: ranges abutting `[0x2000, 0x3000)` from
above and from below are accepted; but a region of size 0 at address 0 is
stored with `end_addr = 0xffffffff`, and with it in the chain the range
`[0x400000, 0x401000)` is rejected with `EINVAL`. -/
theorem regions_overlap_rejects_after_empty_region :
    as_define_region boot_world ex_high 0x3000 0x1000 PF_R PF_W 0
        = .ok (SUCCESS, boot_world, with_region ex_high 0x3000 0x1000 PF_R PF_W 0)
    ∧ as_define_region boot_world ex_high 0x1000 0x1000 PF_R PF_W 0
        = .ok (SUCCESS, boot_world, with_region ex_high 0x1000 0x1000 PF_R PF_W 0)
    ∧ as_define_region boot_world empty_as 0 0 PF_R PF_W 0 = .ok (SUCCESS, boot_world, ex_zero)
    ∧ ex_zero.addr_region_base = some 0
    ∧ ex_zero.region_nodes =
        [{ base_addr := 0, end_addr := 0xffffffff, readable := 4, writeable := 2,
           executable := 0, is_readonly := false, next := none }]
    ∧ regions_overlap ex_zero 0x400000 0x401000 = .ok EINVAL
    ∧ as_define_region boot_world ex_zero 0x400000 0x1000 PF_R PF_W 0
        = .ok (EINVAL, boot_world, ex_zero) :=
  ⟨rfl, rfl, rfl, by decide!, by decide!, by decide!, rfl⟩

/-- Witness for C20: the rejected attempt `(0x10800, 0x1000)` after `(0x10000, 0x2000)`. -/
theorem as_define_region_error_unchanged_witness :
    as_define_region boot_world empty_as 0x10000 0x2000 PF_R PF_W 0
        = .ok (SUCCESS, boot_world, ex_low)
    ∧ (as_define_region boot_world ex_low 0x10800 0x1000 PF_R 0 0).isOk = true
    ∧ ((as_define_region boot_world ex_low 0x10800 0x1000 PF_R 0 0).getD
          (0, boot_world, empty_as)).1 = EINVAL
    ∧ ((as_define_region boot_world ex_low 0x10800 0x1000 PF_R 0 0).getD
          (0, boot_world, empty_as)).2.2 = ex_low :=
  ⟨rfl, by decide!, by decide!,
   (as_define_region_error_unchanged boot_world ex_low 0x10800 0x1000 PF_R 0 0 _
      (Res.eq_ok_of_isOk _ (0, boot_world, empty_as) (by decide!)) (by decide!)).1⟩

/-! ## Loading: the write flag of latched regions -/

theorem chain_indices_congr (n1 n2 : List addrspace_region)
    (h : ∀ i : Nat, (n1[i]?).map (fun r => r.next) = (n2[i]?).map (fun r => r.next)) :
    ∀ fuel p, chain_indices n1 fuel p = chain_indices n2 fuel p := by
  intro fuel
  induction fuel with
  | zero => intro p; cases p <;> simp [chain_indices]
  | succ fuel ih =>
    intro p
    cases p with
    | none => simp [chain_indices]
    | some p =>
      have hp := h p
      simp only [chain_indices]
      cases h1 : n1[p]? with
      | none =>
        cases h2 : n2[p]? with
        | none => rfl
        | some r2 => simp [h1, h2] at hp
      | some r1 =>
        cases h2 : n2[p]? with
        | none => simp [h1, h2] at hp
        | some r2 =>
          simp only [h1, h2, Option.map_some', Option.some.injEq] at hp
          simp only [hp, ih]

theorem as_prepare_load_walk_spec (fuel : Nat) :
    ∀ (p : Option Nat) (nodes R : List addrspace_region),
      as_prepare_load_walk fuel p nodes = .ok R →
      ∀ i : Nat, R[i]? = (nodes[i]?).map (fun r =>
        if i ∈ chain_indices nodes fuel p ∧ r.is_readonly = true
        then { r with writeable := PF_W } else r) := by
  induction fuel with
  | zero =>
    intro p nodes R h i
    cases p with
    | none =>
      simp only [as_prepare_load_walk, Res.ok.injEq] at h
      subst h
      cases nodes[i]? <;> simp [chain_indices]
    | some p => simp [as_prepare_load_walk] at h
  | succ fuel ih =>
    intro p nodes R h i
    cases p with
    | none =>
      simp only [as_prepare_load_walk, Res.ok.injEq] at h
      subst h
      cases nodes[i]? <;> simp [chain_indices]
    | some p =>
      simp only [as_prepare_load_walk] at h
      cases hp : nodes[p]? with
      | none => simp [hp] at h
      | some r =>
        simp only [hp] at h
        have hplt : p < nodes.length := by
          by_contra hc
          rw [List.getElem?_eq_none (by omega)] at hp
          cases hp
        have hrec := ih _ _ _ h i
        rw [hrec]
        simp only [chain_indices, hp]
        have hcong : chain_indices
            (if r.is_readonly = true then nodes.set p { r with writeable := PF_W } else nodes)
            fuel r.next = chain_indices nodes fuel r.next := by
          apply chain_indices_congr
          intro k
          by_cases hl : r.is_readonly = true
          · simp only [hl, if_true]
            by_cases hk : p = k
            · subst hk
              rw [List.getElem?_set_self hplt, hp]; rfl
            · rw [List.getElem?_set_ne hk]
          · simp only [hl]; rfl
        rw [hcong]
        by_cases hi : p = i
        · subst hi
          by_cases hl : r.is_readonly = true
          · simp [hl, List.getElem?_set_self hplt, hp]
          · simp [hl, hp]
        · have hi2 : ¬ (i = p) := fun h => hi h.symm
          by_cases hl : r.is_readonly = true
          · simp only [hl, if_true, List.getElem?_set_ne hi, List.mem_cons, hi2, false_or]
          · simp only [hl, List.mem_cons, hi2, false_or]; rfl

theorem Page_table_readonly_regions (as as1 : addrspace) (b : Nat)
    (h : Page_table_readonly as b = .ok as1) :
    as1.region_nodes = as.region_nodes ∧ as1.addr_region_base = as.addr_region_base
    ∧ as1.addr_region_end = as.addr_region_end ∧ as1.Proc_heap = as.Proc_heap := by
  unfold Page_table_readonly at h
  simp only at h
  split at h
  · cases h
  · split at h
    · cases h
    · cases h
    · split at h <;> (cases h; exact ⟨rfl, rfl, rfl, rfl⟩)

theorem as_complete_load_walk_spec (fuel : Nat) :
    ∀ (p : Option Nat) (as as1 : addrspace),
      as_complete_load_walk fuel p as = .ok as1 →
      as1.addr_region_base = as.addr_region_base
      ∧ as1.addr_region_end = as.addr_region_end
      ∧ as1.Proc_heap = as.Proc_heap
      ∧ ∀ i : Nat, as1.region_nodes[i]? = (as.region_nodes[i]?).map (fun r =>
        if i ∈ chain_indices as.region_nodes fuel p ∧ r.is_readonly = true ∧ r.writeable = PF_W
        then { r with writeable := 0 } else r) := by
  induction fuel with
  | zero =>
    intro p as as1 h
    cases p with
    | none =>
      simp only [as_complete_load_walk, Res.ok.injEq] at h
      subst h
      refine ⟨rfl, rfl, rfl, ?_⟩
      intro i
      cases as.region_nodes[i]? <;> simp [chain_indices]
    | some p => simp [as_complete_load_walk] at h
  | succ fuel ih =>
    intro p as as1 h
    cases p with
    | none =>
      simp only [as_complete_load_walk, Res.ok.injEq] at h
      subst h
      refine ⟨rfl, rfl, rfl, ?_⟩
      intro i
      cases as.region_nodes[i]? <;> simp [chain_indices]
    | some p =>
      simp only [as_complete_load_walk] at h
      cases hp : as.region_nodes[p]? with
      | none => simp [hp] at h
      | some r =>
        simp only [hp] at h
        have hplt : p < as.region_nodes.length := by
          by_contra hc
          rw [List.getElem?_eq_none (by omega)] at hp
          cases hp
        cases hro : Page_table_readonly
            (if r.is_readonly = true ∧ r.writeable = PF_W then
              { as with region_nodes := as.region_nodes.set p { r with writeable := 0 } }
            else as) r.base_addr with
        | trap => simp [hro] at h
        | hang => simp [hro] at h
        | ok as2 =>
          simp only [hro] at h
          obtain ⟨r1, r2, r3, r4⟩ := ih _ _ _ h
          by_cases hl : r.is_readonly = true ∧ r.writeable = PF_W
          · rw [if_pos hl] at hro
            obtain ⟨q1, q2, q3, q4⟩ := Page_table_readonly_regions _ _ _ hro
            dsimp only at q1 q2 q3 q4
            refine ⟨r1.trans q2, r2.trans q3, r3.trans q4, ?_⟩
            intro i
            rw [r4 i, q1]
            have hcong : chain_indices (as.region_nodes.set p { r with writeable := 0 })
                fuel r.next = chain_indices as.region_nodes fuel r.next := by
              apply chain_indices_congr
              intro k
              by_cases hk : p = k
              · subst hk
                rw [List.getElem?_set_self hplt, hp]; rfl
              · rw [List.getElem?_set_ne hk]
            rw [hcong]
            simp only [chain_indices, hp]
            by_cases hi : p = i
            · subst hi
              simp [hl, List.getElem?_set_self hplt, hp, PF_W]
            · have hi2 : ¬ (i = p) := fun h => hi h.symm
              simp only [List.getElem?_set_ne hi, List.mem_cons, hi2, false_or]
          · rw [if_neg hl] at hro
            obtain ⟨q1, q2, q3, q4⟩ := Page_table_readonly_regions _ _ _ hro
            refine ⟨r1.trans q2, r2.trans q3, r3.trans q4, ?_⟩
            intro i
            rw [r4 i, q1]
            simp only [chain_indices, hp]
            by_cases hi : p = i
            · subst hi
              simp only [hp, Option.map_some', Option.some.injEq]
              have : ¬ (r.is_readonly = true ∧ r.writeable = PF_W) := hl
              simp [this]
            · have hi2 : ¬ (i = p) := fun h => hi h.symm
              simp only [List.mem_cons, hi2, false_or]

/-- C24: `as_prepare_load` sets the write flag of exactly the latched regions
of the chain and changes nothing else; when `as_complete_load` then returns,
whatever the loader did to the page table in between, every region node is
what it was before `as_prepare_load` (permissions, bounds, latch and link),
and the chain pointers are unchanged. A latched region has no write permission
before the load, as `Create_Region` leaves it. -/
theorem as_prepare_then_complete_load (w : World) (as : addrspace) (pt : PageTable)
    (r1 : Nat × addrspace) (r2 : Nat × World × addrspace)
    (hlatch : ∀ r ∈ as.region_nodes, r.is_readonly = true → r.writeable = 0)
    (h1 : as_prepare_load as = .ok r1)
    (h2 : as_complete_load w { r1.2 with PageTable := pt } = .ok r2) :
    (∀ i : Nat, r1.2.region_nodes[i]? = (as.region_nodes[i]?).map (fun r =>
        if i ∈ region_indices as ∧ r.is_readonly = true then { r with writeable := PF_W } else r))
    ∧ r1.2.addr_region_base = as.addr_region_base
    ∧ r1.2.addr_region_end = as.addr_region_end
    ∧ r1.2.PageTable = as.PageTable
    ∧ r2.2.2.region_nodes = as.region_nodes
    ∧ r2.2.2.addr_region_base = as.addr_region_base
    ∧ r2.2.2.addr_region_end = as.addr_region_end := by
  obtain ⟨rc1, as1⟩ := r1
  obtain ⟨rc2, w2, as3⟩ := r2
  unfold as_prepare_load at h1
  cases hw : as_prepare_load_walk as.region_nodes.length as.addr_region_base as.region_nodes with
  | trap => simp [hw] at h1
  | hang => simp [hw] at h1
  | ok nodes1 =>
    simp only [hw, Res.ok.injEq, Prod.mk.injEq] at h1
    obtain ⟨-, h1⟩ := h1
    subst h1
    have hp := as_prepare_load_walk_spec _ _ _ _ hw
    have hlen : nodes1.length = as.region_nodes.length := by
      by_contra hne
      rcases Nat.lt_or_gt_of_ne hne with hlt | hgt
      · have := hp nodes1.length
        rw [List.getElem?_eq_none (le_refl _), List.getElem?_eq_getElem hlt] at this
        simp at this
      · have := hp as.region_nodes.length
        rw [List.getElem?_eq_none (le_refl _), List.getElem?_eq_getElem hgt] at this
        simp at this
    unfold as_complete_load at h2
    dsimp only at h2
    cases hc : as_complete_load_walk nodes1.length as.addr_region_base
        { as with region_nodes := nodes1, PageTable := pt } with
    | trap => simp [hc] at h2
    | hang => simp [hc] at h2
    | ok as4 =>
      simp only [hc, Res.ok.injEq, Prod.mk.injEq] at h2
      obtain ⟨-, -, h2⟩ := h2
      subst h2
      obtain ⟨c1, c2, -, c4⟩ := as_complete_load_walk_spec _ _ _ _ hc
      dsimp only at c1 c2 c4
      refine ⟨hp, rfl, rfl, rfl, ?_, c1, c2⟩
      apply List.ext_getElem?
      intro i
      rw [c4 i, hp i]
      have hcong : chain_indices nodes1 nodes1.length as.addr_region_base
          = chain_indices as.region_nodes as.region_nodes.length as.addr_region_base := by
        rw [hlen]
        apply chain_indices_congr
        intro k
        rw [hp k]
        cases as.region_nodes[k]? with
        | none => rfl
        | some r =>
          simp only [Option.map_some', Option.some.injEq]
          split <;> rfl
      rw [hcong]
      cases hi : as.region_nodes[i]? with
      | none => rfl
      | some r =>
        simp only [Option.map_some', Option.some.injEq, region_indices]
        by_cases hin : i ∈ chain_indices as.region_nodes as.region_nodes.length as.addr_region_base
        · by_cases hl : r.is_readonly = true
          · have hw0 := hlatch r (List.getElem?_mem hi) hl
            simp only [hin, hl, and_self, if_true, true_and]
            cases r
            simp_all
          · simp [hin, hl]
        · simp [hin]

/-! ## Fork: the region chain -/

theorem chain_walk_linear (L : List addrspace_region) (hl : linear L) :
    ∀ (fuel i : Nat), i ≤ L.length → L.length - i ≤ fuel →
      chain_walk L fuel (if i < L.length then some i else none) = .ok (L.drop i) := by
  intro fuel
  induction fuel with
  | zero =>
    intro i hi hf
    have : ¬ (i < L.length) := by omega
    rw [if_neg this]
    have hd : L.drop i = [] := List.drop_eq_nil_of_le (by omega)
    simp [chain_walk, hd]
  | succ fuel ih =>
    intro i hi hf
    by_cases hlt : i < L.length
    · rw [if_pos hlt]
      simp only [chain_walk, List.getElem?_eq_getElem hlt]
      have hn := hl i L[i] (List.getElem?_eq_getElem hlt)
      rw [hn, ih (i + 1) (by omega) (by omega)]
      simp only [Res.ok.injEq]
      exact (List.drop_eq_getElem_cons hlt).symm
    · rw [if_neg hlt]
      have hd : L.drop i = [] := List.drop_eq_nil_of_le (by omega)
      simp [chain_walk, hd]

theorem chain_walk_mono (L : List addrspace_region) :
    ∀ (fuel F : Nat) (p : Option Nat) (C : List addrspace_region),
      chain_walk L fuel p = .ok C → fuel ≤ F → chain_walk L F p = .ok C := by
  intro fuel
  induction fuel with
  | zero =>
    intro F p C h hF
    cases p with
    | none =>
      cases F <;> simpa [chain_walk] using h
    | some p => simp [chain_walk] at h
  | succ fuel ih =>
    intro F p C h hF
    cases p with
    | none => cases F <;> simpa [chain_walk] using h
    | some p =>
      obtain ⟨F', rfl⟩ : ∃ F', F = F' + 1 := ⟨F - 1, by omega⟩
      simp only [chain_walk] at h ⊢
      cases hp : L[p]? with
      | none => simp [hp] at h
      | some r =>
        simp only [hp] at h ⊢
        cases hr : chain_walk L fuel r.next with
        | trap => simp [hr] at h
        | hang => simp [hr] at h
        | ok rest =>
          rw [ih F' r.next rest hr (by omega)]
          simpa [hr] using h

theorem link_step_linear (L nodes1 : List addrspace_region) (node : addrspace_region)
    (hl : linear L) (hn : node.next = none)
    (h1 : (L = [] ∧ nodes1 = L) ∨
      (L ≠ [] ∧ ∃ rl, L[L.length - 1]? = some rl
        ∧ nodes1 = L.set (L.length - 1) { rl with next := some L.length })) :
    nodes1.length = L.length
      ∧ linear (nodes1 ++ [node])
      ∧ (nodes1 ++ [node]).map region_fields = L.map region_fields ++ [region_fields node] := by
  rcases h1 with ⟨hL, h1⟩ | ⟨hL, rl, hrl, h1⟩
  · subst hL; subst h1
    refine ⟨rfl, ?_, by simp⟩
    intro i r hi
    cases i with
    | zero => simp at hi; subst hi; simp [hn]
    | succ i => simp at hi
  · have hpos : 0 < L.length := List.length_pos.mpr hL
    have hlt : L.length - 1 < L.length := by omega
    subst h1
    refine ⟨?_, ?_, ?_⟩
    · simp
    · intro i r hi
      simp only [List.length_append, List.length_set, List.length_singleton]
      by_cases h1 : i < L.length - 1
      · rw [List.getElem?_append_left (by simp; omega),
          List.getElem?_set_ne (by omega)] at hi
        have := hl i r hi
        rw [this, if_pos (by omega), if_pos (by omega)]
      · by_cases h2 : i = L.length - 1
        · subst h2
          rw [List.getElem?_append_left (by simp; omega),
            List.getElem?_set_self hlt] at hi
          simp only [Option.some.injEq] at hi
          subst hi
          rw [if_pos (by omega)]
          simp only [Option.some.injEq]; omega
        · by_cases h3 : i = L.length
          · subst h3
            rw [List.getElem?_append_right (by simp)] at hi
            simp at hi
            subst hi
            rw [hn, if_neg (by omega)]
          · rw [List.getElem?_eq_none (by simp; omega)] at hi
            cases hi
    · rw [List.map_append, List.map_set]
      congr 1
      apply List.ext_getElem?
      intro k
      by_cases hk : L.length - 1 = k
      · subst hk
        rw [List.getElem?_set_self (by simpa using hlt)]
        simp [hrl, region_fields]
      · rw [List.getElem?_set_ne hk]

theorem Region_copy_walk_spec (O : List addrspace_region)
    (hlink : ∀ r ∈ O, USERSTACK - STACK_LIMIT ≤ r.base_addr → r.next = none) :
    ∀ (fuel F : Nat) (cur : Option Nat) (C : List addrspace_region) (w : World) (N : addrspace)
      (w' : World) (N' : addrspace),
      chain_walk O fuel cur = .ok C → fuel ≤ F →
      linear N.region_nodes →
      N.addr_region_base = (if N.region_nodes = [] then none else some 0) →
      (cur ≠ none → N.addr_region_end =
          (if N.region_nodes = [] then none else some (N.region_nodes.length - 1))) →
      Region_copy_walk O F cur w N = .ok (SUCCESS, w', N') →
      linear N'.region_nodes
      ∧ N'.addr_region_base = (if N'.region_nodes = [] then none else some 0)
      ∧ N'.region_nodes.map region_fields = N.region_nodes.map region_fields ++ C.map region_fields
      ∧ N'.Proc_heap = N.Proc_heap ∧ N'.PageTable = N.PageTable
      ∧ N'.mmap_nodes = N.mmap_nodes ∧ N'.File_region_base = N.File_region_base
      ∧ N'.File_region_end = N.File_region_end := by
  intro fuel
  induction fuel with
  | zero =>
    intro F cur C w N w' N' hc hF hl hb he h
    cases cur with
    | some p => simp [chain_walk] at hc
    | none =>
      simp only [chain_walk, Res.ok.injEq] at hc
      subst hc
      have h' : Region_copy_walk O F none w N = .ok (SUCCESS, w, N) := by
        cases F <;> rfl
      rw [h'] at h
      simp only [Res.ok.injEq, Prod.mk.injEq] at h
      obtain ⟨-, -, h⟩ := h
      subst h
      exact ⟨hl, hb, by simp, rfl, rfl, rfl, rfl, rfl⟩
  | succ fuel ih =>
    intro F cur C w N w' N' hc hF hl hb he h
    cases cur with
    | none =>
      simp only [chain_walk, Res.ok.injEq] at hc
      subst hc
      have h' : Region_copy_walk O F none w N = .ok (SUCCESS, w, N) := by
        cases F <;> rfl
      rw [h'] at h
      simp only [Res.ok.injEq, Prod.mk.injEq] at h
      obtain ⟨-, -, h⟩ := h
      subst h
      exact ⟨hl, hb, by simp, rfl, rfl, rfl, rfl, rfl⟩
    | some p =>
      obtain ⟨F', rfl⟩ : ∃ F', F = F' + 1 := ⟨F - 1, by omega⟩
      simp only [chain_walk] at hc
      simp only [Region_copy_walk] at h
      cases hp : O[p]? with
      | none => simp [hp] at hc
      | some r =>
        simp only [hp] at hc h
        cases hr : chain_walk O fuel r.next with
        | trap => simp [hr] at hc
        | hang => simp [hr] at hc
        | ok rest =>
          simp only [hr, Res.ok.injEq] at hc
          subst hc
          cases hk : kmalloc w with
          | mk b w1 =>
            simp only [hk] at h
            cases b with
            | false =>
              simp only at h
              cases hd : as_destroy w1 N with
              | trap => simp [hd] at h
              | hang => simp [hd] at h
              | ok w2 => simp [hd, ENOMEM, SUCCESS] at h
            | true =>
              simp only at h
              have hend := he (by simp)
              rw [hend] at h
              have hstep : ∃ nodes1, (nodes1.length = N.region_nodes.length
                  ∧ linear (nodes1 ++ [{ r with next := none }])
                  ∧ (nodes1 ++ [{ r with next := none }]).map region_fields
                      = N.region_nodes.map region_fields ++ [region_fields { r with next := none }])
                  ∧ Region_copy_walk O F' r.next w1
                      { N with
                        region_nodes := nodes1 ++ [{ r with next := none }]
                        addr_region_base :=
                          match N.addr_region_base with
                          | none => some N.region_nodes.length
                          | some b => some b
                        addr_region_end :=
                          if r.base_addr < USERSTACK - STACK_LIMIT then some N.region_nodes.length
                          else if N.region_nodes = [] then none
                            else some (N.region_nodes.length - 1) }
                      = .ok (SUCCESS, w', N') := by
                by_cases hN : N.region_nodes = []
                · refine ⟨N.region_nodes, link_step_linear _ _ _ hl rfl (Or.inl ⟨hN, rfl⟩), ?_⟩
                  simpa [hN] using h
                · have hlt : N.region_nodes.length - 1 < N.region_nodes.length := by
                    have := List.length_pos.mpr hN; omega
                  refine ⟨_, link_step_linear _ _ _ hl rfl
                    (Or.inr ⟨hN, _, List.getElem?_eq_getElem hlt, rfl⟩), ?_⟩
                  simpa [hN, List.getElem?_eq_getElem hlt] using h
              clear h
              obtain ⟨nodes1, ⟨hlen1, hlin1, hmap1⟩, h⟩ := hstep
              have hbase1 : (match N.addr_region_base with
                  | none => some N.region_nodes.length
                  | some b => some b) = some 0 := by
                rw [hb]
                by_cases hN : N.region_nodes = []
                · simp [hN]
                · simp [hN]
              rw [hbase1] at h
              have hne1 : nodes1 ++ [{ r with next := none }] ≠ [] := by simp
              by_cases hlim : r.base_addr < USERSTACK - STACK_LIMIT
              · simp only [hlim, if_true] at h
                obtain ⟨a1, a2, a3, a4, a5, a6, a7, a8⟩ :=
                  ih F' r.next rest w1 _ w' N' hr (by omega) hlin1
                    (by simp) (by intro _; simp [hlen1]) h
                dsimp only at a1 a2 a3 a4 a5 a6 a7 a8
                refine ⟨a1, a2, ?_, a4, a5, a6, a7, a8⟩
                rw [a3, hmap1]
                simp [region_fields]
              · have hnext : r.next = none :=
                  hlink r (List.getElem?_mem hp) (by omega)
                rw [hnext] at hr h
                have hrest : rest = [] := by
                  cases fuel <;> simpa [chain_walk] using hr.symm
                subst hrest
                have h' : ∀ (x : addrspace), Region_copy_walk O F' none w1 x
                    = .ok (SUCCESS, w1, x) := by
                  intro x; cases F' <;> rfl
                rw [h'] at h
                simp only [Res.ok.injEq, Prod.mk.injEq] at h
                obtain ⟨-, -, h⟩ := h
                subst h
                dsimp only
                refine ⟨hlin1, by simp, ?_, rfl, rfl, rfl, rfl, rfl⟩
                rw [hmap1]
                simp [region_fields]

theorem kmalloc_frame (w : World) :
    (kmalloc w).2.refcount = w.refcount ∧ same_devices w (kmalloc w).2
      ∧ (AllocOK w → AllocOK (kmalloc w).2) := by
  unfold kmalloc
  cases hk : w.kmallocs with
  | nil => exact ⟨rfl, same_devices_refl _, fun h => h⟩
  | cons b rest =>
    refine ⟨rfl, ⟨rfl, rfl, rfl, rfl, rfl, rfl⟩, ?_⟩
    intro h c hc
    exact h c (by simp [hk, hc])

theorem as_create_value (w w1 : World) (as : addrspace)
    (h : as_create w = .ok (some as, w1)) :
    as = empty_as ∧ w1.refcount = w.refcount ∧ same_devices w w1
      ∧ (AllocOK w → AllocOK w1) := by
  unfold as_create Page_table_Set at h
  have k1 := kmalloc_frame w
  cases e1 : kmalloc w with
  | mk b1 wa =>
    rw [e1] at h k1
    cases b1 with
    | false => simp at h
    | true =>
      simp only at h k1
      have k2 := kmalloc_frame wa
      cases e2 : kmalloc wa with
      | mk b2 wb =>
        rw [e2] at h k2
        cases b2 with
        | false => simp at h
        | true =>
          simp only at h k2
          have k3 := kmalloc_frame wb
          cases e3 : kmalloc wb with
          | mk b3 wc =>
            rw [e3] at h k3
            cases b3 with
            | false => simp at h
            | true =>
              simp only at h k3
              have k4 := kmalloc_frame wc
              cases e4 : kmalloc wc with
              | mk b4 wd =>
                rw [e4] at h k4
                cases b4 with
                | false => simp at h
                | true =>
                  simp only [Res.ok.injEq, Prod.mk.injEq, Option.some.injEq] at h k4
                  obtain ⟨ha, hw⟩ := h
                  subst ha; subst hw
                  refine ⟨rfl, ?_, ?_, ?_⟩
                  · rw [k4.1, k3.1, k2.1, k1.1]
                  · exact same_devices_trans (same_devices_trans
                      (same_devices_trans k1.2.1 k2.2.1) k3.2.1) k4.2.1
                  · intro hA
                    exact k4.2.2 (k3.2.2 (k2.2.2 (k1.2.2 hA)))

/-- C21: when `as_copy` returns 0, the region chain of the new address space,
walked from `addr_region_base`, has the length of the source chain and its
nodes carry, in order, the bounds, permissions and latch of the source nodes;
the heap base and break are those of the source; the region store, chain
pointers and heap record of the source are unchanged. The source chain is one
in which a node at or above the stack reserve has no successor. -/
theorem as_copy_regions (w : World) (src : addrspace) (C : List addrspace_region)
    (res : Nat × World × addrspace × Option addrspace)
    (hlink : ∀ r ∈ src.region_nodes, USERSTACK - STACK_LIMIT ≤ r.base_addr → r.next = none)
    (hchain : region_chain src = .ok C)
    (h : as_copy w src = .ok res) (h0 : res.1 = SUCCESS) :
    (∃ dst D, res.2.2.2 = some dst ∧ region_chain dst = .ok D
      ∧ D.length = C.length
      ∧ D.map region_fields = C.map region_fields
      ∧ dst.Proc_heap.base_heap_addr = src.Proc_heap.base_heap_addr
      ∧ dst.Proc_heap.cur_heap_break = src.Proc_heap.cur_heap_break)
    ∧ res.2.2.1.region_nodes = src.region_nodes
    ∧ res.2.2.1.addr_region_base = src.addr_region_base
    ∧ res.2.2.1.addr_region_end = src.addr_region_end
    ∧ res.2.2.1.Proc_heap = src.Proc_heap := by
  obtain ⟨rc, wr, src1, ret⟩ := res
  simp only at h0
  subst h0
  unfold as_copy at h
  simp only [err_handling_as_copy, SUCCESS, ne_eq, not_true_eq_false, if_false] at h
  cases hc : as_create w with
  | trap => simp [hc] at h
  | hang => simp [hc] at h
  | ok x =>
    obtain ⟨onew, w1⟩ := x
    cases onew with
    | none => simp [hc, ENOMEM] at h
    | some newas =>
      obtain ⟨hnew, -, -, -⟩ := as_create_value _ _ _ hc
      subst hnew
      simp only [hc] at h
      cases hr : Region_copy w1 src empty_as with
      | trap => simp [hr] at h
      | hang => simp [hr] at h
      | ok y =>
        obtain ⟨rc1, w2, N1⟩ := y
        simp only [hr] at h
        by_cases hrc : rc1 = 0
        · subst hrc
          simp only [ne_eq, not_true_eq_false, if_false] at h
          cases hp : Page_table_copy w2 src.PageTable N1.PageTable with
          | trap => simp [hp] at h
          | hang => simp [hp] at h
          | ok z =>
            obtain ⟨cp, w3, oPT, nPT⟩ := z
            simp only [hp] at h
            by_cases hcp : cp = 0
            · subst hcp
              simp only [ne_eq, not_true_eq_false, if_false, Res.ok.injEq, Prod.mk.injEq] at h
              obtain ⟨-, -, hs, hd⟩ := h
              subst hs; subst hd
              obtain ⟨a1, a2, a3, -⟩ :=
                Region_copy_walk_spec src.region_nodes hlink src.region_nodes.length _
                  src.addr_region_base C w1 empty_as w2 N1 hchain (Nat.le_add_right _ _)
                  (by intro i r hi; simp [empty_as] at hi) rfl (fun _ => rfl) hr
              have a3' : N1.region_nodes.map region_fields = C.map region_fields := by
                simpa [empty_as] using a3
              have hwalk := chain_walk_linear N1.region_nodes a1 N1.region_nodes.length 0
                (Nat.zero_le _) (by omega)
              refine ⟨⟨_, N1.region_nodes, rfl, ?_, ?_, a3', rfl, rfl⟩, rfl, rfl, rfl, rfl⟩
              · unfold region_chain
                dsimp only
                rw [a2]
                by_cases hN : N1.region_nodes = []
                · simp [hN, chain_walk]
                · have hpos : 0 < N1.region_nodes.length := List.length_pos.mpr hN
                  rw [if_pos hpos] at hwalk
                  simpa [hN] using hwalk
              · have := congrArg List.length a3'
                simpa using this
            · simp only [ne_eq, hcp, not_false_eq_true, if_true] at h
              cases hd : as_destroy w3 { N1 with
                  Proc_heap := { N1.Proc_heap with
                    base_heap_addr := src.Proc_heap.base_heap_addr
                    cur_heap_break := src.Proc_heap.cur_heap_break }
                  PageTable := nPT } with
              | trap => simp [hd] at h
              | hang => simp [hd] at h
              | ok w4 =>
                simp only [hd, Res.ok.injEq, Prod.mk.injEq] at h
                exact absurd h.1 hcp
        · simp only [ne_eq, hrc, not_false_eq_true, if_true, Res.ok.injEq, Prod.mk.injEq] at h
          exact h.1.elim

/-! ## Fork and destruction: reference counts -/

theorem sum_below_succ (n : Nat) (g : Nat → Nat) :
    sum_below (n + 1) g = sum_below n g + g n := rfl

theorem World.refcount_congr (w : World) (a b : Nat → Nat) (h : ∀ f, a f = b f) :
    ({ w with refcount := a } : World) = { w with refcount := b } := by
  have : a = b := funext h
  rw [this]

theorem Page_table_free_three_spec (l3 : Level3) (n : Nat) (w : World) :
    Page_table_free_three l3 n w =
      { w with refcount := fun f =>
          w.refcount f - sum_below n (fun k => frees_frame (l3 k) f) } := by
  induction n with
  | zero => simp [Page_table_free_three, sum_below]
  | succ n ih =>
    simp only [Page_table_free_three, ih, Page_table_free_step]
    by_cases h0 : l3 n = 0
    · have hz : ∀ f, frees_frame (l3 n) f = 0 := by intro f; simp [frees_frame, h0]
      rw [if_neg (by simpa using h0)]
      congr 1
      funext f
      rw [sum_below_succ, hz, Nat.add_zero]
    · rw [if_pos h0]
      by_cases hk : PADDR_TO_KVADDR (l3 n &&& PAGE_FRAME) = 0
      · have hz : ∀ f, frees_frame (l3 n) f = 0 := by intro f; simp [frees_frame, hk]
        simp only [hk, ne_eq, not_true_eq_false, if_false]
        refine World.refcount_congr w _ _ ?_
        intro f
        rw [sum_below_succ, hz, Nat.add_zero]
      · simp only [hk, ne_eq, not_false_eq_true, if_true, free_kpages]
        have hrt := KVADDR_PADDR_roundtrip (l3 n &&& PAGE_FRAME) (land_PAGE_FRAME_lt _)
        rw [hrt]
        refine World.refcount_congr w _ _ ?_
        intro f
        rw [sum_below_succ]
        by_cases hf : f = l3 n &&& PAGE_FRAME
        · have hz : frees_frame (l3 n) f = 1 := by simp [frees_frame, h0, hk, hf]
          rw [hz, ← Nat.sub_sub]
          simp only [store, hf, if_true]
        · have hf2 : ¬ (l3 n &&& PAGE_FRAME = f) := fun h => hf h.symm
          have hz : frees_frame (l3 n) f = 0 := by simp [frees_frame, hf2]
          rw [hz, Nat.add_zero]
          simp only [store, hf, if_false]

theorem Page_table_free_two_spec (l2 : Level2) (n : Nat) (w : World)
    (hj : ∀ j, j < n → l2 j ≠ Slot.junk) :
    Page_table_free_two l2 n w =
      .ok { w with refcount := fun f =>
          w.refcount f - sum_below n (fun j => slot_frees (l2 j) f) } := by
  induction n with
  | zero => simp [Page_table_free_two, sum_below]
  | succ n ih =>
    simp only [Page_table_free_two, ih (fun j h => hj j (by omega))]
    cases hs : l2 n with
    | junk => exact absurd hs (hj n (by omega))
    | null =>
      simp only [Res.ok.injEq]
      congr 1
      funext f
      have hz : slot_frees (l2 n) f = 0 := by simp [slot_frees, hs]
      rw [sum_below_succ, hz, Nat.add_zero]
    | ptr l3 =>
      simp only [Res.ok.injEq, Page_table_free_three_spec]
      congr 1
      funext f
      have hz : slot_frees (l2 n) f
          = sum_below LEVEL2_AND_3_LIMIT (fun k => frees_frame (l3 k) f) := by
        rw [hs]; rfl
      rw [sum_below_succ, hz, Nat.sub_sub]

theorem Page_table_free_one_spec (pt : PageTable) (n : Nat) (w : World)
    (hj : ∀ i l2 j, i < n → pt.Pages i = some l2 → j < LEVEL2_AND_3_LIMIT → l2 j ≠ Slot.junk) :
    Page_table_free_one pt n w =
      .ok { w with refcount := fun f =>
          w.refcount f - sum_below n (fun i => level2_frees (pt.Pages i) f) } := by
  induction n with
  | zero => simp [Page_table_free_one, sum_below]
  | succ n ih =>
    simp only [Page_table_free_one, ih (fun i l2 j h => hj i l2 j (by omega))]
    cases hs : pt.Pages n with
    | none =>
      simp only [Res.ok.injEq]
      congr 1
      funext f
      have hz : level2_frees (pt.Pages n) f = 0 := by rw [hs]; rfl
      rw [sum_below_succ, hz, Nat.add_zero]
    | some l2 =>
      simp only [Page_table_free_two_spec l2 _ _ (fun j h => hj n l2 j (by omega) hs h),
        Res.ok.injEq]
      congr 1
      funext f
      have hz : level2_frees (pt.Pages n) f
          = sum_below LEVEL2_AND_3_LIMIT (fun j => slot_frees (l2 j) f) := by
        rw [hs]; rfl
      rw [sum_below_succ, hz, Nat.sub_sub]

theorem pte_wf_of_valid (e : Nat) (hv : e &&& TLBLO_VALID ≠ 0)
    (hf : e &&& PAGE_FRAME < MIPS_KSEG0) : pte_wf e := by
  intro _
  refine ⟨?_, ?_⟩
  · intro hc
    have := (clear_dirty_bits e).2.1
    rw [hc] at this
    apply hv
    rw [← this]; simp
  · unfold PADDR_TO_KVADDR WORD MIPS_KSEG0
    unfold MIPS_KSEG0 at hf
    omega

theorem frees_frame_strip (e f : Nat) (h : pte_wf e) :
    frees_frame (e &&& NOT_DIRTY) f = names_frame e f := by
  unfold frees_frame names_frame
  rw [land_NOT_DIRTY_frame]
  by_cases h0 : e = 0
  · subst h0; simp
  · obtain ⟨h1, h2⟩ := h h0
    simp [h0, h1, h2]

theorem slot_frees_copy (s : Slot) (f : Nat)
    (h : ∀ l3 k, s = .ptr l3 → k < LEVEL2_AND_3_LIMIT → pte_wf (l3 k)) :
    slot_frees (copy_slot s) f = slot_refs s f := by
  cases s with
  | null => rfl
  | junk => rfl
  | ptr l3 =>
    simp only [copy_slot, slot_frees, slot_refs]
    apply sum_below_congr
    intro k hk
    simp only [hk, if_true]
    exact frees_frame_strip _ _ (h l3 k rfl hk)

theorem level2_frees_copy (x : Option Level2) (f : Nat)
    (h : ∀ l2 j l3 k, x = some l2 → j < LEVEL2_AND_3_LIMIT → l2 j = .ptr l3 →
        k < LEVEL2_AND_3_LIMIT → pte_wf (l3 k)) :
    level2_frees (x.map copy_level2) f = level2_refs x f := by
  cases x with
  | none => rfl
  | some l2 =>
    simp only [Option.map_some', level2_frees, level2_refs]
    rw [sum_from_zero]
    apply sum_below_congr
    intro j hj
    simp only [copy_level2, hj, if_true]
    exact slot_frees_copy _ _ (fun l3 k hs hk => h l2 j l3 k rfl hj hs hk)

theorem Level_two_copy_loop_nojunk (i : Nat) (n : Nat) :
    ∀ (j : Nat) (w : World) (oldPT newPT : PageTable) (l2o : Level2)
      (res : Nat × World × PageTable × PageTable),
      AllocOK w → oldPT.Pages i = some l2o →
      Level_two_copy_loop i n j w oldPT newPT = .ok res →
      ∀ j', j ≤ j' → j' < j + n → l2o j' ≠ Slot.junk := by
  induction n with
  | zero => intro j w oldPT newPT l2o res _ _ _ j' h1 h2; omega
  | succ n ih =>
    intro j w oldPT newPT l2o res hA ho h j' h1 h2
    simp only [Level_two_copy_loop, ho] at h
    cases hn : newPT.Pages i with
    | none => simp [hn] at h
    | some l2n =>
      simp only [hn] at h
      cases hs : l2o j with
      | junk => simp [hs] at h
      | null =>
        simp only [hs] at h
        by_cases hj : j' = j
        · subst hj; rw [hs]; simp
        · exact ih (j + 1) w oldPT _ l2o res hA ho h j' (by omega) (by omega)
      | ptr o =>
        simp only [hs] at h
        obtain ⟨k1, k2, k3, k4⟩ := kmalloc_AllocOK w hA
        have hk : kmalloc w = (true, (kmalloc w).2) := by
          rw [← k1]
        rw [hk] at h
        simp only [Level_three_copy, ho, store_same, hs, Level_three_copy_loop_spec] at h
        by_cases hj : j' = j
        · subst hj; rw [hs]; simp
        · have := ih (j + 1) _ _ _ _ res (by exact k2) (store_same _ _ _) h j'
            (by omega) (by omega)
          simpa [store, hj] using this

theorem Page_table_copy_loop_nojunk (n : Nat) :
    ∀ (i : Nat) (w : World) (oldPT newPT : PageTable)
      (res : Nat × World × PageTable × PageTable),
      AllocOK w →
      Page_table_copy_loop n i w oldPT newPT = .ok res →
      ∀ i' l2 j, i ≤ i' → i' < i + n → oldPT.Pages i' = some l2 →
        j < LEVEL2_AND_3_LIMIT → l2 j ≠ Slot.junk := by
  induction n with
  | zero => intro i w oldPT newPT res _ _ i' l2 j h1 h2; omega
  | succ n ih =>
    intro i w oldPT newPT res hA h i' l2 j h1 h2 hl hj
    simp only [Page_table_copy_loop] at h
    cases ho : oldPT.Pages i with
    | none =>
      simp only [ho] at h
      by_cases hi : i' = i
      · subst hi; rw [ho] at hl; cases hl
      · exact ih (i + 1) w oldPT _ res hA h i' l2 j (by omega) (by omega) hl hj
    | some l2o =>
      simp only [ho] at h
      obtain ⟨k1, k2, k3, k4⟩ := kmalloc_AllocOK w hA
      have hk : kmalloc w = (true, (kmalloc w).2) := by
        rw [← k1]
      rw [hk] at h
      simp only at h
      cases hr : Level_two_copy (kmalloc w).2 oldPT
          { Pages := store newPT.Pages i (some (fun _ => Slot.junk)) } i with
      | trap => simp [hr] at h
      | hang => simp [hr] at h
      | ok r =>
        obtain ⟨rc2, w2, o2, n2⟩ := r
        simp only [hr] at h
        by_cases hi : i' = i
        · subst hi
          rw [ho] at hl
          cases hl
          exact Level_two_copy_loop_nojunk i' LEVEL2_AND_3_LIMIT 0 _ _ _ l2 _ k2 ho hr j
            (Nat.zero_le _) (by omega)
        · obtain ⟨-, ⟨a, b, e2, e3, ha, hb⟩, g4, g5, g6⟩ :=
            Level_two_copy_loop_spec i LEVEL2_AND_3_LIMIT 0 _ _ _ l2o (fun _ => Slot.junk)
              rc2 w2 o2 n2 k2 ho (store_same _ _ _) hr
          have hoth : o2.Pages i' = oldPT.Pages i' := by
            rw [e2]; simp [store, hi]
          exact ih (i + 1) w2 o2 n2 res g4 h i' l2 j (by omega) (by omega)
            (by rw [hoth]; exact hl) hj

theorem as_destroy_walk_forward (L : List addrspace_region) (hf : forward L) :
    ∀ (fuel p : Nat), L.length - p ≤ fuel → p < L.length →
      as_destroy_walk L fuel (some p) = .ok () := by
  intro fuel
  induction fuel with
  | zero => intro p h1 h2; omega
  | succ fuel ih =>
    intro p h1 h2
    simp only [as_destroy_walk, List.getElem?_eq_getElem h2]
    cases hn : L[p].next with
    | none => cases fuel <;> rfl
    | some j =>
      obtain ⟨a, b⟩ := hf p L[p] (List.getElem?_eq_getElem h2) j hn
      exact ih j (by omega) b

theorem forward_link_step (L nodes1 : List addrspace_region) (node : addrspace_region)
    (hl : forward L) (hn : node.next = none)
    (h1 : nodes1 = L ∨
      (∃ e rl, L[e]? = some rl ∧ nodes1 = L.set e { rl with next := some L.length })) :
    nodes1.length = L.length ∧ forward (nodes1 ++ [node]) := by
  have hlen : nodes1.length = L.length := by
    rcases h1 with h1 | ⟨e, rl, -, h1⟩ <;> subst h1 <;> simp
  refine ⟨hlen, ?_⟩
  intro i r hi j hj
  simp only [List.length_append, List.length_singleton, hlen]
  by_cases hlt : i < L.length
  · rw [List.getElem?_append_left (by omega)] at hi
    rcases h1 with h1 | ⟨e, rl, hrl, h1⟩
    · subst h1
      have := hl i r hi j hj
      omega
    · subst h1
      by_cases he : e = i
      · subst he
        rw [List.getElem?_set_self hlt] at hi
        simp only [Option.some.injEq] at hi
        subst hi
        simp only [Option.some.injEq] at hj
        omega
      · rw [List.getElem?_set_ne he] at hi
        have := hl i r hi j hj
        omega
  · by_cases heq : i = L.length
    · subst heq
      rw [List.getElem?_append_right (by omega)] at hi
      simp [hlen] at hi
      subst hi
      rw [hn] at hj
      cases hj
    · rw [List.getElem?_eq_none (by simp; omega)] at hi
      cases hi

theorem Region_copy_walk_frame (O : List addrspace_region) :
    ∀ (F : Nat) (cur : Option Nat) (w : World) (N : addrspace) (rc : Nat)
      (w' : World) (N' : addrspace),
      forward N.region_nodes →
      (∀ b, N.addr_region_base = some b → b < N.region_nodes.length) →
      Region_copy_walk O F cur w N = .ok (rc, w', N') →
      (AllocOK w → rc = SUCCESS ∧ AllocOK w')
      ∧ (rc = SUCCESS →
          forward N'.region_nodes
          ∧ (∀ b, N'.addr_region_base = some b → b < N'.region_nodes.length)
          ∧ N'.PageTable = N.PageTable ∧ N'.Proc_heap = N.Proc_heap
          ∧ w'.refcount = w.refcount ∧ same_devices w w') := by
  intro F
  induction F with
  | zero =>
    intro cur w N rc w' N' hf hb h
    cases cur with
    | some p => simp [Region_copy_walk] at h
    | none =>
      simp only [Region_copy_walk, Res.ok.injEq, Prod.mk.injEq] at h
      obtain ⟨h1, h2, h3⟩ := h
      subst h1 h2 h3
      exact ⟨fun hA => ⟨rfl, hA⟩, fun _ => ⟨hf, hb, rfl, rfl, rfl, same_devices_refl _⟩⟩
  | succ F ih =>
    intro cur w N rc w' N' hf hb h
    cases cur with
    | none =>
      simp only [Region_copy_walk, Res.ok.injEq, Prod.mk.injEq] at h
      obtain ⟨h1, h2, h3⟩ := h
      subst h1 h2 h3
      exact ⟨fun hA => ⟨rfl, hA⟩, fun _ => ⟨hf, hb, rfl, rfl, rfl, same_devices_refl _⟩⟩
    | some p =>
      simp only [Region_copy_walk] at h
      cases hp : O[p]? with
      | none => simp [hp] at h
      | some r =>
        simp only [hp] at h
        have kf := kmalloc_frame w
        cases hk : kmalloc w with
        | mk b w1 =>
          rw [hk] at kf
          simp only [hk] at h
          cases b with
          | false =>
            simp only at h
            cases hd : as_destroy w1 N with
            | trap => simp [hd] at h
            | hang => simp [hd] at h
            | ok w2 =>
              simp only [hd, Res.ok.injEq, Prod.mk.injEq] at h
              obtain ⟨h1, -, -⟩ := h
              subst h1
              refine ⟨?_, fun hc => by simp [ENOMEM, SUCCESS] at hc⟩
              intro hA
              have := (kmalloc_AllocOK w hA).1
              rw [hk] at this
              cases this
          | true =>
            simp only at h
            have hstep : ∃ nodes1, (nodes1.length = N.region_nodes.length
                ∧ forward (nodes1 ++ [{ r with next := none }]))
                ∧ Region_copy_walk O F r.next w1
                    { N with
                      region_nodes := nodes1 ++ [{ r with next := none }]
                      addr_region_base :=
                        match N.addr_region_base with
                        | none => some N.region_nodes.length
                        | some b => some b
                      addr_region_end :=
                        if r.base_addr < USERSTACK - STACK_LIMIT then some N.region_nodes.length
                        else N.addr_region_end }
                    = .ok (rc, w', N') := by
              cases he : N.addr_region_end with
              | none =>
                refine ⟨N.region_nodes, forward_link_step _ _ _ hf rfl (Or.inl rfl), ?_⟩
                simpa [he] using h
              | some e =>
                cases hre : N.region_nodes[e]? with
                | none => simp [he, hre] at h
                | some rl =>
                  refine ⟨_, forward_link_step _ _ _ hf rfl (Or.inr ⟨e, rl, hre, rfl⟩), ?_⟩
                  simpa [he, hre] using h
            clear h
            obtain ⟨nodes1, ⟨hlen1, hfw1⟩, h⟩ := hstep
            have hb1 : ∀ b, (match N.addr_region_base with
                | none => some N.region_nodes.length
                | some b => some b) = some b →
                b < (nodes1 ++ [{ r with next := none }]).length := by
              intro b hbb
              simp only [List.length_append, List.length_singleton, hlen1]
              cases hnb : N.addr_region_base with
              | none => rw [hnb] at hbb; simp at hbb; omega
              | some b0 =>
                rw [hnb] at hbb
                simp at hbb
                have := hb b0 hnb
                omega
            obtain ⟨g1, g2⟩ := ih r.next w1 _ rc w' N' hfw1 hb1 h
            refine ⟨?_, ?_⟩
            · intro hA
              exact g1 (kf.2.2 hA)
            · intro hrc
              obtain ⟨a1, a2, a3, a4, a5, a6⟩ := g2 hrc
              exact ⟨a1, a2, a3, a4, a5.trans kf.1, same_devices_trans kf.2.1 a6⟩

theorem as_create_AllocOK (w : World) (hA : AllocOK w) :
    ∃ w1, as_create w = .ok (some empty_as, w1) ∧ AllocOK w1 ∧ w1.refcount = w.refcount := by
  obtain ⟨a1, a2, -, a4⟩ := kmalloc_AllocOK w hA
  obtain ⟨b1, b2, -, b4⟩ := kmalloc_AllocOK _ a2
  obtain ⟨c1, c2, -, c4⟩ := kmalloc_AllocOK _ b2
  obtain ⟨d1, d2, -, d4⟩ := kmalloc_AllocOK _ c2
  refine ⟨(kmalloc (kmalloc (kmalloc (kmalloc w).2).2).2).2, ?_, d2, ?_⟩
  · unfold as_create Page_table_Set
    have e1 : kmalloc w = (true, (kmalloc w).2) := by rw [← a1]
    rw [e1]
    simp only
    have e2 : kmalloc (kmalloc w).2 = (true, (kmalloc (kmalloc w).2).2) := by rw [← b1]
    rw [e2]
    simp only
    have e3 : kmalloc (kmalloc (kmalloc w).2).2
        = (true, (kmalloc (kmalloc (kmalloc w).2).2).2) := by rw [← c1]
    rw [e3]
    simp only
    have e4 : kmalloc (kmalloc (kmalloc (kmalloc w).2).2).2
        = (true, (kmalloc (kmalloc (kmalloc (kmalloc w).2).2).2).2) := by rw [← d1]
    rw [e4]
    rfl
  · rw [d4, c4, b4, a4]

theorem as_copy_success (w : World) (src : addrspace)
    (res : Nat × World × addrspace × Option addrspace)
    (hA : AllocOK w) (h : as_copy w src = .ok res) (h0 : res.1 = SUCCESS) :
    ∃ (N1 : addrspace) (w2 : World) (oPT nPT : PageTable),
      res.2.2.1 = { src with PageTable := oPT }
      ∧ res.2.2.2 = some { N1 with
          Proc_heap := { N1.Proc_heap with
            base_heap_addr := src.Proc_heap.base_heap_addr
            cur_heap_break := src.Proc_heap.cur_heap_break }
          PageTable := nPT }
      ∧ forward N1.region_nodes
      ∧ (∀ b, N1.addr_region_base = some b → b < N1.region_nodes.length)
      ∧ AllocOK w2 ∧ w2.refcount = w.refcount
      ∧ Page_table_copy w2 src.PageTable empty_as.PageTable = .ok (SUCCESS, res.2.1, oPT, nPT) := by
  obtain ⟨rc, wr, src1, ret⟩ := res
  simp only at h0
  subst h0
  unfold as_copy at h
  simp only [err_handling_as_copy, SUCCESS, ne_eq, not_true_eq_false, if_false] at h
  obtain ⟨w1, hc, hA1, hr1⟩ := as_create_AllocOK w hA
  simp only [hc] at h
  cases hr : Region_copy w1 src empty_as with
  | trap => simp [hr] at h
  | hang => simp [hr] at h
  | ok y =>
    obtain ⟨rc1, w2, N1⟩ := y
    simp only [hr] at h
    obtain ⟨g1, g2⟩ := Region_copy_walk_frame src.region_nodes _ _ w1 empty_as rc1 w2 N1
      (by intro i r hi; simp [empty_as] at hi) (by intro b hb; simp [empty_as] at hb) hr
    obtain ⟨hrc, hA2⟩ := g1 hA1
    obtain ⟨f1, f2, f3, f4, f5, -⟩ := g2 hrc
    subst hrc
    simp only [SUCCESS, ne_eq, not_true_eq_false, if_false] at h
    rw [f3] at h
    cases hp : Page_table_copy w2 src.PageTable empty_as.PageTable with
    | trap => simp [hp] at h
    | hang => simp [hp] at h
    | ok z =>
      obtain ⟨cp, w3, oPT, nPT⟩ := z
      simp only [hp] at h
      by_cases hcp : cp = 0
      · subst hcp
        simp only [not_true_eq_false, if_false, Res.ok.injEq, Prod.mk.injEq] at h
        obtain ⟨-, hw, hs, hd⟩ := h
        subst hw; subst hs; subst hd
        exact ⟨N1, w2, oPT, nPT, rfl, rfl, f1, f2, hA2, f5.trans hr1, hp⟩
      · simp only [hcp, not_false_eq_true, if_true] at h
        split at h
        · simp only [Res.ok.injEq, Prod.mk.injEq] at h
          exact absurd h.1 hcp
        · cases h
        · cases h

theorem table_wf_level2 (pt : PageTable) (hwf : table_wf pt) (i : Nat) (hi : i < LEVEL1_LIMIT) :
    ∀ l2 j l3 k, pt.Pages i = some l2 → j < LEVEL2_AND_3_LIMIT → l2 j = .ptr l3 →
      k < LEVEL2_AND_3_LIMIT → pte_wf (l3 k) := by
  intro l2 j l3 k h1 hj h2 hk
  have := hwf i j k hi hj hk
  simpa [pte_at, h1, h2] using this

theorem copy_then_free (w : World) (oldPT newPT : PageTable)
    (r : Nat × World × PageTable × PageTable) (hA : AllocOK w) (hwf : table_wf oldPT)
    (h : Page_table_copy w oldPT newPT = .ok r) :
    ∃ w2, Page_table_free r.2.1 r.2.2.2 = .ok w2
      ∧ (∀ f, w2.refcount f = w.refcount f) ∧ same_devices w w2 ∧ AllocOK w2 := by
  obtain ⟨rc, w', o', n'⟩ := r
  obtain ⟨-, -, h3, h4, h5, h6⟩ :=
    Page_table_copy_loop_spec LEVEL1_LIMIT 0 w oldPT newPT rc w' o' n' hA h
  have hnj := Page_table_copy_loop_nojunk LEVEL1_LIMIT 0 w oldPT newPT _ hA h
  have hpages : ∀ i, i < LEVEL1_LIMIT → n'.Pages i = (oldPT.Pages i).map copy_level2 := by
    intro i hi
    rw [h3 i, if_pos ⟨Nat.zero_le _, by omega⟩]
  have hfree := Page_table_free_one_spec n' LEVEL1_LIMIT w' (by
    intro i l2 j hi hl hj
    rw [hpages i hi] at hl
    cases ho : oldPT.Pages i with
    | none => rw [ho] at hl; cases hl
    | some l2o =>
      rw [ho] at hl
      simp only [Option.map_some', Option.some.injEq] at hl
      subst hl
      have := hnj i l2o j (Nat.zero_le _) (by omega) ho hj
      simp only [copy_level2, hj, if_true]
      cases hs : l2o j with
      | junk => exact absurd hs this
      | null => simp [copy_slot]
      | ptr l3 => simp [copy_slot])
  refine ⟨_, hfree, ?_, ?_, ?_⟩
  · intro f
    simp only
    rw [h6 f, sum_from_zero]
    have : sum_below LEVEL1_LIMIT (fun i => level2_frees (n'.Pages i) f)
        = sum_below LEVEL1_LIMIT (fun i' => level2_refs (oldPT.Pages i') f) := by
      apply sum_below_congr
      intro i hi
      rw [hpages i hi]
      exact level2_frees_copy _ _ (table_wf_level2 oldPT hwf i hi)
    rw [this]
    exact Nat.add_sub_cancel _ _
  · exact ⟨h5.1, h5.2.1, h5.2.2.1, h5.2.2.2.1, h5.2.2.2.2.1, h5.2.2.2.2.2⟩
  · exact h4

theorem as_copy_destroy_restores (w : World) (src : addrspace)
    (res : Nat × World × addrspace × Option addrspace)
    (hA : AllocOK w) (hwf : table_wf src.PageTable)
    (h : as_copy w src = .ok res) (h0 : res.1 = SUCCESS) :
    ∃ dst w2, res.2.2.2 = some dst ∧ as_destroy res.2.1 dst = .ok w2
      ∧ (∀ f, w2.refcount f = w.refcount f) ∧ AllocOK w2 := by
  obtain ⟨N1, wa, oPT, nPT, e1, e2, e3, e4, e5, e6, e7⟩ := as_copy_success w src res hA h h0
  obtain ⟨w2, c1, c2, -, c4⟩ := copy_then_free wa src.PageTable empty_as.PageTable _ e5 hwf e7
  refine ⟨_, w2, e2, ?_, fun f => (c2 f).trans (congrFun e6 f), c4⟩
  unfold as_destroy
  dsimp only
  have hwalk : as_destroy_walk N1.region_nodes N1.region_nodes.length N1.addr_region_base
      = .ok () := by
    cases hb : N1.addr_region_base with
    | none => cases N1.region_nodes.length <;> rfl
    | some b => exact as_destroy_walk_forward _ e3 _ _ (by omega) (e4 b hb)
  rw [hwalk]
  exact c1

theorem Page_table_copy_loop_none (oldPT : PageTable) (ho : ∀ i, oldPT.Pages i = none) (n : Nat) :
    ∀ (i : Nat) (w : World) (newPT : PageTable),
      ∃ n', Page_table_copy_loop n i w oldPT newPT = .ok (SUCCESS, w, oldPT, n') := by
  induction n with
  | zero => intro i w newPT; exact ⟨newPT, rfl⟩
  | succ n ih =>
    intro i w newPT
    simp only [Page_table_copy_loop, ho]
    exact ih _ _ _

theorem Region_copy_walk_none (O : List addrspace_region) (F : Nat) (w : World)
    (N : addrspace) : Region_copy_walk O F none w N = .ok (SUCCESS, w, N) := by
  cases F <;> rfl

theorem as_copy_empty_total (w : World) (hA : AllocOK w) :
    ∃ res, as_copy w empty_as = .ok res ∧ res.1 = SUCCESS := by
  obtain ⟨w1, hc, hA1, hr1⟩ := as_create_AllocOK w hA
  obtain ⟨n', hp⟩ := Page_table_copy_loop_none empty_as.PageTable (fun _ => rfl)
    LEVEL1_LIMIT 0 w1 empty_as.PageTable
  refine ⟨(SUCCESS, w1, { empty_as with PageTable := empty_as.PageTable },
    some { empty_as with PageTable := n' }), ?_, rfl⟩
  unfold as_copy
  rw [if_neg (by simp [err_handling_as_copy, SUCCESS]), hc]
  have hrc : Region_copy w1 empty_as empty_as = .ok (0, w1, empty_as) :=
    Region_copy_walk_none _ _ _ _
  dsimp only
  rw [hrc]
  dsimp only
  rw [if_neg (by simp)]
  have hp' : Page_table_copy w1 empty_as.PageTable empty_as.PageTable
      = .ok (0, w1, empty_as.PageTable, n') := hp
  rw [hp']
  dsimp only
  rw [if_neg (by simp)]

theorem table_wf_empty : table_wf empty_as.PageTable := by
  intro i j k _ _ _ h
  exact absurd rfl h

theorem as_destroy_unmapped (w : World) (as : addrspace) (hn : as.region_nodes = [])
    (hb : as.addr_region_base = none) (hp : ∀ i, i < LEVEL1_LIMIT → as.PageTable.Pages i = none) :
    ∃ w1, as_destroy w as = .ok w1 ∧ ∀ f, w1.refcount f = w.refcount f := by
  have hfree := Page_table_free_one_spec as.PageTable LEVEL1_LIMIT w (by
    intro i l2 j hi hl _
    rw [hp i hi] at hl; cases hl)
  refine ⟨{ w with refcount := (fun f =>
      w.refcount f - sum_below LEVEL1_LIMIT (fun i => level2_frees (as.PageTable.Pages i) f)) },
    ?_, ?_⟩
  · unfold as_destroy
    rw [hn, hb]
    exact hfree
  · intro f
    simp only
    have : sum_below LEVEL1_LIMIT (fun i => level2_frees (as.PageTable.Pages i) f) = 0 := by
      apply sum_below_zero
      intro i hi
      rw [hp i hi]; rfl
    rw [this]; rfl

/-- Copy and destruction when no allocation fails: when `as_copy` returns 0,
`as_destroy` of the
copy returns and leaves every frame with the reference count it had before
`as_copy`; and `as_create`, `as_copy` and `as_destroy` of both address spaces
all return and leave every reference count as it was before `as_create`. No
non-zero PTE of the source is `DIRTY` alone or names a frame whose kernel
address is NULL; a PTE with `VALID` set and a frame below `KSEG0` is neither. -/
theorem as_copy_then_destroy (w : World) (src : addrspace)
    (res : Nat × World × addrspace × Option addrspace)
    (hA : AllocOK w) (hwf : table_wf src.PageTable)
    (h : as_copy w src = .ok res) (h0 : res.1 = SUCCESS) :
    (∃ dst w2, res.2.2.2 = some dst ∧ as_destroy res.2.1 dst = .ok w2
      ∧ ∀ f, w2.refcount f = w.refcount f)
    ∧ (∀ w0, AllocOK w0 →
        ∃ (w1 : World) (r : Nat × World × addrspace × Option addrspace) (B : addrspace)
          (w3 w4 : World),
          as_create w0 = .ok (some empty_as, w1)
          ∧ as_copy w1 empty_as = .ok r ∧ r.1 = SUCCESS ∧ r.2.2.2 = some B
          ∧ as_destroy r.2.1 B = .ok w3
          ∧ as_destroy w3 r.2.2.1 = .ok w4
          ∧ ∀ f, w4.refcount f = w0.refcount f) := by
  refine ⟨?_, ?_⟩
  · obtain ⟨dst, w2, a1, a2, a3, -⟩ := as_copy_destroy_restores w src res hA hwf h h0
    exact ⟨dst, w2, a1, a2, a3⟩
  · intro w0 hA0
    obtain ⟨w1, hc, hA1, hr1⟩ := as_create_AllocOK w0 hA0
    obtain ⟨r, hr, hr0⟩ := as_copy_empty_total w1 hA1
    obtain ⟨B, w3, b1, b2, b3, -⟩ :=
      as_copy_destroy_restores w1 empty_as r hA1 table_wf_empty hr hr0
    obtain ⟨N1, wa, oPT, nPT, e1, -, -, -, e5, -, e7⟩ := as_copy_success w1 empty_as r hA1 hr hr0
    obtain ⟨-, h2, -, -, -, -⟩ :=
      Page_table_copy_loop_spec LEVEL1_LIMIT 0 wa empty_as.PageTable empty_as.PageTable
        _ _ _ _ e5 e7
    obtain ⟨w4, d1, d2⟩ := as_destroy_unmapped w3 r.2.2.1 (by rw [e1]; rfl) (by rw [e1]; rfl)
      (by
        intro i hi
        rw [e1]
        simp only
        rw [h2 i, if_pos ⟨Nat.zero_le _, by omega⟩]
        rfl)
    refine ⟨w1, r, B, w3, w4, hc, hr, hr0, b1, b2, d1, ?_⟩
    intro f
    rw [d2 f, b3 f, hr1]

theorem pte_at_init_level_two (w w1 : World) (as as1 : addrspace) (FLI rc : Nat)
    (h : init_level_two w as FLI = .ok (rc, w1, as1)) (hn : as.PageTable.Pages FLI = none) :
    ∀ i j k, pte_at as1.PageTable i j k = pte_at as.PageTable i j k := by
  intro i j k
  unfold init_level_two at h
  split at h
  · cases h
  · split at h
    all_goals
      simp only [Res.ok.injEq, Prod.mk.injEq] at h
      obtain ⟨-, -, h⟩ := h
      subst h
      unfold pte_at
      by_cases hi : i = FLI
      · subst hi; simp [store, hn]
      · simp [store, hi]

theorem pte_at_init_level_three (w w1 : World) (as as1 : addrspace) (FLI SLI rc : Nat)
    (h : init_level_three w as FLI SLI = .ok (rc, w1, as1))
    (hn : ∀ l2, as.PageTable.Pages FLI = some l2 → l2 SLI = Slot.null) :
    ∀ i j k, pte_at as1.PageTable i j k = pte_at as.PageTable i j k := by
  intro i j k
  unfold init_level_three at h
  split at h
  · cases h
  · split at h
    · cases h
    · rename_i l2 hl2
      have hs := hn l2 hl2
      split at h
      all_goals
        simp only [Res.ok.injEq, Prod.mk.injEq] at h
        obtain ⟨-, -, h⟩ := h
        subst h
        unfold pte_at
        by_cases hi : i = FLI
        · subst hi
          by_cases hj : j = SLI
          · subst hj; simp [store, hl2, hs]
          · simp [store, hl2, hj]
        · simp [store, hi]

theorem init_level_two_fresh (w w1 : World) (as as1 : addrspace) (FLI rc : Nat)
    (h : init_level_two w as FLI = .ok (rc, w1, as1)) :
    ∀ l2, as1.PageTable.Pages FLI = some l2 → ∀ j, l2 j = Slot.null := by
  intro l2 hl j
  unfold init_level_two at h
  split at h
  · cases h
  · split at h
    all_goals
      simp only [Res.ok.injEq, Prod.mk.injEq] at h
      obtain ⟨-, -, h⟩ := h
      subst h
      simp [store] at hl
    subst hl
    rfl

theorem pte_at_Insert (w w1 : World) (as as1 : addrspace) (FLI SLI TLI e rc : Nat)
    (h : Page_table_Insert w as FLI SLI TLI e = .ok (rc, w1, as1)) :
    ∀ i j k, pte_at as1.PageTable i j k
      = if i = FLI ∧ j = SLI ∧ k = TLI then e else pte_at as.PageTable i j k := by
  unfold Page_table_Insert at h
  split at h
  · cases h
  · cases hb : Page_table_Insert_both w as FLI SLI with
    | trap => simp [hb] at h
    | hang => simp [hb] at h
    | ok x =>
      obtain ⟨wa, asa⟩ := x
      simp only [hb] at h
      cases ht : Page_table_Insert_three wa asa FLI SLI with
      | trap => simp [ht] at h
      | hang => simp [ht] at h
      | ok y =>
        obtain ⟨wb, asb⟩ := y
        simp only [ht] at h
        cases hw : Page_table_write asb FLI SLI TLI e with
        | trap => simp [hw] at h
        | hang => simp [hw] at h
        | ok asc =>
          simp only [hw, Res.ok.injEq, Prod.mk.injEq] at h
          obtain ⟨-, -, h⟩ := h
          subst h
          have e1 : ∀ i j k, pte_at asa.PageTable i j k = pte_at as.PageTable i j k := by
            unfold Page_table_Insert_both at hb
            split at hb
            · rename_i hnone
              cases h2 : init_level_two w as FLI with
              | trap => simp [h2] at hb
              | hang => simp [h2] at hb
              | ok z =>
                obtain ⟨r2, w2, as2⟩ := z
                simp only [h2] at hb
                cases h3 : init_level_three w2 as2 FLI SLI with
                | trap => simp [h3] at hb
                | hang => simp [h3] at hb
                | ok z3 =>
                  obtain ⟨r3, w3, as3⟩ := z3
                  simp only [h3, Res.ok.injEq, Prod.mk.injEq] at hb
                  obtain ⟨-, hb⟩ := hb
                  subst hb
                  intro i j k
                  rw [pte_at_init_level_three _ _ _ _ _ _ _ h3
                    (fun l2 hl => init_level_two_fresh _ _ _ _ _ _ h2 l2 hl SLI),
                    pte_at_init_level_two _ _ _ _ _ _ h2 hnone]
            · simp only [Res.ok.injEq, Prod.mk.injEq] at hb
              obtain ⟨-, hb⟩ := hb
              subst hb
              intro i j k; rfl
          have e2 : ∀ i j k, pte_at asb.PageTable i j k = pte_at asa.PageTable i j k := by
            unfold Page_table_Insert_three at ht
            split at ht
            · simp only [Res.ok.injEq, Prod.mk.injEq] at ht
              obtain ⟨-, ht⟩ := ht
              subst ht
              intro i j k; rfl
            · rename_i l2 hl2
              split at ht
              · rename_i hnull
                cases h3 : init_level_three wa asa FLI SLI with
                | trap => simp [h3] at ht
                | hang => simp [h3] at ht
                | ok z3 =>
                  obtain ⟨r3, w3, as3⟩ := z3
                  simp only [h3, Res.ok.injEq, Prod.mk.injEq] at ht
                  obtain ⟨-, ht⟩ := ht
                  subst ht
                  exact pte_at_init_level_three _ _ _ _ _ _ _ h3 (by
                    intro l2' hl2'
                    rw [hl2] at hl2'
                    cases hl2'
                    exact hnull)
              · cases ht
              · simp only [Res.ok.injEq, Prod.mk.injEq] at ht
                obtain ⟨-, ht⟩ := ht
                subst ht
                intro i j k; rfl
          intro i j k
          unfold Page_table_write at hw
          split at hw
          · cases hw
          · split at hw
            · cases hw
            · rename_i l2 hl2
              split at hw
              · cases hw
              · cases hw
              · rename_i l3 hl3
                simp only [Res.ok.injEq] at hw
                subst hw
                simp only
                rw [pte_at_write _ _ _ _ _ _ _ hl2 hl3, e2, e1]

theorem table_wf_Insert (w w1 : World) (as as1 : addrspace) (FLI SLI TLI e rc : Nat)
    (hwf : table_wf as.PageTable) (he : pte_wf e)
    (h : Page_table_Insert w as FLI SLI TLI e = .ok (rc, w1, as1)) :
    table_wf as1.PageTable := by
  intro i j k hi hj hk
  rw [pte_at_Insert _ _ _ _ _ _ _ _ _ h]
  split
  · exact he
  · exact hwf i j k hi hj hk

/-! ## The region store of reachable address spaces -/

theorem chain_walk_forward (L : List addrspace_region) (hf : forward L) :
    ∀ (fuel p : Nat), L.length - p ≤ fuel → p < L.length →
      ∃ C, chain_walk L fuel (some p) = .ok C := by
  intro fuel
  induction fuel with
  | zero => intro p h1 h2; omega
  | succ fuel ih =>
    intro p h1 h2
    simp only [chain_walk, List.getElem?_eq_getElem h2]
    cases hn : L[p].next with
    | none => exact ⟨[L[p]], by cases fuel <;> rfl⟩
    | some j =>
      obtain ⟨a, b⟩ := hf p L[p] (List.getElem?_eq_getElem h2) j hn
      obtain ⟨C, hC⟩ := ih j (by omega) b
      exact ⟨L[p] :: C, by rw [hC]⟩

theorem region_chain_of_chain_inv (as : addrspace) (h : chain_inv as) :
    ∃ C, region_chain as = .ok C := by
  unfold region_chain
  cases hb : as.addr_region_base with
  | none => exact ⟨[], by cases as.region_nodes.length <;> rfl⟩
  | some b => exact chain_walk_forward _ h.1 _ _ (by omega) (h.2.1 b hb)

theorem link_chain_inv (as : addrspace) (node : addrspace_region) (nodes1 : List addrspace_region)
    (hi : chain_inv as) (hnext : node.next = none)
    (hlatch : node.is_readonly = true → node.writeable = 0)
    (hn1 : (nodes1 = as.region_nodes ∧ as.addr_region_end = none)
        ∨ ∃ e rl, as.addr_region_end = some e ∧ as.region_nodes[e]? = some rl
            ∧ nodes1 = as.region_nodes.set e { rl with next := some as.region_nodes.length }) :
    chain_inv { as with
      region_nodes := nodes1 ++ [node]
      addr_region_base := (match as.addr_region_base with
        | none => some as.region_nodes.length
        | some b => some b)
      addr_region_end :=
        if node.base_addr < USERSTACK - STACK_LIMIT then some as.region_nodes.length
        else as.addr_region_end } := by
  obtain ⟨i1, i2, i3, i4, i5⟩ := hi
  have hstep := forward_link_step as.region_nodes nodes1 node i1 hnext
    (by
      rcases hn1 with ⟨h1, -⟩ | ⟨e, rl, -, hrl, h1⟩
      · exact Or.inl h1
      · exact Or.inr ⟨e, rl, hrl, h1⟩)
  obtain ⟨hlen, hfw⟩ := hstep
  have hget : ∀ (i : Nat) (q : addrspace_region), (nodes1 ++ [node])[i]? = some q →
      (i = as.region_nodes.length ∧ q = node)
      ∨ (i < as.region_nodes.length ∧ as.region_nodes[i]? = some q)
      ∨ (i < as.region_nodes.length ∧ ∃ rl, as.region_nodes[i]? = some rl
          ∧ rl.base_addr < USERSTACK - STACK_LIMIT
          ∧ q = { rl with next := some as.region_nodes.length }) := by
    intro i q hq
    by_cases hlt : i < as.region_nodes.length
    · rw [List.getElem?_append_left (by omega)] at hq
      rcases hn1 with ⟨h1, -⟩ | ⟨e, rl, he, hrl, h1⟩
      · subst h1; exact Or.inr (Or.inl ⟨hlt, hq⟩)
      · subst h1
        by_cases hei : e = i
        · subst hei
          rw [List.getElem?_set_self hlt] at hq
          simp only [Option.some.injEq] at hq
          obtain ⟨re, hre, hlim⟩ := i3 e he
          rw [hrl] at hre
          simp only [Option.some.injEq] at hre
          subst hre
          exact Or.inr (Or.inr ⟨hlt, rl, hrl, hlim, hq.symm⟩)
        · rw [List.getElem?_set_ne hei] at hq
          exact Or.inr (Or.inl ⟨hlt, hq⟩)
    · by_cases heq : i = as.region_nodes.length
      · subst heq
        rw [List.getElem?_append_right (by omega)] at hq
        simp [hlen] at hq
        exact Or.inl ⟨rfl, hq.symm⟩
      · rw [List.getElem?_eq_none (by simp; omega)] at hq
        cases hq
  refine ⟨hfw, ?_, ?_, ?_, ?_⟩
  · intro b hb
    simp only [List.length_append, List.length_singleton, hlen]
    simp only at hb
    cases hnb : as.addr_region_base with
    | none => rw [hnb] at hb; simp at hb; omega
    | some b0 =>
      rw [hnb] at hb
      simp at hb
      have := i2 b0 hnb
      omega
  · intro e he
    simp only at he ⊢
    by_cases hv : node.base_addr < USERSTACK - STACK_LIMIT
    · rw [if_pos hv] at he
      simp only [Option.some.injEq] at he
      subst he
      refine ⟨node, ?_, hv⟩
      rw [List.getElem?_append_right (by omega)]
      simp [hlen]
    · rw [if_neg hv] at he
      obtain ⟨re, hre, hlim⟩ := i3 e he
      have helt : e < as.region_nodes.length := by
        by_contra hc
        rw [List.getElem?_eq_none (by omega)] at hre
        cases hre
      have hsome : ∃ q, (nodes1 ++ [node])[e]? = some q := by
        rw [List.getElem?_eq_getElem (by simp; omega)]
        exact ⟨_, rfl⟩
      obtain ⟨q, hq⟩ := hsome
      refine ⟨q, hq, ?_⟩
      rcases hget e q hq with ⟨h0, -⟩ | ⟨-, h1⟩ | ⟨-, rl, hrl, hl2, h1⟩
      · omega
      · rw [hre] at h1
        simp only [Option.some.injEq] at h1
        subst h1; exact hlim
      · subst h1; exact hl2
  · intro q hq hge
    obtain ⟨i, hi⟩ := List.mem_iff_getElem?.mp hq
    rcases hget i q hi with ⟨-, h1⟩ | ⟨-, h1⟩ | ⟨-, rl, -, hlim, h1⟩
    · subst h1; exact hnext
    · exact i4 q (List.getElem?_mem h1) hge
    · subst h1
      simp only at hge
      omega
  · intro q hq hro
    obtain ⟨i, hi⟩ := List.mem_iff_getElem?.mp hq
    rcases hget i q hi with ⟨-, h1⟩ | ⟨-, h1⟩ | ⟨-, rl, hrl, -, h1⟩
    · subst h1; exact hlatch hro
    · exact i5 q (List.getElem?_mem h1) hro
    · subst h1
      exact i5 rl (List.getElem?_mem hrl) hro

theorem Create_Region_chain_inv (as as1 : addrspace) (v s r wr x : Nat)
    (hi : chain_inv as) (h : Create_Region as v s r wr x = .ok as1) : chain_inv as1 := by
  unfold Create_Region at h
  simp only at h
  split at h
  · cases h
  · rename_i nodes1 hm
    simp only [Res.ok.injEq] at h
    subst h
    have hn1 : (nodes1 = as.region_nodes ∧ as.addr_region_end = none)
        ∨ ∃ e rl, as.addr_region_end = some e ∧ as.region_nodes[e]? = some rl
            ∧ nodes1 = as.region_nodes.set e
                { rl with next := some as.region_nodes.length } := by
      cases he : as.addr_region_end with
      | none =>
        rw [he] at hm
        simp only [Option.some.injEq] at hm
        exact Or.inl ⟨hm.symm, rfl⟩
      | some e =>
        rw [he] at hm
        cases hrl : as.region_nodes[e]? with
        | none => simp [hrl] at hm
        | some rl =>
          simp only [hrl, Option.some.injEq] at hm
          exact Or.inr ⟨e, rl, rfl, hrl, hm.symm⟩
    refine link_chain_inv as _ nodes1 hi ?_ ?_ hn1
    · rfl
    · intro hro
      simp only [decide_eq_true_eq] at hro
      exact hro.2

theorem as_define_region_chain_inv (w : World) (as : addrspace) (v s r wr x : Nat)
    (res : Nat × World × addrspace) (hi : chain_inv as)
    (h : as_define_region w as v s r wr x = .ok res) : chain_inv res.2.2 := by
  rcases as_define_region_cases w as v s r wr x res h with ⟨-, h1, -⟩ | ⟨-, h1⟩
  · rw [h1]; exact hi
  · exact Create_Region_chain_inv _ _ _ _ _ _ _ hi h1

theorem as_define_stack_chain_inv (w : World) (as : addrspace)
    (res : Nat × Nat × World × addrspace) (hi : chain_inv as)
    (h : as_define_stack w as = .ok res) : chain_inv res.2.2.2 := by
  unfold as_define_stack at h
  split at h
  · cases h; exact hi
  · simp only at h
    cases hd : as_define_region w as (USERSTACK - STACK_LIMIT) STACK_LIMIT PF_R PF_W 0 with
    | trap => simp [hd] at h
    | hang => simp [hd] at h
    | ok x =>
      have := as_define_region_chain_inv _ _ _ _ _ _ _ _ hi hd
      obtain ⟨e, w1, as1⟩ := x
      simp only [hd] at h
      split at h <;> (cases h; exact this)

theorem as_set_process_break_regions (as : addrspace) (amount : Int)
    (res : Nat × Option Nat × addrspace)
    (h : as_set_process_break as amount = .ok res) :
    res.2.2.region_nodes = as.region_nodes
    ∧ res.2.2.addr_region_base = as.addr_region_base
    ∧ res.2.2.addr_region_end = as.addr_region_end := by
  unfold as_set_process_break at h
  cases hl : lock_acquire as.Proc_heap.Heap_lock with
  | trap => simp [hl] at h
  | hang => simp [hl] at h
  | ok held =>
    simp only [hl] at h
    split at h
    · split at h
      · cases h
      · split at h
        · cases h
        · cases h; exact ⟨rfl, rfl, rfl⟩
    · split at h
      · cases h; exact ⟨rfl, rfl, rfl⟩
      · split at h <;> (cases h; exact ⟨rfl, rfl, rfl⟩)

theorem chain_inv_of_reachable (as : addrspace) (h : Reachable as) : chain_inv as := by
  induction h with
  | create w w1 as hc =>
    obtain ⟨he, -⟩ := as_create_value w w1 as hc
    subst he
    refine ⟨?_, ?_, ?_, ?_, ?_⟩
    · intro i r hi; simp [empty_as] at hi
    · intro b hb; simp [empty_as] at hb
    · intro e he; simp [empty_as] at he
    · intro r hr; simp [empty_as] at hr
    · intro r hr; simp [empty_as] at hr
  | define_region w w1 as as1 vaddr sz r wr x rc _ hd ih =>
    exact as_define_region_chain_inv _ _ _ _ _ _ _ _ ih hd
  | define_stack w w1 as as1 rc sp _ hd ih =>
    exact as_define_stack_chain_inv _ _ _ ih hd
  | set_break as as1 amount ret err _ hb ih =>
    obtain ⟨a1, a2, a3⟩ := as_set_process_break_regions as amount _ hb
    simp only at a1 a2 a3
    unfold chain_inv
    rw [a1, a2, a3]
    exact ih

/-! ## Lookup -/

/-- C25: `Page_table_lookup` returns 0 when the level-1 slot of the address
(bits 31..24) is absent or the level-2 slot under it (bits 23..18) is absent,
and otherwise returns the word stored at bits 17..12 of the level-3 array as
it is; it returns 0 at every address of an address space that `as_create` has
just returned. The function has no store, so the page table is unchanged. -/
theorem Page_table_lookup_verbatim (as : addrspace) (va : Nat) :
    (as.PageTable.Pages (va / 2 ^ 24 % 256) = none → Page_table_lookup as va = .ok 0)
    ∧ (∀ l2, as.PageTable.Pages (va / 2 ^ 24 % 256) = some l2 →
        l2 (va / 2 ^ 18 % 64) = Slot.null → Page_table_lookup as va = .ok 0)
    ∧ (∀ l2 l3, as.PageTable.Pages (va / 2 ^ 24 % 256) = some l2 →
        l2 (va / 2 ^ 18 % 64) = Slot.ptr l3 →
        Page_table_lookup as va = .ok (l3 (va / 2 ^ 12 % 64)))
    ∧ (∀ w w1, as_create w = .ok (some as, w1) → Page_table_lookup as va = .ok 0) := by
  rw [← FLI_of_eq, ← SLI_of_eq, ← TLI_of_eq]
  refine ⟨?_, ?_, ?_, ?_⟩
  · intro h; simp [Page_table_lookup, h]
  · intro l2 h1 h2; simp [Page_table_lookup, h1, h2]
  · intro l2 l3 h1 h2; simp [Page_table_lookup, h1, h2]
  · intro w w1 h
    obtain ⟨he, -⟩ := as_create_value w w1 as h
    subst he
    rfl

/-- Witness for C25: a mapped page, an unmapped page and a new address space. -/
theorem Page_table_lookup_verbatim_witness :
    Page_table_lookup ex_data_mapped 0x401abc = .ok 0x100600
    ∧ Page_table_lookup ex_data_mapped 0x7fff0000 = .ok 0
    ∧ Page_table_lookup empty_as 0x401abc = .ok 0 :=
  ⟨(Page_table_lookup_verbatim ex_data_mapped 0x401abc).2.2.1 _ (fun k => if k = 1 then 0x100600 else 0) rfl rfl,
   (Page_table_lookup_verbatim ex_data_mapped 0x7fff0000).1 rfl,
   (Page_table_lookup_verbatim empty_as 0x401abc).2.2.2 boot_world boot_world rfl⟩

/-! ## Evaluations: fork, chain and fault installs -/

theorem Res.eq_trap_of_isTrap {α : Type} (x : Res α) (h : x.isTrap = true) : x = .trap := by
  cases x <;> simp_all [Res.isTrap]

/-- C22, the code at the failing input: `as_copy` of an address space with one
region and one mapped page. When the allocation of the region node or of the
level-2 array fails, `as_copy` returns `ENOMEM` and stores nothing in `*ret`;
when the allocation of the level-3 array fails, `as_copy` returns 0 and hands
back a copy in which the page of `0x401000` is unmapped and the rest of the
level-2 array was never written. -/
theorem as_copy_level3_failure :
    Page_table_lookup ex_data_mapped 0x401000 = .ok 0x100600
    ∧ (as_copy (ex_world_kmallocs [true, true, true, true, false]) ex_data_mapped).isOk = true
    ∧ (ex_copy_with [true, true, true, true, false]).1 = ENOMEM
    ∧ (ex_copy_with [true, true, true, true, false]).2.2.2.isNone = true
    ∧ (as_copy (ex_world_kmallocs [true, true, true, true, true, false]) ex_data_mapped).isOk = true
    ∧ (ex_copy_with [true, true, true, true, true, false]).1 = ENOMEM
    ∧ (ex_copy_with [true, true, true, true, true, false]).2.2.2.isNone = true
    ∧ (as_copy (ex_world_kmallocs [true, true, true, true, true, true, false])
          ex_data_mapped).isOk = true
    ∧ (ex_copy_with [true, true, true, true, true, true, false]).1 = SUCCESS
    ∧ (ex_copy_with [true, true, true, true, true, true, false]).2.2.2.isSome = true
    ∧ Page_table_lookup
        ((ex_copy_with [true, true, true, true, true, true, false]).2.2.2.getD empty_as)
        0x401000 = .ok 0
    ∧ Page_table_lookup
        ((ex_copy_with [true, true, true, true, true, true, false]).2.2.2.getD empty_as)
        0x441000 = .trap := by
  decide!

/-- C26, the code at the failing input: a page that a region and the heap both
own. Before the WRITE fault no PTE has `DIRTY`; the fault returns 0 and
installs the PTE `DIRTY | VALID`, whose frame field is 0, while the count of
frame 0 is 0 and the allocated frame `0x100000` has count 1: the invariant on
writable PTEs no longer holds. -/
theorem dirty_pte_names_frame_zero :
    as_define_region boot_world ex_heap_grown 0x401000 0x1000 PF_R PF_W 0
        = .ok (SUCCESS, boot_world, ex_overlap)
    ∧ Lookup_Region ex_overlap 0x401000 = .ok (some 1)
    ∧ (Lookup_Heap ex_overlap 0x401000).isSome = true
    ∧ dirty_owned boot_world ex_overlap.PageTable
    ∧ (vm_fault boot_world ex_overlap VM_FAULT_WRITE 0x401000).isOk = true
    ∧ ex_overlap_fault.1 = SUCCESS
    ∧ Page_table_lookup ex_overlap_fault.2.2 0x401000 = .ok (TLBLO_DIRTY ||| TLBLO_VALID)
    ∧ (TLBLO_DIRTY ||| TLBLO_VALID) &&& PAGE_FRAME = 0
    ∧ ex_overlap_fault.2.1.refcount 0 = 0
    ∧ ex_overlap_fault.2.1.refcount 0x100000 = 1
    ∧ ¬ dirty_owned ex_overlap_fault.2.1 ex_overlap_fault.2.2.PageTable := by
  refine ⟨rfl, by decide!, by decide!, ?_, by decide!, by decide!, by decide!, by decide,
    by decide!, by decide!, ?_⟩
  · intro i j k _ _ _ h
    have hz : pte_at ex_overlap.PageTable i j k = 0 := rfl
    rw [hz] at h
    exact absurd rfl h
  · intro h
    have h1 := h 0 16 1 (by decide) (by decide) (by decide) (by decide!)
    revert h1
    decide!

/-- C27, the code at the failing input: with the stack defined first, a region
defined after it is accepted but the chain still holds the stack alone; with
the chain code, stack, a data region defined next is accepted and the chain
becomes code, data, the stack being no longer found. -/
theorem Create_Region_loses_regions :
    as_define_stack boot_world empty_as = .ok ex_stack
    ∧ ex_stack.1 = SUCCESS
    ∧ as_define_region boot_world ex_stack.2.2.2 0x400000 0x1000 PF_R 0 PF_X
        = .ok (SUCCESS, boot_world, ex_stack_first)
    ∧ (region_chain ex_stack.2.2.2).isOk = true
    ∧ ((region_chain ex_stack.2.2.2).getD []).map region_fields
        = [(0x7fff0000, 0x7fffffff, 4, 2, 0, false)]
    ∧ (region_chain ex_stack_first).isOk = true
    ∧ ((region_chain ex_stack_first).getD []).map region_fields
        = [(0x7fff0000, 0x7fffffff, 4, 2, 0, false)]
    ∧ Lookup_Region ex_stack_first 0x400000 = .ok none
    ∧ (as_define_stack boot_world ex_code).isOk = true
    ∧ ((as_define_stack boot_world ex_code).getD (1, 0, boot_world, ex_code)).1 = SUCCESS
    ∧ ((region_chain ex_code_stack).getD []).map region_fields
        = [(0x400000, 0x400fff, 4, 0, 1, true), (0x7fff0000, 0x7fffffff, 4, 2, 0, false)]
    ∧ Lookup_Region ex_code_stack 0x7fff0000 = .ok (some 1)
    ∧ as_define_region boot_world ex_code_stack 0x401000 0x1000 PF_R PF_W 0
        = .ok (SUCCESS, boot_world, ex_code_stack_data)
    ∧ (region_chain ex_code_stack_data).isOk = true
    ∧ ((region_chain ex_code_stack_data).getD []).map region_fields
        = [(0x400000, 0x400fff, 4, 0, 1, true), (0x401000, 0x401fff, 4, 2, 0, false)]
    ∧ Lookup_Region ex_code_stack_data 0x7fff0000 = .ok none :=
  ⟨rfl, by decide!, rfl, by decide!, by decide!, by decide!, by decide!, by decide!, by decide!,
   by decide!, by decide!, by decide!, rfl, by decide!, by decide!, by decide!⟩

/-- C28, the code at the failing input: a READONLY fault at a heap address that
lies in no region reads `Valid_Region->is_readonly` through a NULL pointer,
whether the page has a PTE without `DIRTY` or no PTE; so does a READONLY fault
in an mmap region. -/
theorem vm_fault_readonly_heap_traps :
    ex_heap_grown.Proc_heap.base_heap_addr = 0x401000
    ∧ ex_heap_grown.Proc_heap.cur_heap_break = 0x404000
    ∧ Lookup_Region ex_heap_shared 0x401100 = .ok none
    ∧ (Lookup_Heap ex_heap_shared 0x401100).isSome = true
    ∧ Page_table_lookup ex_heap_shared 0x401100 = .ok 0x100200
    ∧ ex_world2.refcount 0x100000 = 2
    ∧ vm_fault ex_world2 ex_heap_shared VM_FAULT_READONLY 0x401100 = .trap
    ∧ vm_fault boot_world ex_heap_grown VM_FAULT_READONLY 0x401100 = .trap
    ∧ Lookup_Region ex_mmap 0x7ffee000 = .ok none
    ∧ Lookup_Mmap ex_mmap 0x7ffee000 = .ok (some 0)
    ∧ vm_fault ex_world_file ex_mmap VM_FAULT_READONLY 0x7ffee000 = .trap :=
  ⟨by decide!, by decide!, by decide!, by decide!, by decide!, by decide!,
   Res.eq_trap_of_isTrap _ (by decide!), Res.eq_trap_of_isTrap _ (by decide!),
   by decide!, by decide!, Res.eq_trap_of_isTrap _ (by decide!)⟩

/-- C29, the code at the failing input: a WRITE fault on an unmapped page owned
by a region alone, or by the heap alone, reads `as_Freq->Num_pages` through a
NULL pointer; on a page owned by both it returns 0 with the PTE `0x600`, not
`0x100600`. Called with the region as only owner, `Page_table_Add` stores
`frame | DIRTY | VALID` for a writable region and the bare frame, without
`VALID`, for a region with no permission. -/
theorem fault_install_drops_frame :
    Lookup_Region ex_data 0x401000 = .ok (some 0)
    ∧ (Lookup_Heap ex_data 0x401000).isNone = true
    ∧ Page_table_lookup ex_data 0x401000 = .ok 0
    ∧ vm_fault boot_world ex_data VM_FAULT_WRITE 0x401000 = .trap
    ∧ Lookup_Region ex_heap_grown 0x401100 = .ok none
    ∧ (Lookup_Heap ex_heap_grown 0x401100).isSome = true
    ∧ vm_fault boot_world ex_heap_grown VM_FAULT_WRITE 0x401100 = .trap
    ∧ (vm_fault boot_world ex_overlap VM_FAULT_WRITE 0x401000).isOk = true
    ∧ ex_overlap_fault.1 = SUCCESS
    ∧ ex_overlap_fault.2.1.refcount 0x100000 = 1
    ∧ Page_table_lookup ex_overlap_fault.2.2 0x401000 = .ok 0x600
    ∧ 0x100000 ||| TLBLO_VALID ||| TLBLO_DIRTY = 0x100600
    ∧ (Page_table_Add ex_world1 0x401000 0x100000 (some 0) none none ex_data).isOk = true
    ∧ Page_table_lookup
        ((Page_table_Add ex_world1 0x401000 0x100000 (some 0) none none ex_data).getD
          (1, ex_world1, ex_data)).2.2 0x401000 = .ok 0x100600
    ∧ (region_at ex_noperm 0).map region_fields = some (0x401000, 0x401fff, 0, 0, 0, false)
    ∧ (Page_table_Add ex_world1 0x401000 0x100000 (some 0) none none ex_noperm).isOk = true
    ∧ Page_table_lookup
        ((Page_table_Add ex_world1 0x401000 0x100000 (some 0) none none ex_noperm).getD
          (1, ex_world1, ex_noperm)).2.2 0x401000 = .ok 0x100000 :=
  ⟨by decide!, by decide!, by decide!, Res.eq_trap_of_isTrap _ (by decide!), by decide!,
   by decide!, Res.eq_trap_of_isTrap _ (by decide!), by decide!, by decide!, by decide!,
   by decide!, by decide, by decide!, by decide!, by decide!, by decide!, by decide!⟩

/-- C30, the code at the failing input: READ faults on the two pages of an mmap
region return 0, frames `0x100000` and `0x101000` are allocated, and both
pages get the PTE `0x600`, whose frame field is 0. -/
theorem mmap_fault_drops_frame :
    Lookup_Region ex_mmap 0x7ffee000 = .ok none
    ∧ (Lookup_Heap ex_mmap 0x7ffee000).isNone = true
    ∧ Lookup_Mmap ex_mmap 0x7ffee000 = .ok (some 0)
    ∧ Lookup_Mmap ex_mmap 0x7ffef000 = .ok (some 0)
    ∧ (vm_fault ex_world_file ex_mmap VM_FAULT_READ 0x7ffee000).isOk = true
    ∧ ex_mmap_fault1.1 = SUCCESS
    ∧ ex_mmap_fault1.2.1.refcount 0x100000 = 1
    ∧ Page_table_lookup ex_mmap_fault1.2.2 0x7ffee000 = .ok 0x600
    ∧ 0x600 &&& PAGE_FRAME = 0
    ∧ (vm_fault ex_mmap_fault1.2.1 ex_mmap_fault1.2.2 VM_FAULT_READ 0x7ffef000).isOk = true
    ∧ ex_mmap_fault2.1 = SUCCESS
    ∧ ex_mmap_fault2.2.1.refcount 0x101000 = 1
    ∧ Page_table_lookup ex_mmap_fault2.2.2 0x7ffee000 = .ok 0x600
    ∧ Page_table_lookup ex_mmap_fault2.2.2 0x7ffef000 = .ok 0x600 := by
  decide!

theorem table_wf_map_page (as : addrspace) (va e : Nat) (hwf : table_wf as.PageTable)
    (he : pte_wf e)
    (h : (Page_table_Insert boot_world as (FLI_of va) (SLI_of va) (TLI_of va) e).isOk = true) :
    table_wf (map_page as va e).PageTable := by
  have hr := Res.eq_ok_of_isOk _ (1, boot_world, as) h
  exact table_wf_Insert boot_world _ as _ _ _ _ e _ hwf he hr

theorem ex_data_mapped_wf : table_wf ex_data_mapped.PageTable :=
  table_wf_map_page ex_data 0x401000 0x100600
    (fun _ _ _ _ _ _ h => absurd rfl h) (pte_wf_of_valid _ (by decide) (by decide)) (by decide!)

/-- Witness for C21: the copy of the chain code, stack. -/
theorem as_copy_regions_witness :
    (∀ r ∈ ex_code_stack.region_nodes, USERSTACK - STACK_LIMIT ≤ r.base_addr → r.next = none)
    ∧ region_chain ex_code_stack = .ok ex_code_stack.region_nodes
    ∧ ex_code_stack.region_nodes.map region_fields
        = [(0x400000, 0x400fff, 4, 0, 1, true), (0x7fff0000, 0x7fffffff, 4, 2, 0, false)]
    ∧ (as_copy boot_world ex_code_stack).isOk = true
    ∧ ex_copy_regions.1 = SUCCESS
    ∧ ∃ dst D, ex_copy_regions.2.2.2 = some dst ∧ region_chain dst = .ok D
        ∧ D.length = ex_code_stack.region_nodes.length
        ∧ D.map region_fields = ex_code_stack.region_nodes.map region_fields
        ∧ dst.Proc_heap.base_heap_addr = ex_code_stack.Proc_heap.base_heap_addr
        ∧ dst.Proc_heap.cur_heap_break = ex_code_stack.Proc_heap.cur_heap_break :=
  ⟨by decide!, by decide!, by decide!, by decide!, by decide!,
   (as_copy_regions boot_world ex_code_stack ex_code_stack.region_nodes ex_copy_regions
      (by decide!) (by decide!) (Res.eq_ok_of_isOk _ _ (by decide!)) (by decide!)).1⟩

/-- Example of copy and destruction when no allocation fails: the copy of the
mapped data region raises the count of
frame `0x100000` to 2, and destroying the copy restores every count. -/
theorem as_copy_then_destroy_witness :
    AllocOK ex_world1
    ∧ Page_table_lookup ex_data_mapped 0x401000 = .ok 0x100600
    ∧ (as_copy ex_world1 ex_data_mapped).isOk = true
    ∧ ex_copy_mapped.1 = SUCCESS
    ∧ ex_copy_mapped.2.1.refcount 0x100000 = 2
    ∧ ∃ dst w2, ex_copy_mapped.2.2.2 = some dst ∧ as_destroy ex_copy_mapped.2.1 dst = .ok w2
        ∧ ∀ f, w2.refcount f = ex_world1.refcount f :=
  ⟨AllocOK_of_nil _ rfl, by decide!, by decide!, by decide!, by decide!,
   (as_copy_then_destroy ex_world1 ex_data_mapped ex_copy_mapped (AllocOK_of_nil _ rfl)
      ex_data_mapped_wf (Res.eq_ok_of_isOk _ _ (by decide!)) (by decide!)).1⟩

/-- Witness for C24: code and data region; the load sets and clears the write
flag of the code region. -/
theorem as_prepare_then_complete_load_witness :
    ex_prog.region_nodes.map region_fields
        = [(0x400000, 0x400fff, 4, 0, 1, true), (0x401000, 0x401fff, 4, 2, 0, false)]
    ∧ (as_prepare_load ex_prog).isOk = true
    ∧ ex_prog_prepared.2.region_nodes.map region_fields
        = [(0x400000, 0x400fff, 4, 2, 1, true), (0x401000, 0x401fff, 4, 2, 0, false)]
    ∧ (as_complete_load ex_world1 ex_prog_loading).isOk = true
    ∧ ex_prog_loaded.2.2.region_nodes = ex_prog.region_nodes
    ∧ ex_prog_loaded.2.2.addr_region_base = ex_prog.addr_region_base
    ∧ ex_prog_loaded.2.2.addr_region_end = ex_prog.addr_region_end :=
  ⟨by decide!, by decide!, by decide!, by decide!,
   (as_prepare_then_complete_load ex_world1 ex_prog ex_code_loading.PageTable ex_prog_prepared
      ex_prog_loaded (by decide!) (Res.eq_ok_of_isOk _ _ (by decide!))
      (Res.eq_ok_of_isOk _ _ (by decide!))).2.2.2.2⟩

/-! ## Strip-write at the end of loading -/

theorem Page_table_readonly_lookup (as as1 : addrspace) (b : Nat)
    (h : Page_table_readonly as b = .ok as1) :
    ∃ e, Page_table_lookup as b = .ok e ∧ Page_table_lookup as1 b = .ok (e &&& NOT_DIRTY)
      ∧ ∀ vb, ¬ (FLI_of vb = FLI_of b ∧ SLI_of vb = SLI_of b ∧ TLI_of vb = TLI_of b) →
          Page_table_lookup as1 vb = Page_table_lookup as vb := by
  unfold Page_table_readonly at h
  simp only at h
  split at h
  · cases h
  · rename_i l2 h2
    split at h
    · cases h
    · cases h
    · rename_i l3 h3
      have hl : Page_table_lookup as b = .ok (l3 (TLI_of b)) := by
        unfold Page_table_lookup
        simp only [h2, h3]
      split at h
      · simp only [Res.ok.injEq] at h
        subst h
        refine ⟨_, hl, ?_, ?_⟩
        · unfold Page_table_lookup
          simp [store]
        · intro vb hne
          exact lookup_write_other as b _ vb l2 l3 h2 h3 hne
      · rename_i hz
        simp only [Res.ok.injEq] at h
        subst h
        have hz0 : l3 (TLI_of b) = 0 := by
          by_contra hc
          exact hz hc
        refine ⟨_, hl, ?_, fun _ _ => rfl⟩
        rw [hl, hz0, Nat.zero_and]

theorem as_complete_load_walk_other (vb : Nat) (fuel : Nat) :
    ∀ (p : Option Nat) (as as1 : addrspace),
      as_complete_load_walk fuel p as = .ok as1 →
      (∀ (i : Nat) (r : addrspace_region), as.region_nodes[i]? = some r →
        ¬ (FLI_of vb = FLI_of r.base_addr ∧ SLI_of vb = SLI_of r.base_addr
            ∧ TLI_of vb = TLI_of r.base_addr)) →
      Page_table_lookup as1 vb = Page_table_lookup as vb := by
  induction fuel with
  | zero =>
    intro p as as1 h _
    cases p with
    | none =>
      simp only [as_complete_load_walk, Res.ok.injEq] at h
      subst h; rfl
    | some p0 => simp [as_complete_load_walk] at h
  | succ n ih =>
    intro p as as1 h hb
    cases p with
    | none =>
      simp only [as_complete_load_walk, Res.ok.injEq] at h
      subst h; rfl
    | some p0 =>
      simp only [as_complete_load_walk] at h
      cases hr : as.region_nodes[p0]? with
      | none => simp [hr] at h
      | some r =>
        simp only [hr] at h
        split at h
        · rename_i as2 h2
          obtain ⟨e, -, -, hoth⟩ := Page_table_readonly_lookup _ _ _ h2
          obtain ⟨hn, -, -, -⟩ := Page_table_readonly_regions _ _ _ h2
          have hb2 : ∀ (i : Nat) (q : addrspace_region), as2.region_nodes[i]? = some q →
              ¬ (FLI_of vb = FLI_of q.base_addr ∧ SLI_of vb = SLI_of q.base_addr
                  ∧ TLI_of vb = TLI_of q.base_addr) := by
            intro i q hq
            rw [hn] at hq
            split at hq
            · simp only [List.getElem?_set] at hq
              split at hq
              · split at hq
                · simp only [Option.some.injEq] at hq
                  subst hq
                  exact hb p0 r hr
                · cases hq
              · exact hb i q hq
            · exact hb i q hq
          rw [ih r.next as2 as1 h hb2, hoth vb (hb p0 r hr)]
          split <;> rfl
        · cases h
        · cases h

/-- The function `as_complete_load` changes no PTE of a page that is not the base page of a
region: `Page_table_lookup` gives the same result for every address whose
indices differ from those of every region base. -/
theorem as_complete_load_other_pages (w : World) (as : addrspace)
    (res : Nat × World × addrspace) (vb : Nat)
    (h : as_complete_load w as = .ok res)
    (hb : ∀ (i : Nat) (r : addrspace_region), as.region_nodes[i]? = some r →
        ¬ (FLI_of vb = FLI_of r.base_addr ∧ SLI_of vb = SLI_of r.base_addr
            ∧ TLI_of vb = TLI_of r.base_addr)) :
    Page_table_lookup res.2.2 vb = Page_table_lookup as vb := by
  unfold as_complete_load at h
  split at h
  · rename_i as1 h1
    simp only [Res.ok.injEq] at h
    subst h
    exact as_complete_load_walk_other vb _ _ _ _ h1 hb
  · cases h
  · cases h

/-- C31, the code at the failing input: a program with a latched code region
and a writable data region (not latched), both base pages mapped with
`DIRTY | VALID` during loading. The function `as_complete_load` returns 0 and the PTE
of the data region's base page changes from `0x101600` to `0x101200`: its
`DIRTY` bit is cleared like that of the code page. -/
theorem as_complete_load_strips_writable_region :
    ex_prog_data_loading.region_nodes.map region_fields
        = [(0x400000, 0x400fff, 4, 2, 1, true), (0x401000, 0x401fff, 4, 2, 0, false)]
    ∧ Page_table_lookup ex_prog_data_loading 0x400000 = .ok 0x100600
    ∧ Page_table_lookup ex_prog_data_loading 0x401000 = .ok 0x101600
    ∧ as_complete_load boot_world ex_prog_data_loading = .ok ex_prog_data_loaded
    ∧ ex_prog_data_loaded.1 = SUCCESS
    ∧ ex_prog_data_loaded.2.2.region_nodes.map region_fields
        = [(0x400000, 0x400fff, 4, 0, 1, true), (0x401000, 0x401fff, 4, 2, 0, false)]
    ∧ Page_table_lookup ex_prog_data_loaded.2.2 0x400000 = .ok 0x100200
    ∧ Page_table_lookup ex_prog_data_loaded.2.2 0x401000 = .ok 0x101200
    ∧ 0x101600 &&& TLBLO_DIRTY = TLBLO_DIRTY
    ∧ 0x101200 &&& TLBLO_DIRTY = 0 :=
  ⟨by decide!, by decide!, by decide!, rfl, by decide!, by decide!, by decide!, by decide!,
    by decide, by decide⟩

/-- C32, the code at the failing input: a code region none of whose pages was
faulted in. `Page_table_lookup` reads 0 at its base, the level-2 array being
absent, and `Page_table_readonly` follows the NULL pointer; so does
`as_complete_load` after `as_prepare_load`. With the level-2 array present and
the level-3 array absent (`0x440000` beside the mapped page `0x400000`) the
outcome is the same. -/
theorem Page_table_readonly_absent_array_traps :
    (ex_code.PageTable.Pages (FLI_of 0x400000)).isNone = true
    ∧ Page_table_lookup ex_code 0x400000 = .ok 0
    ∧ Page_table_readonly ex_code 0x400000 = .trap
    ∧ as_prepare_load ex_code = .ok (SUCCESS, ex_code_prepared)
    ∧ as_complete_load boot_world ex_code_prepared = .trap
    ∧ (ex_code_far.PageTable.Pages (FLI_of 0x440000)).isSome = true
    ∧ Page_table_lookup ex_code_far 0x440000 = .ok 0
    ∧ Page_table_readonly ex_code_far 0x440000 = .trap :=
  ⟨by decide!, by decide!, Res.eq_trap_of_isTrap _ (by decide!), rfl,
    Res.eq_trap_of_isTrap _ (by decide!), by decide!, by decide!,
    Res.eq_trap_of_isTrap _ (by decide!)⟩

/-! ## Insert: allocation failure and other pages -/

/-- C33, the code at the failing input: an insert into an empty table when the
allocation of the level-2 array fails. The function `init_level_two` returns `ENOMEM`,
which `Page_table_Insert` drops, and the next store goes through the absent
array. The same happens when the level-3 array cannot be allocated (the second
conditional retries that allocation once), also under an existing level-2
array. -/
theorem Page_table_Insert_allocation_failure_traps :
    ((init_level_two (ex_world_kmallocs [false]) empty_as 1).getD (0, boot_world, empty_as)).1
        = ENOMEM
    ∧ Page_table_Insert (ex_world_kmallocs [false]) empty_as 1 0 0 0x100600 = .trap
    ∧ Page_table_Insert (ex_world_kmallocs [true, false, false]) empty_as 1 0 0 0x100600 = .trap
    ∧ (ex_code_loading.PageTable.Pages 0).isSome = true
    ∧ Page_table_Insert (ex_world_kmallocs [false]) ex_code_loading 0 17 0 0x100600 = .trap :=
  ⟨by decide!, Res.eq_trap_of_isTrap _ (by decide!), Res.eq_trap_of_isTrap _ (by decide!),
    by decide!, Res.eq_trap_of_isTrap _ (by decide!)⟩

theorem lookup_init_level_two (w w1 : World) (as as1 : addrspace) (FLI rc : Nat)
    (h : init_level_two w as FLI = .ok (rc, w1, as1)) (hn : as.PageTable.Pages FLI = none) :
    ∀ vb, Page_table_lookup as1 vb = Page_table_lookup as vb := by
  intro vb
  unfold init_level_two at h
  split at h
  · cases h
  · split at h
    all_goals
      simp only [Res.ok.injEq, Prod.mk.injEq] at h
      obtain ⟨-, -, h⟩ := h
      subst h
      unfold Page_table_lookup
      by_cases hi : FLI_of vb = FLI
      · subst hi; simp [store, hn]
      · simp [store, hi]

theorem lookup_init_level_three (w w1 : World) (as as1 : addrspace) (FLI SLI rc : Nat)
    (h : init_level_three w as FLI SLI = .ok (rc, w1, as1))
    (hn : ∀ l2, as.PageTable.Pages FLI = some l2 → l2 SLI = Slot.null) :
    ∀ vb, Page_table_lookup as1 vb = Page_table_lookup as vb := by
  intro vb
  unfold init_level_three at h
  split at h
  · cases h
  · split at h
    · cases h
    · rename_i l2 hl2
      have hs := hn l2 hl2
      split at h
      all_goals
        simp only [Res.ok.injEq, Prod.mk.injEq] at h
        obtain ⟨-, -, h⟩ := h
        subst h
        unfold Page_table_lookup
        by_cases hi : FLI_of vb = FLI
        · subst hi
          by_cases hj : SLI_of vb = SLI
          · subst hj; simp [store, hl2, hs]
          · simp [store, hl2, hj]
        · simp [store, hi]

theorem Page_table_Insert_stages (w w1 : World) (as as1 : addrspace) (FLI SLI TLI e rc : Nat)
    (h : Page_table_Insert w as FLI SLI TLI e = .ok (rc, w1, as1)) :
    ∃ wa asa asb, Page_table_Insert_both w as FLI SLI = .ok (wa, asa)
      ∧ Page_table_Insert_three wa asa FLI SLI = .ok (w1, asb)
      ∧ Page_table_write asb FLI SLI TLI e = .ok as1 := by
  unfold Page_table_Insert at h
  split at h
  · cases h
  · cases hb : Page_table_Insert_both w as FLI SLI with
    | trap => simp [hb] at h
    | hang => simp [hb] at h
    | ok x =>
      obtain ⟨wa, asa⟩ := x
      simp only [hb] at h
      cases ht : Page_table_Insert_three wa asa FLI SLI with
      | trap => simp [ht] at h
      | hang => simp [ht] at h
      | ok y =>
        obtain ⟨wb, asb⟩ := y
        simp only [ht] at h
        cases hw : Page_table_write asb FLI SLI TLI e with
        | trap => simp [hw] at h
        | hang => simp [hw] at h
        | ok asc =>
          simp only [hw, Res.ok.injEq, Prod.mk.injEq] at h
          obtain ⟨-, h1, h2⟩ := h
          subst h1 h2
          exact ⟨wa, asa, asb, rfl, ht, hw⟩

theorem lookup_Insert_both (w wa : World) (as asa : addrspace) (FLI SLI : Nat)
    (hb : Page_table_Insert_both w as FLI SLI = .ok (wa, asa)) :
    ∀ vb, Page_table_lookup asa vb = Page_table_lookup as vb := by
  unfold Page_table_Insert_both at hb
  split at hb
  · rename_i hnone
    cases h2 : init_level_two w as FLI with
    | trap => simp [h2] at hb
    | hang => simp [h2] at hb
    | ok z =>
      obtain ⟨r2, w2, as2⟩ := z
      simp only [h2] at hb
      cases h3 : init_level_three w2 as2 FLI SLI with
      | trap => simp [h3] at hb
      | hang => simp [h3] at hb
      | ok z3 =>
        obtain ⟨r3, w3, as3⟩ := z3
        simp only [h3, Res.ok.injEq, Prod.mk.injEq] at hb
        obtain ⟨-, hb⟩ := hb
        subst hb
        intro vb
        rw [lookup_init_level_three _ _ _ _ _ _ _ h3
          (fun l2 hl => init_level_two_fresh _ _ _ _ _ _ h2 l2 hl SLI),
          lookup_init_level_two _ _ _ _ _ _ h2 hnone]
  · simp only [Res.ok.injEq, Prod.mk.injEq] at hb
    obtain ⟨-, hb⟩ := hb
    subst hb
    intro vb; rfl

theorem lookup_Insert_three (wa wb : World) (asa asb : addrspace) (FLI SLI : Nat)
    (ht : Page_table_Insert_three wa asa FLI SLI = .ok (wb, asb)) :
    ∀ vb, Page_table_lookup asb vb = Page_table_lookup asa vb := by
  unfold Page_table_Insert_three at ht
  split at ht
  · simp only [Res.ok.injEq, Prod.mk.injEq] at ht
    obtain ⟨-, ht⟩ := ht
    subst ht
    intro vb; rfl
  · rename_i l2 hl2
    split at ht
    · rename_i hnull
      cases h3 : init_level_three wa asa FLI SLI with
      | trap => simp [h3] at ht
      | hang => simp [h3] at ht
      | ok z3 =>
        obtain ⟨r3, w3, as3⟩ := z3
        simp only [h3, Res.ok.injEq, Prod.mk.injEq] at ht
        obtain ⟨-, ht⟩ := ht
        subst ht
        exact lookup_init_level_three _ _ _ _ _ _ _ h3 (by
          intro l2' hl2'
          rw [hl2] at hl2'
          cases hl2'
          exact hnull)
    · cases ht
    · simp only [Res.ok.injEq, Prod.mk.injEq] at ht
      obtain ⟨-, ht⟩ := ht
      subst ht
      intro vb; rfl

theorem Page_table_write_other (as as1 : addrspace) (va vb e : Nat)
    (h : Page_table_write as (FLI_of va) (SLI_of va) (TLI_of va) e = .ok as1)
    (hne : ¬ (FLI_of vb = FLI_of va ∧ SLI_of vb = SLI_of va ∧ TLI_of vb = TLI_of va)) :
    Page_table_lookup as1 vb = Page_table_lookup as vb := by
  unfold Page_table_write at h
  split at h
  · cases h
  · split at h
    · cases h
    · rename_i l2 h2
      split at h
      · cases h
      · cases h
      · rename_i l3 h3
        simp only [Res.ok.injEq] at h
        subst h
        exact lookup_write_other as va e vb l2 l3 h2 h3 hne

/-- C34: when `Page_table_Insert` for the page of `va` returns, `Page_table_lookup`
gives the same result as before for every 32-bit address `vb` of another page
(`vb >> 12 ≠ va >> 12`); where the level-2 or level-3 array that covers `vb`
was absent before the insert, also if the insert created it, that result is 0;
the three indices of two such addresses differ. -/
theorem Page_table_Insert_other_pages (w w1 : World) (as as1 : addrspace) (va vb e rc : Nat)
    (ha : va < 2 ^ 32) (hb : vb < 2 ^ 32) (hne : vb >>> 12 ≠ va >>> 12)
    (h : Page_table_Insert w as (FLI_of va) (SLI_of va) (TLI_of va) e = .ok (rc, w1, as1)) :
    Page_table_lookup as1 vb = Page_table_lookup as vb
    ∧ (FLI_of vb, SLI_of vb, TLI_of vb) ≠ (FLI_of va, SLI_of va, TLI_of va)
    ∧ (as.PageTable.Pages (FLI_of vb) = none → Page_table_lookup as1 vb = .ok 0)
    ∧ (∀ l2, as.PageTable.Pages (FLI_of vb) = some l2 → l2 (SLI_of vb) = Slot.null →
        Page_table_lookup as1 vb = .ok 0) := by
  have hne1 : vb / 4096 ≠ va / 4096 := by
    rw [Nat.shiftRight_eq_div_pow, Nat.shiftRight_eq_div_pow] at hne
    exact hne
  have hidx := indices_differ va vb ha hb hne1
  obtain ⟨wa, asa, asb, s1, s2, s3⟩ := Page_table_Insert_stages w w1 as as1 _ _ _ e rc h
  have hsame : Page_table_lookup as1 vb = Page_table_lookup as vb := by
    rw [Page_table_write_other asb as1 va vb e s3 hidx, lookup_Insert_three _ _ _ _ _ _ s2 vb,
      lookup_Insert_both _ _ _ _ _ _ s1 vb]
  refine ⟨hsame, ?_, ?_, ?_⟩
  · intro heq
    simp only [Prod.mk.injEq] at heq
    exact hidx heq
  · intro hn
    rw [hsame]
    simp [Page_table_lookup, hn]
  · intro l2 h2 h3
    rw [hsame]
    simp [Page_table_lookup, h2, h3]

/-- Witness for C34: mapping page `0x401000` in an empty table creates both
arrays; the neighbouring page `0x402000`, which lies in the new level-3 array,
reads 0 after the insert as before. -/
theorem Page_table_Insert_other_pages_witness :
    Page_table_Insert boot_world ex_data (FLI_of 0x401000) (SLI_of 0x401000) (TLI_of 0x401000)
        0x100600 = .ok (SUCCESS, boot_world, ex_data_mapped)
    ∧ Page_table_lookup ex_data_mapped 0x402000 = Page_table_lookup ex_data 0x402000
    ∧ (SLI_of 0x402000 = SLI_of 0x401000 ∧ TLI_of 0x402000 ≠ TLI_of 0x401000)
    ∧ Page_table_lookup ex_data_mapped 0x402000 = .ok 0 :=
  ⟨rfl,
    (Page_table_Insert_other_pages boot_world boot_world ex_data ex_data_mapped 0x401000
      0x402000 0x100600 SUCCESS (by decide) (by decide) (by decide) rfl).1,
    by decide,
    (Page_table_Insert_other_pages boot_world boot_world ex_data ex_data_mapped 0x401000
      0x402000 0x100600 SUCCESS (by decide) (by decide) (by decide) rfl).2.2.1 rfl⟩

/-! ## TLB refill of a present page -/

/-- C35: when the PTE of the faulting page is non-zero, `tlb_miss_handler`
returns `SUCCESS` with the address space unchanged, after one TLB write: the
slot chosen by the hardware holds `(fa & TLBHI_VPAGE, PTE)`, every other slot
is as before, no frame leaves the allocator and no reference count changes.
`vm_fault` with kind READ or WRITE gives the same result at an address that
passes its checks and that a region, the heap or an mmap region owns. -/
theorem tlb_miss_handler_refill (w : World) (as : addrspace) (fa e : Nat)
    (hl : Page_table_lookup as fa = .ok e) (hne : e ≠ 0) :
    ∃ w1,
      (∀ R H F, tlb_miss_handler w fa as R H F = .ok (SUCCESS, w1, as))
      ∧ w1.tlb (w.random % NUM_TLB) = (fa &&& TLBHI_VPAGE, e)
      ∧ (∀ i, i ≠ w.random % NUM_TLB → w1.tlb i = w.tlb i)
      ∧ w1.kpages = w.kpages
      ∧ w1.refcount = w.refcount
      ∧ w1.kmallocs = w.kmallocs
      ∧ (∀ ft R F, (ft = VM_FAULT_READ ∨ ft = VM_FAULT_WRITE) →
          w.curproc = true → w.curas = true → fa ≤ MIPS_KSEG0 →
          Lookup_Region as fa = .ok R → Lookup_Mmap as fa = .ok F →
          (R.isSome = true ∨ (Lookup_Heap as fa).isSome = true ∨ F.isSome = true) →
          vm_fault w as ft fa = .ok (SUCCESS, w1, as)) := by
  refine ⟨Load_TLB w (fa &&& TLBHI_VPAGE) e, ?_, ?_, ?_, rfl, rfl, rfl, ?_⟩
  · intro R H F
    exact tlb_miss_handler_present w fa as R H F e hl hne
  · simp [Load_TLB, tlb_random, store]
  · intro i hi
    simp [Load_TLB, tlb_random, store, hi]
  · intro ft R F hft hp hc hk hR hF hown
    have herr : err_handling_vm_fault w fa = 0 := by
      unfold err_handling_vm_fault
      rw [if_neg (by simp [hp]), if_neg (by omega)]
      rfl
    have hro : ft ≠ VM_FAULT_READONLY := by
      rcases hft with h | h <;> (rw [h]; decide)
    have hnone : ¬ (R.isNone = true ∧ (Lookup_Heap as fa).isNone = true ∧ F.isNone = true) := by
      rintro ⟨h1, h2, h3⟩
      rcases hown with h | h | h
      · cases R <;> simp at h1 h
      · cases hh : Lookup_Heap as fa <;> simp [hh] at h2 h
      · cases F <;> simp at h3 h
    unfold vm_fault
    rw [if_neg (by rw [herr]; simp), if_neg (by simp [hc])]
    simp only [hR, hF]
    rw [if_neg hnone, if_neg hro]
    exact tlb_miss_handler_present w fa as R _ F e hl hne

/-- Witness for C35: a READ fault on the mapped data page `0x401000`, whose
PTE is `0x100600`; the region of the page is node 0. -/
theorem tlb_miss_handler_refill_witness :
    ∃ w1,
      tlb_miss_handler boot_world 0x401000 ex_data_mapped (some 0) none none
        = .ok (SUCCESS, w1, ex_data_mapped)
      ∧ vm_fault boot_world ex_data_mapped VM_FAULT_READ 0x401000
        = .ok (SUCCESS, w1, ex_data_mapped)
      ∧ w1.tlb 0 = (0x401000, 0x100600)
      ∧ w1.refcount = boot_world.refcount := by
  obtain ⟨w1, h1, h2, -, -, h5, -, h7⟩ :=
    tlb_miss_handler_refill boot_world ex_data_mapped 0x401000 0x100600 (by decide!) (by decide)
  exact ⟨w1, h1 (some 0) none none,
    h7 VM_FAULT_READ (some 0) none (Or.inl rfl) rfl rfl (by decide) (by decide!) (by decide!)
      (Or.inl rfl), h2, h5⟩

/-! ## The heap and the defined regions -/

theorem Create_Region_bounds (as as1 : addrspace) (v s r wr x : Nat)
    (h : Create_Region as v s r wr x = .ok as1) :
    region_bounds as1 = region_bounds as ++ [(v, (v + s + WORD - 1) % WORD)]
    ∧ tail_end as1 = (if v < USERSTACK - STACK_LIMIT then some ((v + s + WORD - 1) % WORD)
        else tail_end as)
    ∧ as1.Proc_heap = as.Proc_heap := by
  unfold Create_Region at h
  simp only at h
  cases he : as.addr_region_end with
  | none =>
    simp only [he, Res.ok.injEq] at h
    subst h
    refine ⟨?_, ?_, rfl⟩
    · simp [region_bounds]
    · unfold tail_end
      by_cases hv : v < USERSTACK - STACK_LIMIT
      · simp only [if_pos hv]
        simp
      · simp only [if_neg hv, he]
  | some e =>
    simp only [he] at h
    cases hrl : as.region_nodes[e]? with
    | none => simp [hrl] at h
    | some rl =>
      simp only [hrl, Res.ok.injEq] at h
      subst h
      have hlt : e < as.region_nodes.length := by
        rcases Nat.lt_or_ge e as.region_nodes.length with hlt | hge
        · exact hlt
        · rw [List.getElem?_eq_none hge] at hrl; cases hrl
      have hget : as.region_nodes[e] = rl := by
        rw [List.getElem?_eq_getElem hlt] at hrl
        exact Option.some.inj hrl
      refine ⟨?_, ?_, rfl⟩
      · unfold region_bounds
        simp only [List.map_append, List.map_cons, List.map_nil, List.map_set]
        congr 1
        apply List.ext_getElem?
        intro i
        rw [List.getElem?_set]
        split
        · rename_i hie
          subst hie
          simp [hlt, hget]
        · rfl
      · unfold tail_end
        by_cases hv : v < USERSTACK - STACK_LIMIT
        · simp only [if_pos hv]
          simp
        · simp only [if_neg hv, he]
          rw [List.getElem?_append_left (by simpa using hlt)]
          simp [List.getElem?_set, hlt, hrl]

theorem Create_Region_heap_above (as as1 : addrspace) (v s r wr x : Nat)
    (hi : heap_above_regions as) (h : Create_Region as v s r wr x = .ok as1)
    (hs : 0 < s) (hk : v + s ≤ MIPS_KSEG0)
    (hlow : v < USERSTACK - STACK_LIMIT →
      (as.Proc_heap.base_heap_addr = 0 ∧ as.Proc_heap.cur_heap_break = 0)
      ∧ ∀ t, tail_end as = some t → t < v) :
    heap_above_regions as1 := by
  obtain ⟨hb, ht, hp⟩ := Create_Region_bounds as as1 v s r wr x h
  have hend : (v + s + WORD - 1) % WORD = v + s - 1 := by
    unfold MIPS_KSEG0 at hk
    unfold WORD
    omega
  rw [hend] at hb ht
  obtain ⟨i1, i2, i3⟩ := hi
  unfold heap_above_regions
  rw [hb, ht, hp]
  by_cases hv : v < USERSTACK - STACK_LIMIT
  · obtain ⟨hun, hord⟩ := hlow hv
    rw [if_pos hv]
    refine ⟨?_, ?_, Or.inl hun⟩
    · intro be hbe hlt
      refine ⟨_, rfl, ?_⟩
      rw [List.mem_append] at hbe
      rcases hbe with hbe | hbe
      · obtain ⟨t, ht1, ht2⟩ := i1 be hbe hlt
        have := hord t ht1
        omega
      · simp only [List.mem_singleton] at hbe
        subst hbe
        exact le_refl _
    · intro t ht1
      simp only [Option.some.injEq] at ht1
      unfold MIPS_KSEG0 at hk ⊢
      omega
  · rw [if_neg hv]
    refine ⟨?_, i2, ?_⟩
    · intro be hbe hlt
      rw [List.mem_append] at hbe
      rcases hbe with hbe | hbe
      · exact i1 be hbe hlt
      · simp only [List.mem_singleton] at hbe
        subst hbe
        exact absurd hlt hv
    · rcases i3 with i3 | ⟨j1, j2, j3⟩
      · exact Or.inl i3
      · refine Or.inr ⟨?_, j2, j3⟩
        intro be hbe hlt
        rw [List.mem_append] at hbe
        rcases hbe with hbe | hbe
        · exact j1 be hbe hlt
        · simp only [List.mem_singleton] at hbe
          subst hbe
          exact absurd hlt hv

theorem as_define_region_heap_above (w : World) (as : addrspace) (v s r wr x : Nat)
    (res : Nat × World × addrspace) (hi : heap_above_regions as)
    (h : as_define_region w as v s r wr x = .ok res)
    (hs : 0 < aligned_size v s) (hk : aligned_base v + aligned_size v s ≤ MIPS_KSEG0)
    (hlow : aligned_base v < USERSTACK - STACK_LIMIT →
      (as.Proc_heap.base_heap_addr = 0 ∧ as.Proc_heap.cur_heap_break = 0)
      ∧ ∀ t, tail_end as = some t → t < aligned_base v) :
    heap_above_regions res.2.2 := by
  rcases as_define_region_cases w as v s r wr x res h with ⟨-, h1, -⟩ | ⟨-, h1⟩
  · rw [h1]; exact hi
  · exact Create_Region_heap_above _ _ _ _ _ _ _ hi h1 hs hk hlow

theorem as_define_stack_heap_above (w : World) (as : addrspace)
    (res : Nat × Nat × World × addrspace) (hi : heap_above_regions as)
    (h : as_define_stack w as = .ok res) : heap_above_regions res.2.2.2 := by
  unfold as_define_stack at h
  split at h
  · cases h; exact hi
  · simp only at h
    cases hd : as_define_region w as (USERSTACK - STACK_LIMIT) STACK_LIMIT PF_R PF_W 0 with
    | trap => simp [hd] at h
    | hang => simp [hd] at h
    | ok x =>
      have := as_define_region_heap_above _ _ _ _ _ _ _ _ hi hd (by decide) (by decide)
        (fun hlt => absurd hlt (by decide))
      obtain ⟨e, w1, as1⟩ := x
      simp only [hd] at h
      split at h <;> (cases h; exact this)

theorem as_set_process_break_heap_above (as : addrspace) (amount : Int)
    (res : Nat × Option Nat × addrspace) (hi : heap_above_regions as)
    (h : as_set_process_break as amount = .ok res) : heap_above_regions res.2.2 := by
  obtain ⟨a1, -, a3⟩ := as_set_process_break_regions as amount res h
  have hb : region_bounds res.2.2 = region_bounds as := by
    unfold region_bounds; rw [a1]
  have ht : tail_end res.2.2 = tail_end as := by
    unfold tail_end; rw [a1, a3]
  obtain ⟨i1, i2, i3⟩ := hi
  unfold heap_above_regions
  rw [hb, ht]
  refine ⟨i1, i2, ?_⟩
  by_cases huninit : as.Proc_heap.base_heap_addr = 0 ∧ as.Proc_heap.cur_heap_break = 0
  · obtain ⟨-, h2, h3, e, r, he, hr, h4⟩ := as_set_process_break_first as amount res huninit h
    have hte : tail_end as = some r.end_addr := by
      unfold tail_end
      unfold region_at at hr
      simp only [he, hr, Option.map_some']
    have hlt := i2 _ hte
    have hbase : res.1 = r.end_addr + 1 := by
      rw [h4]
      unfold MIPS_KSEG0 at hlt
      unfold WORD
      omega
    rw [h2, h3, hbase]
    refine Or.inr ⟨?_, le_refl _, Or.inl rfl⟩
    intro be hbe hlow
    obtain ⟨t, ht1, ht2⟩ := i1 be hbe hlow
    rw [hte] at ht1
    simp only [Option.some.injEq] at ht1
    omega
  · have hlock : as.Proc_heap.Heap_lock = false := by
      unfold as_set_process_break lock_acquire at h
      cases hl : as.Proc_heap.Heap_lock with
      | false => rfl
      | true => simp [hl] at h
    rw [as_set_process_break_initialised as amount hlock huninit] at h
    rcases i3 with i3 | ⟨j1, j2, j3⟩
    · exact absurd i3 huninit
    · split at h
      · cases h
        exact Or.inr ⟨j1, j2, j3⟩
      · split at h
        · cases h
          exact Or.inr ⟨j1, j2, j3⟩
        · rename_i hge hlim
          cases h
          refine Or.inr ⟨j1, ?_, Or.inr ?_⟩
          · exact Nat.le_of_not_lt hge
          · exact Nat.lt_of_not_le hlim

theorem heap_above_of_ascending (as : addrspace) (h : ReachableAscending as) :
    heap_above_regions as := by
  induction h with
  | create w w1 as hc =>
    obtain ⟨he, -⟩ := as_create_value w w1 as hc
    subst he
    refine ⟨?_, ?_, Or.inl ⟨rfl, rfl⟩⟩
    · intro be hbe; simp [region_bounds, empty_as] at hbe
    · intro t ht; simp [tail_end, empty_as] at ht
  | define_region w w1 as as1 vaddr sz r wr x rc _ hun hs hk hord hd ih =>
    exact as_define_region_heap_above _ _ _ _ _ _ _ _ ih hd hs hk (fun _ => ⟨hun, hord⟩)
  | define_stack w w1 as as1 rc sp _ hd ih =>
    exact as_define_stack_heap_above _ _ _ ih hd
  | set_break as as1 amount ret err _ hb ih =>
    exact as_set_process_break_heap_above _ _ _ ih hb

/-- C36 (amended): in an address space built by `as_create`, by
`as_define_region` calls made before the heap is initialised, each for a
non-empty aligned range that ends at or below `KSEG0` and starts above the end
of the region defined last below the stack reserve, and by `as_define_stack`
and `as_set_process_break` calls, no address lies both in a defined region
(between `base_addr` and `end_addr`) and in the heap range, and `Lookup_Region`
and `Lookup_Heap` never both succeed for the same address. -/
theorem heap_disjoint_when_ascending (as : addrspace) (h : ReachableAscending as) (fa : Nat) :
    (∀ r ∈ as.region_nodes, r.base_addr ≤ fa → fa ≤ r.end_addr → Lookup_Heap as fa = none)
    ∧ (∀ p, Lookup_Region as fa = .ok (some p) → Lookup_Heap as fa = none) := by
  obtain ⟨i1, i2, i3⟩ := heap_above_of_ascending as h
  have key : ∀ r ∈ as.region_nodes, r.base_addr ≤ fa → fa ≤ r.end_addr →
      Lookup_Heap as fa = none := by
    intro r hr h1 h2
    unfold Lookup_Heap
    rw [if_neg]
    rintro ⟨g1, g2⟩
    rcases i3 with ⟨z1, z2⟩ | ⟨j1, j2, j3⟩
    · omega
    · have hmem : (r.base_addr, r.end_addr) ∈ region_bounds as := by
        unfold region_bounds
        exact List.mem_map.mpr ⟨r, hr, rfl⟩
      by_cases hlow : r.base_addr < USERSTACK - STACK_LIMIT
      · have := j1 _ hmem hlow
        simp only at this
        omega
      · rcases j3 with j3 | j3
        · omega
        · omega
  refine ⟨key, ?_⟩
  intro p hp
  obtain ⟨r, hr, h1, h2⟩ := Lookup_Region_walk_some _ _ _ _ _ hp
  exact key r (List.getElem?_mem hr) h1 (Nat.le_of_lt h2)

theorem ex_code_stack_heap_ascending : ReachableAscending ex_code_stack_heap :=
  ReachableAscending.set_break (after_break ex_code_stack 0) ex_code_stack_heap 0x3000
    0x401000 none
    (ReachableAscending.set_break ex_code_stack (after_break ex_code_stack 0) 0 0x401000 none
      (ReachableAscending.define_stack boot_world boot_world ex_code ex_code_stack SUCCESS
        USERSTACK
        (ReachableAscending.define_region boot_world boot_world empty_as ex_code 0x400000
          0x1000 PF_R 0 PF_X SUCCESS
          (ReachableAscending.create boot_world boot_world empty_as rfl)
          ⟨rfl, rfl⟩ (by decide) (by decide) (fun t ht => by simp [tail_end, empty_as] at ht)
          rfl)
        rfl)
      rfl)
    rfl

/-- Witness for C36 (amended): code region, stack, then a heap of three pages
`[0x401000, 0x404000)`; the address `0x400800` of the code region is not in
the heap. -/
theorem heap_disjoint_when_ascending_witness :
    ReachableAscending ex_code_stack_heap
    ∧ ex_code_stack_heap.region_nodes.map region_fields
        = [(0x400000, 0x400fff, 4, 0, 1, true), (0x7fff0000, 0x7fffffff, 4, 2, 0, false)]
    ∧ ex_code_stack_heap.Proc_heap.base_heap_addr = 0x401000
    ∧ ex_code_stack_heap.Proc_heap.cur_heap_break = 0x404000
    ∧ Lookup_Region ex_code_stack_heap 0x400800 = .ok (some 0)
    ∧ Lookup_Heap ex_code_stack_heap 0x400800 = none :=
  ⟨ex_code_stack_heap_ascending, by decide!, by decide!, by decide!, by decide!,
    (heap_disjoint_when_ascending ex_code_stack_heap ex_code_stack_heap_ascending 0x400800).2 0
      (by decide!)⟩

theorem ex_descending_heap_reachable : Reachable ex_descending_heap :=
  Reachable.set_break (after_break ex_descending 0) ex_descending_heap 0x100000 0x401000 none
    (Reachable.set_break ex_descending (after_break ex_descending 0) 0 0x401000 none
      (Reachable.define_region boot_world boot_world _ ex_descending 0x400000 0x1000 PF_R 0 PF_X
        SUCCESS
        (Reachable.define_region boot_world boot_world empty_as _ 0x500000 0x1000 PF_R PF_W 0
          SUCCESS (Reachable.create boot_world boot_world empty_as rfl) rfl) rfl)
      rfl)
    rfl

/-- C36, counterexample: a data region defined at `0x500000`, then a code
region at `0x400000`, then `as_set_process_break(0)` and
`as_set_process_break(0x100000)`. The heap starts after the region defined
last, `[0x401000, 0x501000)`, and contains the page of the data region: at
`0x500000` both `Lookup_Region` and `Lookup_Heap` succeed. A region defined
over a grown heap is accepted as well. -/
theorem heap_overlaps_region :
    Reachable ex_descending_heap
    ∧ ex_descending_heap.region_nodes.map region_fields
        = [(0x500000, 0x500fff, 4, 2, 0, false), (0x400000, 0x400fff, 4, 0, 1, true)]
    ∧ ex_descending_heap.Proc_heap.base_heap_addr = 0x401000
    ∧ ex_descending_heap.Proc_heap.cur_heap_break = 0x501000
    ∧ Lookup_Region ex_descending_heap 0x500000 = .ok (some 0)
    ∧ (Lookup_Heap ex_descending_heap 0x500000).isSome = true
    ∧ as_define_region boot_world ex_heap_grown 0x401000 0x1000 PF_R PF_W 0
        = .ok (SUCCESS, boot_world, ex_overlap)
    ∧ Lookup_Region ex_overlap 0x401000 = .ok (some 1)
    ∧ (Lookup_Heap ex_overlap 0x401000).isSome = true :=
  ⟨ex_descending_heap_reachable, by decide!, by decide!, by decide!, by decide!, by decide!,
    rfl, by decide!, by decide!⟩

/-! ## The free window of a file mapping -/

theorem Find_Free_File_Region_overlap (as : addrspace) (base_addr end_addr rc : Nat)
    (h : regions_overlap as base_addr end_addr = .ok rc) (hrc : rc ≠ SUCCESS) :
    ∀ fuel, Find_Free_File_Region as base_addr end_addr fuel = .hang := by
  intro fuel
  induction fuel with
  | zero => rfl
  | succ n ih =>
    unfold Find_Free_File_Region
    simp only [h]
    rw [if_neg hrc]
    exact ih

/-- C37, the code at the failing input: one region `[0x2000, 0x3000)` and a
window inside it. The function `regions_overlap` reports the overlap, the loop tests the
same window again, and no number of rounds makes `Find_Free_File_Region`
return; the same for the window `(0x3000, 0x2000)`, given top first as
`as_mmap_file` does. A window that overlaps nothing is returned unchanged. -/
theorem Find_Free_File_Region_never_returns :
    ex_high.region_nodes.map region_fields = [(0x2000, 0x2fff, 4, 2, 0, false)]
    ∧ regions_overlap ex_high 0x2000 0x2800 = .ok EINVAL
    ∧ (∀ fuel, Find_Free_File_Region ex_high 0x2000 0x2800 fuel = .hang)
    ∧ regions_overlap ex_high 0x3000 0x2000 = .ok EINVAL
    ∧ (∀ fuel, Find_Free_File_Region ex_high 0x3000 0x2000 fuel = .hang)
    ∧ Find_Free_File_Region ex_high 0x5000 0x4000 1 = .ok 0x4000 :=
  ⟨by decide!, by decide!,
    Find_Free_File_Region_overlap ex_high 0x2000 0x2800 EINVAL (by decide!) (by decide),
    by decide!,
    Find_Free_File_Region_overlap ex_high 0x3000 0x2000 EINVAL (by decide!) (by decide),
    by decide!⟩

/-! ## Alignment of a defined region -/

theorem land_PAGE_FRAME_eq (x : Nat) (h32 : x < 2 ^ 32) :
    x &&& PAGE_FRAME = x - x % 4096 := by
  have hq : x - x % 4096 = 2 ^ 12 * (x / 2 ^ 12) := by
    have := Nat.div_add_mod x 4096
    norm_num
    omega
  rw [hq]
  apply Nat.eq_of_testBit_eq
  intro i
  rw [Nat.testBit_land, Nat.testBit_mul_pow_two]
  by_cases hi : i < 12
  · have : PAGE_FRAME.testBit i = false := by
      interval_cases i <;> rfl
    simp [this, hi]
  · have h12 : 12 ≤ i := by omega
    by_cases hi2 : i < 32
    · have : PAGE_FRAME.testBit i = true := by
        interval_cases i <;> rfl
      rw [this, ← Nat.shiftRight_eq_div_pow, Nat.testBit_shiftRight]
      have h3 : 12 + (i - 12) = i := by omega
      simp [h12, h3]
    · have hx : x.testBit i = false := by
        apply Nat.testBit_lt_two_pow
        calc x < 2 ^ 32 := h32
          _ ≤ 2 ^ i := Nat.pow_le_pow_right (by decide) (by omega)
      have hx2 : (x / 2 ^ 12).testBit (i - 12) = false := by
        rw [← Nat.shiftRight_eq_div_pow, Nat.testBit_shiftRight]
        have : 12 + (i - 12) = i := by omega
        rw [this, hx]
      rw [hx, hx2]
      simp

theorem aligned_values (vaddr sz : Nat) (hv : vaddr < 2 ^ 32)
    (hround : vaddr % 4096 + sz + 4095 < 2 ^ 32) :
    aligned_base vaddr = vaddr - vaddr % 4096
    ∧ aligned_size vaddr sz
        = (sz + vaddr % 4096 + 4095) - (sz + vaddr % 4096 + 4095) % 4096 := by
  have hlow : vaddr &&& NOT_PAGE_FRAME = vaddr % 4096 := by
    rw [show NOT_PAGE_FRAME = 2 ^ 12 - 1 from rfl, Nat.and_pow_two_sub_one_eq_mod]
  refine ⟨land_PAGE_FRAME_eq vaddr hv, ?_⟩
  unfold aligned_size
  rw [hlow]
  have h1 : (sz + vaddr % 4096) % WORD = sz + vaddr % 4096 := by
    apply Nat.mod_eq_of_lt
    unfold WORD
    omega
  have h2 : (sz + vaddr % 4096 + PAGE_SIZE - 1) % WORD = sz + vaddr % 4096 + 4095 := by
    unfold PAGE_SIZE WORD
    have : sz + vaddr % 4096 + 4096 - 1 = sz + vaddr % 4096 + 4095 := by omega
    rw [this]
    apply Nat.mod_eq_of_lt
    omega
  rw [h1, h2]
  exact land_PAGE_FRAME_eq _ (by omega)

/-- The region that a successful `as_define_region` appends, when the aligned
range does not wrap: its base is `vaddr` with the low 12 bits cleared, its end
plus one is a multiple of 4096, it covers `[vaddr, vaddr + size)`, and no
shorter whole number of pages from that base does. -/
theorem as_define_region_alignment (w w1 : World) (as as1 : addrspace) (vaddr sz r wr x : Nat)
    (hv : vaddr < 2 ^ 32) (hs : 0 < sz) (hround : vaddr % 4096 + sz + 4095 < 2 ^ 32)
    (hnowrap : aligned_base vaddr + aligned_size vaddr sz ≤ 2 ^ 32)
    (h : as_define_region w as vaddr sz r wr x = .ok (SUCCESS, w1, as1)) :
    ∃ be, region_bounds as1 = region_bounds as ++ [be]
      ∧ be.1 = vaddr - vaddr % 4096
      ∧ (be.2 + 1) % 4096 = 0
      ∧ be.1 ≤ vaddr
      ∧ vaddr + sz - 1 ≤ be.2
      ∧ ∀ m, m % 4096 = 0 → vaddr + sz ≤ be.1 + m → be.2 + 1 - be.1 ≤ m := by
  rcases as_define_region_cases w as vaddr sz r wr x _ h with ⟨h0, -, -⟩ | ⟨-, h1⟩
  · exact absurd rfl h0
  · simp only at h1
    obtain ⟨hb, -, -⟩ := Create_Region_bounds _ _ _ _ _ _ _ h1
    obtain ⟨ab, asz⟩ := aligned_values vaddr sz hv hround
    rw [ab, asz] at hb hnowrap
    refine ⟨_, hb, ?_, ?_, ?_, ?_, ?_⟩
    · rfl
    · simp only [WORD]; omega
    · simp only; omega
    · simp only [WORD]; omega
    · intro m hm hle
      simp only [WORD] at hle ⊢
      omega

/-- C38, the code at the failing input: `vaddr = 0x2000`, `size = 0xfffff000`.
The rounding of the size does not overflow, the sum of base and size wraps to
`0x1000`, the call returns 0, and the appended region has `base_addr = 0x2000`
and `end_addr = 0xfff`: it ends below its base and does not reach the last
byte of the request. -/
theorem as_define_region_wrapped_range_not_covered :
    0x2000 % 4096 + 0xfffff000 + 4095 < 2 ^ 32
    ∧ as_define_region boot_world empty_as 0x2000 0xfffff000 PF_R PF_W 0
        = .ok (SUCCESS, boot_world, ex_wrap_define)
    ∧ ex_wrap_define.region_nodes.map region_fields = [(0x2000, 0xfff, 4, 2, 0, false)]
    ∧ (aligned_base 0x2000 + aligned_size 0x2000 0xfffff000) % WORD = 0x1000
    ∧ (∀ r ∈ ex_wrap_define.region_nodes,
        r.end_addr < r.base_addr ∧ r.end_addr < 0x2000 + 0xfffff000 - 1) :=
  ⟨by decide, rfl, by decide!, by decide!, by decide!⟩

/-! ## Fork when the allocation of a level-3 array fails -/

/-- C2, the code at the failing input: the fork-time copy of a table holding
the one PTE `0x100600` into an empty table, when the level-3 array of the
destination cannot be allocated. The function `Page_table_copy` returns `SUCCESS`; the
PTE of the source is still `0x100600`, with `DIRTY`, not `0x100200`, and the
destination reads 0 for the page. -/
theorem Page_table_copy_failed_array_not_shared :
    Page_table_lookup ex_data_mapped 0x401000 = .ok 0x100600
    ∧ Page_table_lookup empty_as 0x401000 = .ok 0
    ∧ Page_table_copy (ex_world_kmallocs [true, false]) ex_data_mapped.PageTable
        empty_as.PageTable = .ok ex_fork_failed
    ∧ ex_fork_failed.1 = SUCCESS
    ∧ Page_table_lookup { ex_data_mapped with PageTable := ex_fork_failed.2.2.1 } 0x401000
        = .ok 0x100600
    ∧ 0x100600 &&& TLBLO_DIRTY = TLBLO_DIRTY
    ∧ 0x100600 &&& NOT_DIRTY = 0x100200
    ∧ Page_table_lookup { empty_as with PageTable := ex_fork_failed.2.2.2 } 0x401000 = .ok 0 :=
  ⟨by decide!, by decide!, Res.eq_ok_of_isOk _ _ (by decide!), by decide!, by decide!,
    by decide, by decide, by decide!⟩

/-- C3, the code at the failing input: the same copy. The source has one
non-zero PTE, which names frame `0x100000`; `Page_table_copy` returns
`SUCCESS` and the reference count of that frame is 1 as before, where the copy
without a failed allocation raises it to 2. -/
theorem Page_table_copy_failed_array_not_counted :
    Page_table_lookup ex_data_mapped 0x401000 = .ok 0x100600
    ∧ 0x100600 &&& PAGE_FRAME = 0x100000
    ∧ (ex_world_kmallocs [true, false]).refcount 0x100000 = 1
    ∧ Page_table_copy (ex_world_kmallocs [true, false]) ex_data_mapped.PageTable
        empty_as.PageTable = .ok ex_fork_failed
    ∧ ex_fork_failed.1 = SUCCESS
    ∧ ex_fork_failed.2.1.refcount 0x100000 = 1
    ∧ ex_fork.1 = SUCCESS
    ∧ ex_fork.2.1.refcount 0x100000 = 2 :=
  ⟨by decide!, by decide, by decide!, Res.eq_ok_of_isOk _ _ (by decide!), by decide!,
    by decide!, by decide!, by decide!⟩

/-- C23, the code at the failing input: `as_copy` of the mapped data region
when the level-3 array of the copy cannot be allocated. The function `as_copy` returns 0
and hands back a copy; the count of frame `0x100000` is still 1; `as_destroy`
of that copy reads the slots of the level-2 array that were never written and
does not return. -/
theorem as_copy_failed_array_destroy_traps :
    Page_table_lookup ex_data_mapped 0x401000 = .ok 0x100600
    ∧ as_copy (ex_world_kmallocs [true, true, true, true, true, true, false]) ex_data_mapped
        = .ok ex_copy_failed
    ∧ ex_copy_failed.1 = SUCCESS
    ∧ ex_copy_failed.2.2.2.isSome = true
    ∧ ex_copy_failed.2.1.refcount 0x100000 = 1
    ∧ as_destroy ex_copy_failed.2.1 (ex_copy_failed.2.2.2.getD empty_as) = .trap :=
  ⟨by decide!, Res.eq_ok_of_isOk _ (1, ex_world1, ex_data_mapped, none) (by decide!),
    by decide!, by decide!, by decide!, Res.eq_trap_of_isTrap _ (by decide!)⟩

end VirtuOS
